import Mathlib

/-!
# topomate: address pools, policy derivation and external links

A shallow embedding of `project/net.go` and of the external-link part of
`project/base.go`, together with the pieces of the Go standard library
(`net`) and of `github.com/apparentlymart/go-cidr/cidr` these functions call.

Byte slices holding addresses are represented by their length in bytes and
their big-endian integer value; canonical masks by the pair that
`IPMask.Size` returns.  Fatal exits (`utils.Fatalln`, `utils.Fatalf`) are
values of `Fatal` carried by `Except`.
-/

namespace Topomate

/-! ## Go `net`: addresses, masks and networks -/

namespace net

/-- An address slice `net.IP`: `len` bytes whose big-endian value is `val`.
The nil slice is `⟨0, 0⟩`. -/
structure IP where
  len : Nat
  val : Nat
deriving DecidableEq, Repr

/-- A canonical `net.IPMask`: `ones` leading one bits out of `bits`.
The nil mask is `⟨0, 0⟩`. -/
structure IPMask where
  ones : Nat
  bits : Nat
deriving DecidableEq, Repr

/-- A network `net.IPNet`. -/
structure IPNet where
  IP : IP
  Mask : IPMask
deriving DecidableEq, Repr

/-- The nil address. -/
def IP.nil : IP := ⟨0, 0⟩

/-- Method `IP.To4`: the 4-byte form of an IPv4 address, `none` for nil.  A
4-byte slice is returned as is; a 16-byte slice whose first twelve bytes are
`00 .. 00 ff ff` yields its last four bytes. -/
def IP.To4 (ip : IP) : Option IP :=
  if ip.len = 4 then some ip
  else if ip.len = 16 ∧ ip.val / 2 ^ 32 = 0xffff then some ⟨4, ip.val % 2 ^ 32⟩
  else none

/-- Method `IPMask.Size`: number of leading ones and total number of bits. -/
def IPMask.Size (m : IPMask) : Nat × Nat := (m.ones, m.bits)

/-- Function `net.CIDRMask`: nil unless `bits` is 32 or 128 and
`0 ≤ ones ≤ bits`. -/
def CIDRMask (ones bits : Int) : IPMask :=
  if (bits = 32 ∨ bits = 128) ∧ 0 ≤ ones ∧ ones ≤ bits then ⟨ones.toNat, bits.toNat⟩
  else ⟨0, 0⟩

/-- Method `IP.Mask`: the address with the host bits cleared.  A 16-byte mask
with twelve leading `ff` bytes is cut to four bytes for a 4-byte address, an
IPv4-mapped 16-byte address is cut to four bytes for a 4-byte mask, and
operands whose lengths still differ give nil. -/
def IP.Mask (ip : IP) (mask : IPMask) : IP :=
  let mask : IPMask :=
    if mask.bits = 128 ∧ ip.len = 4 ∧ 96 ≤ mask.ones then ⟨mask.ones - 96, 32⟩ else mask
  let ip : IP :=
    if mask.bits = 32 ∧ ip.len = 16 ∧ ip.val / 2 ^ 32 = 0xffff then ⟨4, ip.val % 2 ^ 32⟩ else ip
  if 8 * ip.len = mask.bits then
    ⟨ip.len, ip.val / 2 ^ (mask.bits - mask.ones) * 2 ^ (mask.bits - mask.ones)⟩
  else IP.nil

/-- The big-endian bytes of an address. -/
def IP.bytes (ip : IP) : List Nat :=
  (List.range ip.len).map (fun i => ip.val / 256 ^ (ip.len - 1 - i) % 256)

/-- The eight 16-bit groups of a 16-byte address. -/
def IP.groups (ip : IP) : List Nat :=
  (List.range 8).map (fun i => ip.val / 65536 ^ (7 - i) % 65536)

/-- Length of the run of zero groups a list starts with. -/
def zeroRun : List Nat → Nat
  | 0 :: t => zeroRun t + 1
  | _ => 0

/-- Start and length of the first longest run of zero groups, as found by the
scan in `IP.String` (a later run replaces the current one only when strictly
longer). -/
def longestZeroRun (gs : List Nat) : Nat × Nat :=
  (List.range gs.length).foldl
    (fun best i => if best.2 < zeroRun (gs.drop i) then (i, zeroRun (gs.drop i)) else best)
    (0, 0)

/-- Lower-case hexadecimal without leading zeros. -/
def hex (n : Nat) : String := String.mk (Nat.toDigits 16 n)

/-- Two lower-case hexadecimal digits of a byte. -/
def hexByte (b : Nat) : String :=
  String.mk [Nat.digitChar (b / 16), Nat.digitChar (b % 16)]

/-- Method `IP.String`: dotted decimal for IPv4 (4-byte or IPv4-mapped),
the colon form with the first longest run of at least two zero groups
replaced by `::` for other 16-byte addresses. -/
def IP.String (ip : IP) : String :=
  if ip.len = 0 then "<nil>"
  else match ip.To4 with
    | some p4 => ".".intercalate (p4.bytes.map toString)
    | none =>
      if ip.len ≠ 16 then "?" ++ String.join (ip.bytes.map hexByte)
      else
        let gs := ip.groups
        let run := longestZeroRun gs
        if run.2 ≤ 1 then ":".intercalate (gs.map hex)
        else
          ":".intercalate ((gs.take run.1).map hex) ++ "::" ++
            ":".intercalate ((gs.drop (run.1 + run.2)).map hex)

/-- Method `IPNet.String`: address, a slash and the number of leading ones. -/
def IPNet.String (n : IPNet) : String :=
  n.IP.String ++ "/" ++ toString n.Mask.ones

/-- A CIDR string `addr/ones`, read as far as its two parts: the address
(4 bytes when written in dotted decimal, 16 bytes when written with colons)
and the number after the slash. -/
structure CIDRText where
  addr : IP
  ones : Int
deriving DecidableEq, Repr

/-- Function `net.ParseCIDR`, second result: the network with the host bits
cleared, or `none` for a parse error. -/
def ParseCIDR (s : CIDRText) : Option IPNet :=
  if (s.addr.len = 4 ∨ s.addr.len = 16) ∧ s.addr.val < 2 ^ (8 * s.addr.len) ∧
      0 ≤ s.ones ∧ s.ones ≤ 8 * s.addr.len then
    some ⟨s.addr.Mask (CIDRMask s.ones (8 * s.addr.len)), CIDRMask s.ones (8 * s.addr.len)⟩
  else none

/-- An address slice of Go: 4 or 16 bytes. -/
def IP.wf (ip : IP) : Prop := (ip.len = 4 ∨ ip.len = 16) ∧ ip.val < 2 ^ (8 * ip.len)

instance (ip : IP) : Decidable ip.wf := by unfold IP.wf; infer_instance

/-- Method `IP.Equal`: same address, a 4-byte IPv4 address and its 16-byte
IPv4-mapped form being equal. -/
def IP.Equal (ip x : IP) : Bool :=
  if ip.len = x.len then decide (ip.val = x.val)
  else if ip.len = 4 ∧ x.len = 16 then decide (x.val / 2 ^ 32 = 0xffff ∧ ip.val = x.val % 2 ^ 32)
  else if ip.len = 16 ∧ x.len = 4 then decide (ip.val / 2 ^ 32 = 0xffff ∧ ip.val % 2 ^ 32 = x.val)
  else false

/-- The variable `net.IPv4zero`, the 16-byte form of `0.0.0.0`. -/
def IPv4zero : IP := ⟨16, 0xffff * 2 ^ 32⟩

/-- The variable `net.IPv6zero`, sixteen zero bytes. -/
def IPv6zero : IP := ⟨16, 0⟩

/-- The dotted-decimal address `a.b.c.d` as a 4-byte slice. -/
def ip4 (a b c d : Nat) : IP := ⟨4, ((a * 256 + b) * 256 + c) * 256 + d⟩

/-- The network `a.b.c.d/ones` as `net.ParseCIDR` stores it when the host
bits of `a.b.c.d` are zero. -/
def cidr4 (a b c d ones : Nat) : IPNet := ⟨ip4 a b c d, ⟨ones, 32⟩⟩

end net

/-! ## go-cidr: address arithmetic -/

namespace cidr

open net

/-- Helper `checkIPv4`: the 4-byte form when the address is IPv4. -/
def checkIPv4 (ip : IP) : IP :=
  match ip.To4 with
  | some v4 => v4
  | none => ip

/-- Function `cidr.Inc`: a fresh slice holding the address plus one, the
carry running through all bytes and dropped at the top. -/
def Inc (ip : IP) : IP :=
  let ip := checkIPv4 ip
  ⟨ip.len, (ip.val + 1) % 2 ^ (8 * ip.len)⟩

/-- Function `cidr.AddressRange`: first and last address of a network.  The
last address is the first one with all host bits set, the width being that of
the address slice (4 or 16 bytes; the library panics on other lengths).  The
number of host bits is an unsigned difference in the library; the difference
of naturals used here is the same number whenever the mask is no longer than
the slice. -/
def AddressRange (network : IPNet) : IP × IP :=
  let firstIP := network.IP
  if network.Mask.Size.1 = network.Mask.Size.2 then (firstIP, firstIP)
  else
    let bits := 8 * firstIP.len
    let hostLen := bits - network.Mask.Size.1
    (firstIP, ⟨firstIP.len, (2 ^ hostLen - 1) ||| firstIP.val⟩)

/-- Function `cidr.NextSubnet`: the subnet of length `prefixLen` that follows
the last address of `network`; the flag is set when the increment ran past
the top of the address space. -/
def NextSubnet (network : IPNet) (prefixLen : Int) : IPNet × Bool :=
  let currentLast := (AddressRange network).2
  let mask := CIDRMask prefixLen (8 * currentLast.len)
  let currentSubnet : IPNet := ⟨currentLast.Mask mask, mask⟩
  let last := (AddressRange currentSubnet).2
  let last := Inc last
  let next : IPNet := ⟨last.Mask mask, mask⟩
  if last.Equal IPv4zero || last.Equal IPv6zero then (next, true) else (next, false)

/-- Function `cidr.Subnet`: subnet number `num` of `base` with the mask
extended by `newBits`; `none` is the error result.  The largest subnet number
is computed in 64 bits without sign. -/
def Subnet (base : IPNet) (newBits : Int) (num : Nat) : Option IPNet :=
  let parentLen := base.Mask.Size.1
  let addrLen := base.Mask.Size.2
  let newPrefixLen : Int := parentLen + newBits
  if newPrefixLen > addrLen then none
  else
    let maxNetNum : Nat := if 0 ≤ newBits ∧ newBits < 64 then 2 ^ newBits.toNat - 1 else 2 ^ 64 - 1
    if num > maxNetNum then none
    else
      some ⟨⟨base.IP.len, base.IP.val ||| (num <<< ((8 * base.IP.len : Int) - newPrefixLen).toNat)⟩,
        CIDRMask newPrefixLen addrLen⟩

end cidr

open net

/-! ## project/net.go: address pools -/

/-- Reasons for which the program exits through `utils.Fatalln` or
`utils.Fatalf`, with the values printed in the message. -/
inductive Fatal where
  /-- `NewNetwork:` followed by the error of `net.ParseCIDR` or `cidr.Subnet`. -/
  | newNetwork
  /-- `Network %s: no more subnets of size %d available`. -/
  | noMoreSubnets (network : String) (size : Int)
  /-- `NextIP: Subnet full` followed by the cursor. -/
  | subnetFull (cursor : String)
deriving DecidableEq, Repr

deriving instance DecidableEq for Except

/-- The struct `Net`: parent network, cursor, count of remaining subnets. -/
structure Net where
  IPNet : net.IPNet
  NextAvailable : net.IPNet
  AvailableSubnets : Int
  AutoAddress : Bool
deriving DecidableEq, Repr

/-- The expression `int(math.Pow(2, float64(k)))` on a 64-bit platform.  The
power is exact in floating point; it is below one for negative `k`, and from
`k = 63` on it is outside the range of `int`, where the language leaves the
converted value to the implementation: `ovf` stands for that value. -/
def pow2ToInt (ovf : Int) (k : Int) : Int :=
  if k < 0 then 0 else if k ≤ 62 then 2 ^ k.toNat else ovf

/-- Function `NewNetwork`.  `pfx` is the CIDR string, `ovf` the value of an
out-of-range conversion to `int` (see `pow2ToInt`). -/
def NewNetwork (ovf : Int) (pfx : CIDRText) (prefixLen : Int) : Except Fatal Net :=
  match ParseCIDR pfx with
  | none => .error .newNetwork
  | some n =>
    let cur : Int := n.Mask.Size.1
    let max : Int := n.Mask.Size.2
    let subLen : Int := if prefixLen > 0 then prefixLen - cur else max - 2 - cur
    let prefixLen : Int := if prefixLen > 0 then prefixLen else max - 2
    match cidr.Subnet n subLen 0 with
    | none => .error .newNetwork
    | some s =>
      .ok {
        IPNet := n
        NextAvailable := s
        AvailableSubnets := pow2ToInt ovf (prefixLen - cur)
        AutoAddress := true }

/-- Method `Net.NextSubnet`: the current cursor, and the pool with the cursor
moved to the next subnet. -/
def Net.NextSubnet (n : Net) (prefixLen : Int) : Except Fatal (net.IPNet × Net) :=
  let res := n.NextAvailable
  if n.AvailableSubnets < 1 then .error (.noMoreSubnets n.IPNet.String prefixLen)
  else
    let r := cidr.NextSubnet n.NextAvailable prefixLen
    if r.2 then .error (.subnetFull n.NextAvailable.String)
    else .ok (res, { n with NextAvailable := r.1, AvailableSubnets := n.AvailableSubnets - 1 })

/-- Method `Net.Is4`. -/
def Net.Is4 (n : Net) : Bool := n.IPNet.IP.To4.isSome

/-- Method `Net.NextLinkIPs`: the two first host addresses of the cursor
subnet, and the pool after taking that subnet.  Both branches of the source
run the same statements. -/
def Net.NextLinkIPs (n : Net) : Except Fatal ((net.IPNet × net.IPNet) × Net) :=
  let subLen : Int := n.NextAvailable.Mask.Size.1
  if n.Is4 then
    match n.NextSubnet subLen with
    | .error e => .error e
    | .ok (s, n) =>
      let s : net.IPNet := { s with IP := cidr.Inc s.IP }
      let a := s
      let s : net.IPNet := { s with IP := cidr.Inc s.IP }
      let b := s
      .ok ((a, b), n)
  else
    match n.NextSubnet subLen with
    | .error e => .error e
    | .ok (s, n) =>
      let s : net.IPNet := { s with IP := cidr.Inc s.IP }
      let a := s
      let s : net.IPNet := { s with IP := cidr.Inc s.IP }
      let b := s
      .ok ((a, b), n)

/-- Method `Net.NextIP`: the current cursor, and the pool with the cursor
address replaced by a fresh slice holding the address plus one. -/
def Net.NextIP (n : Net) : net.IPNet × Net :=
  let res := n.NextAvailable
  (res, { n with NextAvailable := { n.NextAvailable with IP := cidr.Inc n.NextAvailable.IP } })

/-- Method `Net.CheckPrefix`. -/
def Net.CheckPrefix (n : Net) (prefixLen : Int) : Int × Bool :=
  let m : Int := n.IPNet.Mask.Size.1
  let max : Int := n.IPNet.Mask.Size.2
  (m, !(prefixLen < m || prefixLen > max))

/-! ## project/router.go and project/base.go: routers and external links -/

/-- The struct `AddressFamily`. -/
structure AddressFamily where
  IPv4 : Bool
  IPv6 : Bool
  VPNv4 : Bool
  VPNv6 : Bool
deriving DecidableEq, Repr

/-- The struct `BGPNbr`. -/
structure BGPNbr where
  RemoteAS : Int
  UpdateSource : String
  ConnCheck : Bool
  NextHopSelf : Bool
  IfName : String
  RouteMapsIn : List String
  RouteMapsOut : List String
  AF : AddressFamily
  RRClient : Bool
  RSClient : Bool
  Mask : Int
deriving DecidableEq, Repr

/-- The struct `OSPFNet`. -/
structure OSPFNet where
  Prefix : String
  Area : Int
deriving DecidableEq, Repr

/-- The struct `NetInterface`, with the fields the functions embedded here
read or write (its declaration is in a file outside this development). -/
structure NetInterface where
  IfName : String
  Description : String
  IP : net.IPNet
  Speed : Int
  External : Bool
  VRF : String
deriving DecidableEq, Repr

/-- The struct `Router`.  `Links` holds the interfaces the router points to,
`Neighbors` is the map from peer address text to neighbour record (a key
that is absent reads as `none`). -/
structure Router where
  ID : Int
  Hostname : String
  ContainerName : String
  CustomImage : String
  Loopback : List net.IPNet
  Links : List NetInterface
  Neighbors : String → Option BGPNbr
  NextInterface : Int
  ISISLevel : Int
  ISISArea : Int
  OSPF : List OSPFNet

/-- The relation constants `Provider`, `Peer` and `Customer` that
`getRouteMaps` switches on; their declaration is outside this development, so
their values are parameters. -/
structure Relations where
  Provider : Int
  Peer : Int
  Customer : Int
deriving DecidableEq, Repr

/-- The three constants are pairwise different, as the cases of one Go
`switch` have to be. -/
def Relations.Distinct (c : Relations) : Prop :=
  c.Provider ≠ c.Peer ∧ c.Provider ≠ c.Customer ∧ c.Peer ≠ c.Customer

instance (c : Relations) : Decidable c.Distinct := by unfold Relations.Distinct; infer_instance

/-- Function `getRouteMaps`: the route map named after the relation, then the
maps given by the caller. -/
def getRouteMaps (c : Relations) (relation : Int) (inMaps outMaps : List String) :
    List String × List String :=
  let i : List String := []
  let o : List String := []
  let (i, o) :=
    if relation = c.Provider then (i ++ ["PROVIDER_IN"], o ++ ["PROVIDER_OUT"])
    else if relation = c.Peer then (i ++ ["PEER_IN"], o ++ ["PEER_OUT"])
    else if relation = c.Customer then (i ++ ["CUSTOMER_IN"], o ++ ["CUSTOMER_OUT"])
    else (i ++ ["ALLOW_ALL"], o ++ ["ALLOW_ALL"])
  (i ++ inMaps, o ++ outMaps)

/-- A pointer to a `Router`: its index in the store of routers. -/
abbrev RouterPtr := Nat

/-- One side of an external link (struct declared outside this development):
AS number, router, interface and relation. -/
structure ExternalLinkItem where
  ASN : Int
  Router : RouterPtr
  Interface : NetInterface
  Relation : Int
deriving DecidableEq, Repr

/-- The struct `ExternalLink`. -/
structure ExternalLink where
  From : ExternalLinkItem
  To : ExternalLinkItem
deriving DecidableEq, Repr

/-- The part of `AutonomousSystem` that `linkExternal` reads: the address
pool `Network`, `none` when it was left at its zero value (no parent
network). -/
structure AutonomousSystem where
  ASN : Int
  Network : Option Net
deriving DecidableEq, Repr

/-- The struct `Project` as `linkExternal` sees it: the map of autonomous
systems, the external links, and the routers that the links point to. -/
structure Project where
  AS : Int → Option AutonomousSystem
  Ext : List ExternalLink
  routers : RouterPtr → Router

/-- Assignment through a router pointer. -/
def Project.setRouter (p : Project) (r : RouterPtr) (v : Router) : Project :=
  { p with routers := fun q => if q = r then v else p.routers q }

/-- Assignment `m[key] = v` on a map. -/
def mapSet (m : String → Option BGPNbr) (key : String) (v : BGPNbr) : String → Option BGPNbr :=
  fun k => if k = key then some v else m k

/-- The expression `p.AS[asn].Network.Is4()`; `none` is the run-time panic
on an autonomous system that is missing or has no network. -/
def Project.networkIs4 (p : Project) (asn : Int) : Option Bool :=
  match p.AS asn with
  | none => none
  | some a =>
    match a.Network with
    | none => none
    | some n => some n.Is4

/-- Body of the loop of `Project.linkExternal` for one link; `none` is a
run-time panic. -/
def linkExternalStep (c : Relations) (p : Project) (lnk : ExternalLink) : Option Project :=
  let fromID := lnk.From.Interface.IP
  let toID := lnk.To.Interface.IP
  let fromID :=
    match (p.routers lnk.From.Router).Loopback with
    | lo :: _ => lo
    | [] => fromID
  let toID :=
    match (p.routers lnk.To.Router).Loopback with
    | lo :: _ => lo
    | [] => toID
  let af : AddressFamily := ⟨false, false, false, false⟩
  let af : AddressFamily :=
    if lnk.From.Interface.IP.IP.To4.isSome then { af with IPv4 := true }
    else { af with IPv6 := true }
  let notAll4 : Option Bool :=
    match p.networkIs4 lnk.To.ASN with
    | none => none
    | some false => some true
    | some true =>
      match p.networkIs4 lnk.From.ASN with
      | none => none
      | some b => some (!b)
  match notAll4 with
  | none => none
  | some cond =>
    let af : AddressFamily := if cond then { af with IPv6 := true } else { af with IPv4 := true }
    let fromIf : NetInterface :=
      { lnk.From.Interface with
        Description := "linked to AS" ++ toString lnk.To.ASN ++ " (" ++
          (p.routers lnk.To.Router).Hostname ++ ")" }
    let r := p.routers lnk.From.Router
    let p := p.setRouter lnk.From.Router { r with Links := r.Links ++ [fromIf] }
    let m : Int := toID.Mask.Size.1
    let rm := getRouteMaps c lnk.To.Relation [] []
    let nbr : BGPNbr :=
      { RemoteAS := lnk.To.ASN
        UpdateSource := "lo"
        ConnCheck := false
        NextHopSelf := false
        IfName := lnk.From.Interface.IfName
        RouteMapsIn := rm.1
        RouteMapsOut := rm.2
        AF := af
        RRClient := false
        RSClient := false
        Mask := m }
    let r := p.routers lnk.From.Router
    let p := p.setRouter lnk.From.Router
      { r with Neighbors := mapSet r.Neighbors toID.IP.String nbr }
    let toIf : NetInterface :=
      { lnk.To.Interface with
        Description := "linked to AS" ++ toString lnk.From.ASN ++ " (" ++
          (p.routers lnk.From.Router).Hostname ++ ")" }
    let r := p.routers lnk.To.Router
    let p := p.setRouter lnk.To.Router { r with Links := r.Links ++ [toIf] }
    let m : Int := fromID.Mask.Size.1
    let rm := getRouteMaps c lnk.From.Relation [] []
    let nbr : BGPNbr :=
      { RemoteAS := lnk.From.ASN
        UpdateSource := "lo"
        ConnCheck := false
        NextHopSelf := false
        IfName := lnk.To.Interface.IfName
        RouteMapsIn := rm.1
        RouteMapsOut := rm.2
        AF := af
        RRClient := false
        RSClient := false
        Mask := m }
    let r := p.routers lnk.To.Router
    let p := p.setRouter lnk.To.Router
      { r with Neighbors := mapSet r.Neighbors fromID.IP.String nbr }
    some p

/-- Method `Project.linkExternal`: the loop over `p.Ext`. -/
def Project.linkExternal (c : Relations) (p : Project) : Option Project :=
  p.Ext.foldlM (linkExternalStep c) p

/-! ## project/base.go: `ReadConfig`, the routers of an autonomous system -/

/-- Reasons for which `ReadConfig` stops without a project. -/
inductive ConfigStop where
  /-- Exit with `AS%d: cannot generate AS without routers`. -/
  | noRouters (asn : Int)
  /-- Exit inside `NewNetwork`. -/
  | network (f : Fatal)
  /-- Exit through `utils.Fatalln(err)` after `net.ParseCIDR` failed. -/
  | parseError
  /-- Run-time panic: index out of range, with the index and the length. -/
  | indexOutOfRange (index : Int) (len : Nat)
deriving DecidableEq, Repr

/-- The fields of an entry of `conf.AS` that `ReadConfig` reads up to the
generation of the routers (the configuration types are declared outside this
development).  A string holding a CIDR is `none` when it is empty. -/
structure ASConfig where
  ASN : Int
  NumRouters : Int
  Prefix : Option CIDRText
  SubnetLength : Int
  LoRange : Option CIDRText
deriving DecidableEq, Repr

/-- The methods `CheckLevel` and `CheckArea` of the IS-IS part of the
configuration, declared outside this development. -/
structure ISISChecks where
  CheckLevel : Int → Int
  CheckArea : Int → Int

/-- The router `ReadConfig` creates at position `i` of `a.Routers`. -/
def newRouter (k : ASConfig) (i : Nat) : Router :=
  { ID := ((i + 1 : Nat) : Int)
    Hostname := "R" ++ toString (i + 1)
    ContainerName := "AS" ++ toString k.ASN ++ "-" ++ ("R" ++ toString (i + 1))
    CustomImage := ""
    Loopback := []
    Links := []
    Neighbors := fun _ => none
    NextInterface := 0
    ISISLevel := 0
    ISISArea := 0
    OSPF := [] }

/-- The loop `for i := 0; i < k.NumRouters; i++` of `ReadConfig`, with `count`
passes left, `i` the loop variable and `loNet` the network `loNet` points to
(`none` for the nil pointer).  `isis` holds the IS-IS checks when the guard
`a.IGPType() == IGPISIS && k.ISIS.Areas != nil` is true.  Each pass stores a
copy of `*loNet` in the router, then gives `loNet` a fresh incremented
address. -/
def routerLoop (k : ASConfig) (isis : Option ISISChecks) :
    Nat → Nat → Option net.IPNet → List Router
  | 0, _, _ => []
  | count + 1, i, loNet =>
    let r := newRouter k i
    let r : Router :=
      match loNet with
      | some lo => { r with Loopback := r.Loopback ++ [lo] }
      | none => r
    let loNet : Option net.IPNet :=
      match loNet with
      | some lo => some { lo with IP := cidr.Inc lo.IP }
      | none => none
    let r : Router :=
      match isis with
      | some c =>
        let r : Router :=
          if c.CheckLevel r.ID ≠ 0 then { r with ISISLevel := c.CheckLevel r.ID } else r
        { r with ISISArea := c.CheckArea r.ID }
      | none => r
    r :: routerLoop k isis count (i + 1) loNet

/-- What `ReadConfig` has built for one autonomous system once its routers are
generated. -/
structure ASHead where
  ASN : Int
  Network : Option Net
  LoStart : Option net.IPNet
  Routers : List Router

/-- Function `ReadConfig`, body of the loop over `conf.AS` from the check of
the router count to the end of the generation of the routers. -/
def readAS (ovf : Int) (k : ASConfig) (isis : Option ISISChecks) : Except ConfigStop ASHead :=
  if k.NumRouters < 1 then .error (.noRouters k.ASN)
  else
    let network : Except ConfigStop (Option Net) :=
      match k.Prefix with
      | none => .ok none
      | some pfx =>
        match NewNetwork ovf pfx k.SubnetLength with
        | .error f => .error (.network f)
        | .ok n => .ok (some (if k.SubnetLength < 0 then { n with AutoAddress := false } else n))
    match network with
    | .error e => .error e
    | .ok nw =>
      let lo : Except ConfigStop (Option net.IPNet) :=
        match k.LoRange with
        | none => .ok none
        | some t =>
          match ParseCIDR t with
          | none => .error .parseError
          | some n => .ok (some n)
      match lo with
      | .error e => .error e
      | .ok loNet =>
        .ok
          { ASN := k.ASN
            Network := nw
            LoStart := loNet
            Routers := routerLoop k isis k.NumRouters.toNat 0 loNet }

/-! ## project/base.go: `ReadConfig`, the customers of a VPN -/

/-- One side of a link (struct `LinkItem`, declared outside this
development): a router and one of its interfaces. -/
structure LinkItem where
  Router : RouterPtr
  Interface : NetInterface
deriving DecidableEq, Repr

/-- The struct `Link`: two sides. -/
structure Link where
  First : LinkItem
  Second : LinkItem
deriving DecidableEq, Repr

/-- A customer entry of a VPN in the configuration (type declared outside this
development).  A string holding a CIDR is `none` when it is empty. -/
structure VPNCustomerConfig where
  Hostname : String
  Subnet : Option CIDRText
  Loopback : Option CIDRText
  Parent : Int
  Hub : Bool
  RemoteSubnet : Option CIDRText
  SubnetDown : Option CIDRText
deriving DecidableEq, Repr

/-- A VPN entry of the configuration (type declared outside this
development). -/
structure VPNConfig where
  VRF : String
  HubMode : Bool
  Customers : List VPNCustomerConfig
deriving DecidableEq, Repr

/-- The struct `VPNCustomer`; a pointer not yet assigned is `none`. -/
structure VPNCustomer where
  Router : Option RouterPtr
  Parent : Option RouterPtr
  Hub : Bool
deriving DecidableEq, Repr

/-- The struct `VPN`; a key absent from `Neighbors` reads as `false`. -/
structure VPN where
  VRF : String
  Customers : List VPNCustomer
  Neighbors : String → Bool
  SpokeSubnets : List net.IPNet

/-- The autonomous system under construction as the customer loop sees it:
the memory of routers (`routers`, with `next` the first pointer not yet
used), the slice `Routers`, the links and the VPNs. -/
structure ASState where
  routers : RouterPtr → Router
  next : RouterPtr
  Routers : List RouterPtr
  Links : List Link
  VPN : List VPN

/-- Assignment through a router pointer. -/
def ASState.setRouter (a : ASState) (p : RouterPtr) (r : Router) : ASState :=
  { a with routers := fun q => if q = p then r else a.routers q }

/-- The expression `&Router{...}`: the new router is stored at the first unused
pointer, which is returned. -/
def ASState.alloc (a : ASState) (r : Router) : RouterPtr × ASState :=
  (a.next, { a with routers := fun q => if q = a.next then r else a.routers q, next := a.next + 1 })

/-- The list with `f` applied to the element at position `i`. -/
def updateAt {α : Type} (f : α → α) : Nat → List α → List α
  | _, [] => []
  | 0, x :: xs => f x :: xs
  | i + 1, x :: xs => x :: updateAt f i xs

/-- Assignment `m[key] = true` on a map to booleans. -/
def boolMapSet (m : String → Bool) (key : String) : String → Bool :=
  fun k => if k = key then true else m k

/-- Assignment of the fields of `Customers[i]` of a VPN. -/
def VPN.setCustomer (x : VPN) (i : Nat) (c : VPNCustomer) : VPN :=
  { x with Customers := updateAt (fun _ => c) i x.Customers }

/-- Appending to `SpokeSubnets` of a VPN. -/
def VPN.addSpoke (x : VPN) (rmt : net.IPNet) : VPN :=
  { x with SpokeSubnets := x.SpokeSubnets ++ [rmt] }

/-- Assignment `Neighbors[key] = true` of a VPN. -/
def VPN.setNeighbor (x : VPN) (key : String) : VPN :=
  { x with Neighbors := boolMapSet x.Neighbors key }

/-- Method `Router.LoID`. -/
def Router.LoID (r : Router) : String :=
  match r.Loopback with
  | [] => ""
  | lo :: _ => lo.IP.String

/-- Stands for the nil pointer in a slice of interface pointers. -/
def nilInterface : NetInterface := ⟨"", "", ⟨⟨0, 0⟩, ⟨0, 0⟩⟩, 0, false, ""⟩

/-- Modelled from the spec: the function `NewLinkItem`, whose source is outside
this development.  It makes a side for `router` with a new interface named
`eth<n>`, `n` being the interface counter of the router, and increments that
counter; the other fields of the new interface are those of `blank`. -/
def NewLinkItem (blank : NetInterface) (a : ASState) (router : RouterPtr) : LinkItem × ASState :=
  let r := a.routers router
  (⟨router, { blank with IfName := "eth" ++ toString r.NextInterface }⟩,
    a.setRouter router { r with NextInterface := r.NextInterface + 1 })

/-- Function `net.ParseCIDR` on a string of the configuration. -/
def parseText (s : Option CIDRText) : Option net.IPNet := s.bind ParseCIDR

/-- Function `ReadConfig`, the statements from `l := Link{...}` to
`a.Links = append(a.Links, l)` for the link between the parent router and the
customer router: `n` is the customer subnet with its address incremented
once, `vrf` the VRF of the VPN, `host` the host name of the customer. -/
def linkCustomer (blank : NetInterface) (vrf host : String) (n : net.IPNet)
    (parentRouter router : RouterPtr) (a : ASState) : ASState :=
  let (first, a) := NewLinkItem blank a parentRouter
  let (second, a) := NewLinkItem blank a router
  let first : LinkItem :=
    { first with Interface :=
      { first.Interface with
        IP := n
        Description := "linked to customer " ++ host
        External := true
        VRF := vrf } }
  let n : net.IPNet := { n with IP := cidr.Inc n.IP }
  let second : LinkItem := { second with Interface := { second.Interface with IP := n } }
  let a := a.setRouter parentRouter
    { a.routers parentRouter with Links := (a.routers parentRouter).Links ++ [first.Interface] }
  let a := a.setRouter router
    { a.routers router with Links := (a.routers router).Links.set 0 second.Interface }
  { a with Links := a.Links ++ [⟨first, second⟩] }

/-- Function `ReadConfig`, the statements inside `if v.Hub` after the parse of
the downstream subnet `dn`: the second link between the parent router and the
customer router. -/
def linkDownstream (blank : NetInterface) (vrf host : String) (dn : net.IPNet)
    (parentRouter router : RouterPtr) (a : ASState) : ASState :=
  let (first, a) := NewLinkItem blank a parentRouter
  let (second, a) := NewLinkItem blank a router
  let dn : net.IPNet := { dn with IP := cidr.Inc dn.IP }
  let first : LinkItem :=
    { first with Interface :=
      { first.Interface with
        IP := dn
        Description := "linked to customer " ++ host ++ " (downstream)"
        External := true
        VRF := vrf ++ "_down" } }
  let dn : net.IPNet := { dn with IP := cidr.Inc dn.IP }
  let second : LinkItem := { second with Interface := { second.Interface with IP := dn } }
  let a := a.setRouter parentRouter
    { a.routers parentRouter with Links := (a.routers parentRouter).Links ++ [first.Interface] }
  let a := a.setRouter router
    { a.routers router with Links := (a.routers router).Links ++ [second.Interface] }
  { a with Links := a.Links ++ [⟨first, second⟩] }

/-- The customer router `ReadConfig` creates for customer `i` (entry `v`) of
an autonomous system `asn`, with its loopback when the entry has one that
parses. -/
def customerRouter (asn : Int) (i : Nat) (v : VPNCustomerConfig) : Router :=
  let router : Router :=
    { ID := ((i + 1 : Nat) : Int)
      Hostname := v.Hostname
      ContainerName := "AS" ++ toString asn ++ "-Cust-" ++ v.Hostname
      CustomImage := ""
      Loopback := []
      Links := [nilInterface]
      Neighbors := fun _ => none
      NextInterface := 0
      ISISLevel := 0
      ISISArea := 0
      OSPF := [] }
  match v.Loopback with
  | none => router
  | some t =>
    match ParseCIDR t with
    | some lo => { router with Loopback := router.Loopback ++ [lo] }
    | none => router

/-- Function `ReadConfig`, body of the loop `for i, v := range vpn.Customers`
for customer `i` (entry `v`) of VPN number `idx` (entry `vpn`) of the
autonomous system `asn`. -/
def customerStep (blank : NetInterface) (asn : Int) (vpn : VPNConfig) (idx i : Nat)
    (v : VPNCustomerConfig) (a : ASState) : Except ConfigStop ASState :=
  match parseText v.Subnet with
  | none => .error .parseError
  | some n =>
    let n : net.IPNet := { n with IP := cidr.Inc n.IP }
    let (router, a) := a.alloc (customerRouter asn i v)
    match (if 0 ≤ v.Parent - 1 then a.Routers[(v.Parent - 1).toNat]? else none) with
    | none => .error (.indexOutOfRange (v.Parent - 1) a.Routers.length)
    | some parentRouter =>
      let a : ASState :=
        { a with VPN :=
            updateAt (fun x => x.setCustomer i ⟨some router, some parentRouter, v.Hub⟩) idx a.VPN }
      let spoke : Except ConfigStop ASState :=
        if vpn.HubMode && !v.Hub then
          match parseText v.RemoteSubnet with
          | none => .error .parseError
          | some rmt =>
            .ok { a with VPN := updateAt (fun x => x.addSpoke rmt) idx a.VPN }
        else .ok a
      match spoke with
      | .error e => .error e
      | .ok a =>
        let a : ASState :=
          { a with VPN :=
              updateAt (fun x => x.setNeighbor (a.routers parentRouter).LoID) idx a.VPN }
        let a := linkCustomer blank vpn.VRF v.Hostname n parentRouter router a
        if v.Hub then
          match parseText v.SubnetDown with
          | none => .error .parseError
          | some dn => .ok (linkDownstream blank vpn.VRF v.Hostname dn parentRouter router a)
        else .ok a

/-- The loop `for i, v := range vpn.Customers` of `ReadConfig`, from customer
number `i` on. -/
def customerLoop (blank : NetInterface) (asn : Int) (vpn : VPNConfig) (idx : Nat) :
    List VPNCustomerConfig → Nat → ASState → Except ConfigStop ASState
  | [], _, a => .ok a
  | v :: vs, i, a =>
    match customerStep blank asn vpn idx i v a with
    | .error e => .error e
    | .ok a => customerLoop blank asn vpn idx vs (i + 1) a

/-- Function `ReadConfig`, the statements that prepare `a.VPN[idx]` before
the loop over the customers of the VPN; `a.VPN` has been made with one zero
entry per VPN of the configuration. -/
def vpnInit (vpn : VPNConfig) (idx : Nat) (a : ASState) : ASState :=
  { a with VPN := updateAt (fun _ =>
      { VRF := vpn.VRF
        Customers := List.replicate vpn.Customers.length ⟨none, none, false⟩
        Neighbors := fun _ => false
        SpokeSubnets := [] }) idx a.VPN }

/-- Function `ReadConfig`, body of the loop `for idx, vpn := range k.VPN`. -/
def vpnStep (blank : NetInterface) (asn : Int) (idx : Nat) (vpn : VPNConfig) (a : ASState) :
    Except ConfigStop ASState :=
  customerLoop blank asn vpn idx vpn.Customers 0 (vpnInit vpn idx a)

/-! ## project/base.go: `StartAll` and `setupContainerLinks`, the bridges -/

/-- The methods of `Project` that apply links on the bridges. -/
inductive ApplyStep where
  | ApplyInternalLinks
  | ApplyHostLinks
  | ApplyExternalLinks
  | ApplyIXPLinks
deriving DecidableEq, Repr

/-- Method `Project.StartAll`, the statement `switch strings.ToLower(linksFlag)`:
the methods it calls, in the order of the calls.  `toLower` stands for
`strings.ToLower` of the Go library. -/
def StartAll.linkSteps (toLower : String → String) (linksFlag : String) : List ApplyStep :=
  let flag := toLower linksFlag
  if flag = "internal" then
    [.ApplyInternalLinks, .ApplyHostLinks]
  else if flag = "external" then
    [.ApplyExternalLinks, .ApplyIXPLinks]
  else if flag = "none" then
    []
  else
    [.ApplyInternalLinks, .ApplyHostLinks, .ApplyExternalLinks, .ApplyIXPLinks]

/-- The fields of the port settings that `setupContainerLinks` assigns.  The
struct is declared outside this development; its other fields keep the values
of `DefaultParams` throughout, and the port counter is taken without a
bound. -/
structure PortSettings where
  OFPort : Nat
  Speed : Int
  VRF : String
deriving DecidableEq, Repr

/-- The arguments of one call of `link.AddPortToContainer`: bridge, interface
name, container name and settings. -/
structure PortCall where
  Bridge : String
  IfName : String
  Container : String
  Settings : PortSettings
deriving DecidableEq, Repr

/-- What `setupContainerLinks` does on the bridges. -/
inductive BridgeOp where
  | CreateBridge (brName : String)
  | AddPortToContainer (call : PortCall)
deriving DecidableEq, Repr

/-- The loop state of `setupContainerLinks`: the operations done so far, the
value behind the pointer `hostIf`, the settings and the map `m`, in which a
key that is absent reads as `none`. -/
structure SetupState (I : Type) where
  ops : List BridgeOp
  hostIf : I
  settings : PortSettings
  m : String → Option (List I)

/-- Assignment `m[key] = value`. -/
def planSet {I : Type} (m : String → Option (List I)) (key : String) (value : List I) :
    String → Option (List I) :=
  fun k => if k = key then some value else m k

/-- Function `setupContainerLinks`, the statements for one side of a link:
the settings take the speed and the VRF of the interface, the port is added,
which writes through `hostIf`, the value written is appended to the entry of
the container, made first when absent, and the port counter goes up.
`addPort call old` is the value `link.AddPortToContainer`, a function outside
this development, leaves behind `hostIf`. -/
def setupSide {I : Type} (routers : RouterPtr → Router) (addPort : PortCall → I → I)
    (brName : String) (side : LinkItem) (st : SetupState I) : SetupState I :=
  let id := (routers side.Router).ContainerName
  let ifName := side.Interface.IfName
  let settings : PortSettings :=
    { st.settings with Speed := side.Interface.Speed, VRF := side.Interface.VRF }
  let call : PortCall := ⟨brName, ifName, id, settings⟩
  let hostIf := addPort call st.hostIf
  let m := match st.m id with
    | none => planSet st.m id []
    | some _ => st.m
  let m := planSet m id ((m id).getD [] ++ [hostIf])
  { ops := st.ops ++ [.AddPortToContainer call]
    hostIf := hostIf
    settings := { settings with OFPort := settings.OFPort + 1 }
    m := m }

/-- Function `setupContainerLinks`: the operations on the bridge and the map
`m` it leaves.  `zeroIf` is the zero value of the interface record behind
`hostIf`, `DefaultParams` the settings `ovsdocker.DefaultParams()` returns. -/
def setupContainerLinks {I : Type} (routers : RouterPtr → Router) (addPort : PortCall → I → I)
    (zeroIf : I) (DefaultParams : PortSettings) (brName : String) (links : List Link)
    (m : String → Option (List I)) : List BridgeOp × (String → Option (List I)) :=
  let st : SetupState I :=
    { ops := [.CreateBridge brName]
      hostIf := zeroIf
      settings := { DefaultParams with OFPort := 1 }
      m := m }
  let st := links.foldl
    (fun st v => setupSide routers addPort brName v.Second (setupSide routers addPort brName v.First st))
    st
  (st.ops, st.m)

/-! ## Vocabulary of the statements -/

/-- The identifier of a link side as the specification words it: the first
loopback of the side's router when it has one, else the address of the
side's link interface. -/
def neighborID (p : Project) (side : ExternalLinkItem) : net.IPNet :=
  if 0 < (p.routers side.Router).Loopback.length then (p.routers side.Router).Loopback.headD side.Interface.IP
  else side.Interface.IP

/-- The neighbour map of router `r` after `nf` was stored under `kf` in the
from-router of `lnk` and then `nt` under `kt` in its to-router. -/
def insertedBoth (p : Project) (lnk : ExternalLink) (kf : String) (nf : BGPNbr)
    (kt : String) (nt : BGPNbr) (r : RouterPtr) : String → Option BGPNbr :=
  let m := if r = lnk.From.Router then mapSet (p.routers r).Neighbors kf nf else (p.routers r).Neighbors
  if r = lnk.To.Router then mapSet m kt nt else m

/-- The store after appending interface `i` to the links of router `r`. -/
def Project.appendLink (p : Project) (r : RouterPtr) (i : NetInterface) : Project :=
  p.setRouter r { p.routers r with Links := (p.routers r).Links ++ [i] }

/-- The store after `Neighbors[k] = v` on router `r`. -/
def Project.storeNeighbor (p : Project) (r : RouterPtr) (k : String) (v : BGPNbr) : Project :=
  p.setRouter r { p.routers r with Neighbors := mapSet (p.routers r).Neighbors k v }

/-- The description `linkExternal` writes on the interface of a link side
whose peer is router `host` of autonomous system `asn`. -/
def describe (i : NetInterface) (asn : Int) (host : String) : NetInterface :=
  { i with Description := "linked to AS" ++ toString asn ++ " (" ++ host ++ ")" }

/-- The address families of a session over a link whose from-side address is
IPv4 or not (`link4`) between autonomous systems whose networks are IPv4 or
not (`to4`, `from4`). -/
def sessionAF (link4 to4 from4 : Bool) : AddressFamily :=
  ⟨link4 || (to4 && from4), !link4 || !(to4 && from4), false, false⟩

/-- The record `linkExternal` builds on the router of `self` for the
neighbour `peer` identified by `id`. -/
def sessionRecord (c : Relations) (self peer : ExternalLinkItem) (id : net.IPNet)
    (af : AddressFamily) : BGPNbr :=
  { RemoteAS := peer.ASN
    UpdateSource := "lo"
    ConnCheck := false
    NextHopSelf := false
    IfName := self.Interface.IfName
    RouteMapsIn := (getRouteMaps c peer.Relation [] []).1
    RouteMapsOut := (getRouteMaps c peer.Relation [] []).2
    AF := af
    RRClient := false
    RSClient := false
    Mask := id.Mask.Size.1 }

/-- An address slice and a mask of the same width, the mask no longer than
that width: what `net.ParseCIDR` and `net.CIDRMask` produce. -/
def wfNet (n : net.IPNet) : Prop :=
  n.IP.wf ∧ n.Mask.bits = 8 * n.IP.len ∧ n.Mask.ones ≤ n.Mask.bits

instance (n : net.IPNet) : Decidable (wfNet n) := by unfold wfNet; infer_instance

/-- A 16-byte address is plain when it lies outside `::/80`, the range that
holds the IPv4-mapped addresses which `To4` turns into 4-byte slices; every
4-byte address is plain. -/
def plain (ip : net.IP) : Prop := ip.len = 16 → 2 ^ 48 ≤ ip.val

instance (ip : net.IP) : Decidable (plain ip) := by unfold plain; infer_instance

/-- Number of addresses of a network. -/
def blockSize (n : net.IPNet) : Nat := 2 ^ (n.Mask.bits - n.Mask.ones)

/-- The network address: the address with the host bits cleared. -/
def networkAddr (n : net.IPNet) : Nat := n.IP.val / blockSize n * blockSize n

/-- The address `ip` lies in the network `n`. -/
def inNet (n : net.IPNet) (ip : net.IP) : Prop :=
  ip.len = n.IP.len ∧ networkAddr n ≤ ip.val ∧ ip.val < networkAddr n + blockSize n

instance (n : net.IPNet) (ip : net.IP) : Decidable (inNet n ip) := by unfold inNet; infer_instance

/-- A call on a pool. -/
inductive PoolCall where
  | nextSubnet (prefixLen : Int)
  | nextLinkIPs
  | nextIP
deriving DecidableEq, Repr

/-- What a call on a pool returns. -/
inductive PoolResult where
  | subnet (s : net.IPNet)
  | linkIPs (a b : net.IPNet)
  | ip (s : net.IPNet)
deriving DecidableEq, Repr

/-- One call on a pool: the value returned and the pool afterwards. -/
def Net.call (n : Net) : PoolCall → Except Fatal (PoolResult × Net)
  | .nextSubnet prefixLen =>
    match n.NextSubnet prefixLen with
    | .error e => .error e
    | .ok (s, m) => .ok (.subnet s, m)
  | .nextLinkIPs =>
    match n.NextLinkIPs with
    | .error e => .error e
    | .ok ((a, b), m) => .ok (.linkIPs a b, m)
  | .nextIP => .ok (.ip n.NextIP.1, n.NextIP.2)

/-- Successive calls on a pool, stopping at the first fatal exit. -/
def Net.calls (n : Net) : List PoolCall → Except Fatal (List PoolResult × Net)
  | [] => .ok ([], n)
  | c :: cs =>
    match n.call c with
    | .error e => .error e
    | .ok (r, m) =>
      match m.calls cs with
      | .error e => .error e
      | .ok (rs, k) => .ok (r :: rs, k)

/-- The pool `n` with the cursor moved `j` blocks up and `j` subnets less. -/
def Net.advanced (n : Net) (j : Nat) : Net :=
  { n with
    NextAvailable :=
      ⟨⟨n.NextAvailable.IP.len, n.NextAvailable.IP.val + j * blockSize n.NextAvailable⟩,
        n.NextAvailable.Mask⟩
    AvailableSubnets := n.AvailableSubnets - j }

/-- Block number `j` of the size of the cursor of `n`, counted from the cursor. -/
def Net.block (n : Net) (j : Nat) : net.IPNet := (n.advanced j).NextAvailable

/-- The sub-prefix length `NewNetwork` works with on a parent of `bits` bits:
the argument when positive, two less than the address width otherwise. -/
def effectiveLen (L : Int) (bits : Nat) : Int := if L > 0 then L else (bits : Int) - 2

/-- A pool whose cursor is well formed, plain and at its own network
address, as `NewNetwork` leaves it. -/
def Net.ready (n : Net) : Prop :=
  wfNet n.NextAvailable ∧ plain n.NextAvailable.IP ∧
    networkAddr n.NextAvailable = n.NextAvailable.IP.val

instance (n : Net) : Decidable n.ready := by unfold Net.ready; infer_instance

/-- A call that takes one subnet of length `L`. -/
def PoolCall.takes (L : Int) (c : PoolCall) : Prop := c = .nextSubnet L ∨ c = .nextLinkIPs

instance (L : Int) (c : PoolCall) : Decidable (c.takes L) := by
  unfold PoolCall.takes; infer_instance

/-- What a call that takes a subnet returns when the subnet is `s`: `s`
itself for `NextSubnet`, the two incremented addresses under the mask of `s`
for `NextLinkIPs`. -/
def PoolCall.resultOn (s : net.IPNet) : PoolCall → PoolResult
  | .nextLinkIPs => .linkIPs ⟨cidr.Inc s.IP, s.Mask⟩ ⟨cidr.Inc (cidr.Inc s.IP), s.Mask⟩
  | _ => .subnet s

/-- The results of successive subnet-taking calls when call number `i` is
served block `j + i`. -/
def Net.resultsFrom (n : Net) : Nat → List PoolCall → List PoolResult
  | _, [] => []
  | j, c :: cs => c.resultOn (n.block j) :: n.resultsFrom (j + 1) cs

/-- The same call `k` times. -/
def PoolCall.times (c : PoolCall) (k : Nat) : List PoolCall := List.replicate k c

/-- The pool of scenario S1: `10.0.0.0/24` cut into /30 subnets. -/
def s1Pool : Net :=
  { IPNet := cidr4 10 0 0 0 24
    NextAvailable := cidr4 10 0 0 0 30
    AvailableSubnets := 64
    AutoAddress := true }

/-- The pool of scenario S5: `10.0.0.0/30` with sub-prefix length 30. -/
def s5Pool : Net :=
  { IPNet := cidr4 10 0 0 0 30
    NextAvailable := cidr4 10 0 0 0 30
    AvailableSubnets := 1
    AutoAddress := true }

/-- The pool over the last /30 of IPv4, `255.255.255.252/30`, with sub-prefix
length 30. -/
def topPool : Net :=
  { IPNet := cidr4 255 255 255 252 30
    NextAvailable := cidr4 255 255 255 252 30
    AvailableSubnets := 1
    AutoAddress := true }

/-- The pool over the last /24 of IPv4, `255.255.255.0/24`, with sub-prefix
length 30. -/
def top24Pool : Net :=
  { IPNet := cidr4 255 255 255 0 24
    NextAvailable := cidr4 255 255 255 0 30
    AvailableSubnets := 64
    AutoAddress := true }

/-- The pool over the single address `255.255.255.254/32`. -/
def top32Pool : Net :=
  { IPNet := cidr4 255 255 255 254 32
    NextAvailable := cidr4 255 255 255 254 32
    AvailableSubnets := 1
    AutoAddress := true }

/-- The pool over the single address `255.255.255.255/32`. -/
def lastPool : Net :=
  { IPNet := cidr4 255 255 255 255 32
    NextAvailable := cidr4 255 255 255 255 32
    AvailableSubnets := 1
    AutoAddress := true }

/-! ## Scenario S2: one external link between AS 100 and AS 200 -/

/-- Values for the relation constants, used in the scenarios. -/
def sampleRelations : Relations := ⟨1, 2, 3⟩

/-- A router without loopback, links or neighbours. -/
def bareRouter (asn id : Nat) : Router :=
  { ID := id
    Hostname := "R" ++ toString id
    ContainerName := "AS" ++ toString asn ++ "-R" ++ toString id
    CustomImage := ""
    Loopback := []
    Links := []
    Neighbors := fun _ => none
    NextInterface := 1
    ISISLevel := 0
    ISISArea := 0
    OSPF := [] }

/-- A pool over `10.n.0.0/16` cut into /30 subnets. -/
def s2Pool (n : Nat) : Net :=
  { IPNet := cidr4 10 n 0 0 16
    NextAvailable := cidr4 10 n 0 0 30
    AvailableSubnets := 16384
    AutoAddress := true }

/-- The link of S2: `R1` of AS 100 as provider at `172.16.0.1/30`, `R1` of
AS 200 as customer at `172.16.0.2/30`; router 0 of the store is `R1` of
AS 100, router 1 is `R1` of AS 200. -/
def s2Link : ExternalLink :=
  { From :=
      { ASN := 100
        Router := 0
        Interface := ⟨"eth0", "", ⟨ip4 172 16 0 1, ⟨30, 32⟩⟩, 0, true, ""⟩
        Relation := sampleRelations.Provider }
    To :=
      { ASN := 200
        Router := 1
        Interface := ⟨"eth0", "", ⟨ip4 172 16 0 2, ⟨30, 32⟩⟩, 0, true, ""⟩
        Relation := sampleRelations.Customer } }

/-- The project of S2 before `linkExternal` runs. -/
def s2Project : Project :=
  { AS := fun asn =>
      if asn = 100 then some ⟨100, some (s2Pool 1)⟩
      else if asn = 200 then some ⟨200, some (s2Pool 2)⟩
      else none
    Ext := [s2Link]
    routers := fun r => if r = 0 then bareRouter 100 1 else bareRouter 200 1 }

/-- The project of S2 with the loopback `192.168.0.1/32` on `R1` of AS 200. -/
def s2ProjectLo : Project :=
  { s2Project with
    routers := fun r =>
      if r = 0 then bareRouter 100 1
      else { bareRouter 200 1 with Loopback := [⟨ip4 192 168 0 1, ⟨32, 32⟩⟩] } }

/-- Remote AS and route maps of the neighbour stored under `key` in router
`r` once `linkExternal` has run on `p`. -/
def neighborAfter (c : Relations) (p : Project) (r : RouterPtr) (key : String) :
    Option (Int × List String × List String) :=
  ((Project.linkExternal c p).bind (fun q => (q.routers r).Neighbors key)).map
    (fun n => (n.RemoteAS, n.RouteMapsIn, n.RouteMapsOut))

/-- The configuration of the autonomous system of scenario S1: three routers,
prefix `10.0.0.0/24`, loopback range `10.100.0.0/24`. -/
def s1Config : ASConfig :=
  { ASN := 100
    NumRouters := 3
    Prefix := some ⟨ip4 10 0 0 0, 24⟩
    SubnetLength := 0
    LoRange := some ⟨ip4 10 100 0 0, 24⟩ }

/-- The loopbacks of the routers of a generated autonomous system, in the
order of `a.Routers`; empty when `ReadConfig` stopped. -/
def loopbacksOf (r : Except ConfigStop ASHead) : List (List net.IPNet) :=
  match r with
  | .ok a => a.Routers.map (fun x => x.Loopback)
  | .error _ => []

/-- The pool over `10.0.0.0/31` with the default sub-prefix length. -/
def slash31Pool : Net :=
  { IPNet := cidr4 10 0 0 0 31
    NextAvailable := cidr4 10 0 0 0 30
    AvailableSubnets := 0
    AutoAddress := true }

/-- The CIDR string `2001:db8::/32`. -/
def docPrefix6 : CIDRText := ⟨⟨16, 0x20010db8 * 2 ^ 96⟩, 32⟩

/-- An entry of `conf.AS` that passes the checks `ReadConfig` makes before
generating routers: at least one router, a prefix (when given) that
`NewNetwork` accepts, a loopback range (when given) that parses. -/
def ASConfig.accepted (ovf : Int) (k : ASConfig) : Prop :=
  1 ≤ k.NumRouters ∧
  (∀ pfx, k.Prefix = some pfx → ∃ n, NewNetwork ovf pfx k.SubnetLength = .ok n) ∧
  (∀ t, k.LoRange = some t → ∃ n, ParseCIDR t = some n)

/-- The address `ip` incremented `j` times by `cidr.Inc`. -/
def incTimes : Nat → net.IP → net.IP
  | 0, ip => ip
  | j + 1, ip => incTimes j (cidr.Inc ip)

/-- The interface fields `NewLinkItem` is given in the scenarios. -/
def blankInterface : NetInterface := ⟨"", "", ⟨⟨0, 0⟩, ⟨0, 0⟩⟩, 0, false, ""⟩

/-- An autonomous system 100 with the routers `R1` and `R2` at the pointers 0
and 1, no link, and one VPN entry not yet filled. -/
def s4State : ASState :=
  { routers := fun p => if p = 0 then newRouter s1Config 0 else newRouter s1Config 1
    next := 2
    Routers := [0, 1]
    Links := []
    VPN := [⟨"", [], fun _ => false, []⟩] }

/-- The VPN of scenario S4: hub mode, hub `CE1` behind `R1` on `10.1.1.0/30`
with the downstream subnet `10.1.3.0/30`, spoke `CE2` behind `R2` on
`10.1.2.0/30` with the remote subnet `10.2.0.0/24`. -/
def s4VPN : VPNConfig :=
  { VRF := "VPN_A"
    HubMode := true
    Customers :=
      [⟨"CE1", some ⟨ip4 10 1 1 0, 30⟩, none, 1, true, none, some ⟨ip4 10 1 3 0, 30⟩⟩,
        ⟨"CE2", some ⟨ip4 10 1 2 0, 30⟩, none, 2, false, some ⟨ip4 10 2 0 0, 24⟩, none⟩] }

/-- The links of an autonomous system under construction, each as router
pointer, interface name, address text, VRF and `External` of the first side,
then router pointer, interface name and address text of the second side;
empty when `ReadConfig` stopped. -/
def linksOf (r : Except ConfigStop ASState) :
    List ((RouterPtr × String × String × String × Bool) × (RouterPtr × String × String)) :=
  match r with
  | .ok a => a.Links.map (fun l =>
      ((l.First.Router, l.First.Interface.IfName, l.First.Interface.IP.String,
        l.First.Interface.VRF, l.First.Interface.External),
       (l.Second.Router, l.Second.Interface.IfName, l.Second.Interface.IP.String)))
  | .error _ => []

/-- The exit or panic that stopped `ReadConfig`, `none` when it went on. -/
def stopOf (r : Except ConfigStop ASState) : Option ConfigStop :=
  match r with
  | .ok _ => none
  | .error e => some e

/-- Lower case of the letters `A` to `Z`; `strings.ToLower` agrees with it on
strings of ASCII characters. -/
def asciiLower (s : String) : String :=
  ⟨s.data.map (fun c => if 'A' ≤ c ∧ c ≤ 'Z' then Char.ofNat (c.toNat + 32) else c)⟩

/-- The steps on bridges between autonomous systems. -/
def ApplyStep.interAS : ApplyStep → Bool
  | .ApplyExternalLinks | .ApplyIXPLinks => true
  | _ => false

/-- The calls of `link.AddPortToContainer` among the operations, in order. -/
def attachments (ops : List BridgeOp) : List PortCall :=
  ops.filterMap (fun o => match o with
    | .AddPortToContainer call => some call
    | .CreateBridge _ => none)

/-- The entries of the plan for a container, none when the key is absent. -/
def entries {I : Type} (m : String → Option (List I)) (c : String) : List I := (m c).getD []

/-- Number of sides of the links whose router has the container name `c`. -/
def endpoints (routers : RouterPtr → Router) (c : String) : List Link → Nat
  | [] => 0
  | v :: vs =>
    (if (routers v.First.Router).ContainerName = c then 1 else 0) +
      (if (routers v.Second.Router).ContainerName = c then 1 else 0) + endpoints routers c vs

/-- A link `R2 - R3` of speed 100 whose first side is in the VRF `VPN_A`. -/
def bridgeLink2 : Link :=
  ⟨⟨1, { blankInterface with IfName := "eth1", Speed := 100, VRF := "VPN_A" }⟩,
    ⟨2, { blankInterface with IfName := "eth0", Speed := 100 }⟩⟩

/-- Two links on three routers `AS100-R1`, `AS100-R2`, `AS100-R3`: `R1 - R2`
and `R2 - R3`. -/
def bridgeLinks : List Link :=
  [⟨⟨0, { blankInterface with IfName := "eth0", Speed := 1000 }⟩,
      ⟨1, { blankInterface with IfName := "eth0", Speed := 1000 }⟩⟩,
    bridgeLink2]

/-- The routers of `bridgeLinks`. -/
def bridgeRouters : RouterPtr → Router := fun p => newRouter s1Config p

/-- A stand-in for `link.AddPortToContainer` that leaves behind `hostIf` the
name of the interface and its port number. -/
def portEntry (call : PortCall) (_ : String × Nat) : String × Nat :=
  (call.IfName, call.Settings.OFPort)

/-- The call that attaches one side of a link with the port number `p`: the
name of the interface, the container of the router of that side, and the
speed and VRF of the interface. -/
def sideCall (routers : RouterPtr → Router) (brName : String) (side : LinkItem) (p : Nat) :
    PortCall :=
  ⟨brName, side.Interface.IfName, (routers side.Router).ContainerName,
    ⟨p, side.Interface.Speed, side.Interface.VRF⟩⟩

/-- The calls for a list of links when the port counter starts at `p`: first
side, then second side of each link, the counter going up by one per side. -/
def portCalls (routers : RouterPtr → Router) (brName : String) : Nat → List Link → List PortCall
  | _, [] => []
  | p, v :: vs =>
    sideCall routers brName v.First p :: sideCall routers brName v.Second (p + 1) ::
      portCalls routers brName (p + 2) vs

/-! # Theorems -/

/-! ## Policy derivation -/

/-- C2: `getRouteMaps` puts the map named after the relation first and the
caller's maps after it, in their order. -/
theorem getRouteMaps_table (c : Relations) (hc : c.Distinct) (r : Int) (inMaps outMaps : List String) :
    (r = c.Provider → getRouteMaps c r inMaps outMaps = ("PROVIDER_IN" :: inMaps, "PROVIDER_OUT" :: outMaps)) ∧
    (r = c.Peer → getRouteMaps c r inMaps outMaps = ("PEER_IN" :: inMaps, "PEER_OUT" :: outMaps)) ∧
    (r = c.Customer → getRouteMaps c r inMaps outMaps = ("CUSTOMER_IN" :: inMaps, "CUSTOMER_OUT" :: outMaps)) ∧
    (r ≠ c.Provider → r ≠ c.Peer → r ≠ c.Customer →
      getRouteMaps c r inMaps outMaps = ("ALLOW_ALL" :: inMaps, "ALLOW_ALL" :: outMaps)) ∧
    (getRouteMaps c r inMaps outMaps).1.length = inMaps.length + 1 ∧
    (getRouteMaps c r inMaps outMaps).2.length = outMaps.length + 1 ∧
    (getRouteMaps c r inMaps outMaps).1.tail = inMaps ∧
    (getRouteMaps c r inMaps outMaps).2.tail = outMaps := by
  obtain ⟨h1, h2, h3⟩ := hc
  refine ⟨?_, ?_, ?_, ?_, ?_, ?_, ?_, ?_⟩
  · intro h; subst h; simp [getRouteMaps]
  · intro h; subst h; simp [getRouteMaps, Ne.symm h1]
  · intro h; subst h; simp [getRouteMaps, Ne.symm h2, Ne.symm h3]
  · intro a b d; simp [getRouteMaps, a, b, d]
  all_goals
    unfold getRouteMaps
    split_ifs <;> simp

/-- C2, instance: the sample constants are distinct, and a customer relation
with user maps gives the customer maps first. -/
theorem getRouteMaps_table_witness :
    sampleRelations.Distinct ∧
    getRouteMaps sampleRelations 3 ["A", "B"] ["C"] =
      (["CUSTOMER_IN", "A", "B"], ["CUSTOMER_OUT", "C"]) :=
  ⟨by decide, ((getRouteMaps_table sampleRelations (by decide) 3 ["A", "B"] ["C"]).2.2.1 rfl)⟩

/-! ## Address arithmetic -/

/-- Setting the `h` low bits of `v` with a bitwise or. -/
theorem lor_hostmask (v h : Nat) : (2 ^ h - 1) ||| v = v / 2 ^ h * 2 ^ h + (2 ^ h - 1) := by
  apply Nat.eq_of_testBit_eq
  intro i
  rw [Nat.testBit_lor, Nat.testBit_two_pow_sub_one]
  have hlt : 2 ^ h - 1 < 2 ^ h := Nat.sub_lt (Nat.two_pow_pos h) (by norm_num)
  rw [Nat.mul_comm, Nat.testBit_mul_pow_two_add _ hlt, Nat.testBit_two_pow_sub_one]
  by_cases hi : i < h
  · simp [hi]
  · simp only [hi, decide_False, Bool.false_or, if_false]
    rw [← Nat.shiftRight_eq_div_pow, Nat.testBit_shiftRight]
    congr 1
    omega

theorem blockSize_pos (n : net.IPNet) : 0 < blockSize n := Nat.two_pow_pos _

theorem networkAddr_le (n : net.IPNet) : networkAddr n ≤ n.IP.val :=
  Nat.div_mul_le_self _ _

/-- The block of a well-formed network ends inside the address space. -/
theorem networkAddr_add_le (n : net.IPNet) (h : wfNet n) :
    networkAddr n + blockSize n ≤ 2 ^ n.Mask.bits := by
  obtain ⟨⟨_, hv⟩, hb, ho⟩ := h
  unfold networkAddr blockSize
  rw [← hb] at hv
  have hsplit : 2 ^ n.Mask.bits = 2 ^ n.Mask.ones * 2 ^ (n.Mask.bits - n.Mask.ones) := by
    rw [← pow_add]; congr 1; omega
  have hq : n.IP.val / 2 ^ (n.Mask.bits - n.Mask.ones) < 2 ^ n.Mask.ones := by
    rw [Nat.div_lt_iff_lt_mul (Nat.two_pow_pos _)]
    rw [← hsplit]; exact hv
  calc n.IP.val / 2 ^ (n.Mask.bits - n.Mask.ones) * 2 ^ (n.Mask.bits - n.Mask.ones)
        + 2 ^ (n.Mask.bits - n.Mask.ones)
      = (n.IP.val / 2 ^ (n.Mask.bits - n.Mask.ones) + 1) * 2 ^ (n.Mask.bits - n.Mask.ones) := by
        ring
    _ ≤ 2 ^ n.Mask.ones * 2 ^ (n.Mask.bits - n.Mask.ones) :=
        Nat.mul_le_mul_right _ hq
    _ = 2 ^ n.Mask.bits := hsplit.symm

/-- The last address of a well-formed network. -/
theorem AddressRange_last (n : net.IPNet) (h : wfNet n) :
    (cidr.AddressRange n).2 = ⟨n.IP.len, networkAddr n + blockSize n - 1⟩ := by
  obtain ⟨_, hb, ho⟩ := h
  unfold cidr.AddressRange networkAddr blockSize IPMask.Size
  by_cases he : n.Mask.ones = n.Mask.bits
  · simp [he]
  · simp only [he, if_false]
    rw [lor_hostmask, hb]
    congr 1
    have := Nat.two_pow_pos (8 * n.IP.len - n.Mask.ones)
    omega

/-- The mask built by `cidr.NextSubnet` for the length of the network itself. -/
theorem CIDRMask_own (n : net.IPNet) (h : wfNet n) :
    CIDRMask (n.Mask.ones : Int) (8 * (n.IP.len : Int)) = n.Mask := by
  obtain ⟨⟨hl, _⟩, hb, ho⟩ := h
  unfold CIDRMask
  have h1 : (8 * (n.IP.len : Int) = 32 ∨ 8 * (n.IP.len : Int) = 128) := by
    rcases hl with hl | hl <;> simp [hl]
  have h2 : (n.Mask.ones : Int) ≤ 8 * (n.IP.len : Int) := by
    have : n.Mask.ones ≤ 8 * n.IP.len := hb ▸ ho
    exact_mod_cast this
  rw [if_pos ⟨h1, Int.natCast_nonneg _, h2⟩]
  cases hm : n.Mask
  simp [hm] at hb ⊢
  omega

/-- Clearing host bits when address and mask have the same width. -/
theorem Mask_same (ip : net.IP) (m : net.IPMask) (hl : ip.len = 4 ∨ ip.len = 16)
    (hb : m.bits = 8 * ip.len) :
    ip.Mask m = ⟨ip.len, ip.val / 2 ^ (m.bits - m.ones) * 2 ^ (m.bits - m.ones)⟩ := by
  unfold IP.Mask
  rcases hl with hl | hl <;> simp [hl, hb]

/-- The increment of a plain address stays in the same slice width. -/
theorem Inc_plain (ip : net.IP) (hl : ip.len = 4 ∨ ip.len = 16) (hp : plain ip) :
    cidr.Inc ip = ⟨ip.len, (ip.val + 1) % 2 ^ (8 * ip.len)⟩ := by
  unfold cidr.Inc cidr.checkIPv4 IP.To4
  rcases hl with hl | hl
  · simp [hl]
  · have h48 := hp hl
    have : ip.val / 4294967296 ≠ 65535 := by omega
    simp [hl, this]

theorem networkAddr_dvd (n : net.IPNet) : blockSize n ∣ networkAddr n :=
  Dvd.intro_left _ rfl

theorem lt_networkAddr_add (n : net.IPNet) : n.IP.val < networkAddr n + blockSize n := by
  unfold networkAddr
  have := Nat.div_add_mod n.IP.val (blockSize n)
  have := Nat.mod_lt n.IP.val (blockSize_pos n)
  have := Nat.mul_comm (blockSize n) (n.IP.val / blockSize n)
  omega

/-- The flag of `cidr.NextSubnet`: the incremented address is zero. -/
theorem Equal_zero (len x : Nat) (hl : len = 4 ∨ len = 16) (hx : len = 16 → x = 0 ∨ 2 ^ 48 ≤ x) :
    ((⟨len, x⟩ : net.IP).Equal IPv4zero || (⟨len, x⟩ : net.IP).Equal IPv6zero) = decide (x = 0) := by
  unfold IP.Equal IPv4zero IPv6zero
  rcases hl with hl | hl
  · subst hl
    by_cases h0 : x = 0 <;> simp [h0]
  · subst hl
    rcases hx rfl with h0 | h48
    · simp [h0]
    · have h1 : x ≠ 0 := by omega
      have h2 : x ≠ 65535 * 4294967296 := by omega
      simp [h1, h2]

/-- Function `cidr.NextSubnet` asked for the length of the network itself:
the next block of the same size, the flag telling that the block was the last
one of the address space. -/
theorem NextSubnet_own (n : net.IPNet) (h : wfNet n) (hp : plain n.IP) :
    cidr.NextSubnet n n.Mask.ones =
      (⟨⟨n.IP.len, (networkAddr n + blockSize n) % 2 ^ n.Mask.bits⟩, n.Mask⟩,
        decide (networkAddr n + blockSize n = 2 ^ n.Mask.bits)) := by
  have hwf := h
  obtain ⟨⟨hl, hv⟩, hb, ho⟩ := h
  have hle := networkAddr_add_le n hwf
  have hlt := lt_networkAddr_add n
  have hpos := blockSize_pos n
  obtain ⟨k, hk⟩ := networkAddr_dvd n
  have hsz : blockSize n = 2 ^ (n.Mask.bits - n.Mask.ones) := rfl
  -- the block that ends at the last address of `n` is `n` itself
  have hbase : (networkAddr n + blockSize n - 1) / blockSize n * blockSize n = networkAddr n := by
    rw [hk]
    have : (blockSize n * k + blockSize n - 1) / blockSize n = k := by
      have h1 : blockSize n * k + blockSize n - 1 = blockSize n * k + (blockSize n - 1) := by omega
      rw [h1, Nat.mul_add_div hpos, Nat.div_eq_of_lt (by omega)]
      rfl
    rw [this, Nat.mul_comm]
  have hself : networkAddr n / blockSize n * blockSize n = networkAddr n := by
    rw [hk, Nat.mul_div_cancel_left _ hpos, Nat.mul_comm]
  have e1 := AddressRange_last n hwf
  have e2 := CIDRMask_own n hwf
  have e3 : (⟨n.IP.len, networkAddr n + blockSize n - 1⟩ : net.IP).Mask n.Mask =
      ⟨n.IP.len, networkAddr n⟩ := by
    rw [Mask_same ⟨n.IP.len, networkAddr n + blockSize n - 1⟩ n.Mask hl hb]
    show (⟨n.IP.len, (networkAddr n + blockSize n - 1) / blockSize n * blockSize n⟩ : net.IP) = _
    rw [hbase]
  have wf2 : wfNet ⟨⟨n.IP.len, networkAddr n⟩, n.Mask⟩ :=
    ⟨⟨hl, lt_of_le_of_lt (networkAddr_le n) hv⟩, hb, ho⟩
  have e4 : (cidr.AddressRange ⟨⟨n.IP.len, networkAddr n⟩, n.Mask⟩).2 =
      ⟨n.IP.len, networkAddr n + blockSize n - 1⟩ := by
    rw [AddressRange_last _ wf2]
    show (⟨n.IP.len, networkAddr n / blockSize n * blockSize n + blockSize n - 1⟩ : net.IP) = _
    rw [hself]
  have hb8 : 2 ^ (8 * n.IP.len) = 2 ^ n.Mask.bits := by rw [hb]
  have e5 : cidr.Inc ⟨n.IP.len, networkAddr n + blockSize n - 1⟩ =
      ⟨n.IP.len, (networkAddr n + blockSize n) % 2 ^ n.Mask.bits⟩ := by
    have hpl : plain ⟨n.IP.len, networkAddr n + blockSize n - 1⟩ := by
      intro h16
      have := hp h16
      show 2 ^ 48 ≤ networkAddr n + blockSize n - 1
      omega
    rw [Inc_plain ⟨n.IP.len, networkAddr n + blockSize n - 1⟩ hl hpl]
    show (⟨n.IP.len, (networkAddr n + blockSize n - 1 + 1) % 2 ^ (8 * n.IP.len)⟩ : net.IP) = _
    rw [hb8, Nat.sub_add_cancel (by omega)]
  have hx : (networkAddr n + blockSize n) % 2 ^ n.Mask.bits / blockSize n * blockSize n =
      (networkAddr n + blockSize n) % 2 ^ n.Mask.bits := by
    rcases Nat.lt_or_ge (networkAddr n + blockSize n) (2 ^ n.Mask.bits) with hlt2 | hge
    · rw [Nat.mod_eq_of_lt hlt2, hk]
      have : blockSize n * k + blockSize n = blockSize n * (k + 1) := by ring
      rw [this, Nat.mul_div_cancel_left _ hpos, Nat.mul_comm]
    · have : networkAddr n + blockSize n = 2 ^ n.Mask.bits := le_antisymm hle hge
      rw [this, Nat.mod_self]; simp
  have e6 : (⟨n.IP.len, (networkAddr n + blockSize n) % 2 ^ n.Mask.bits⟩ : net.IP).Mask n.Mask =
      ⟨n.IP.len, (networkAddr n + blockSize n) % 2 ^ n.Mask.bits⟩ := by
    rw [Mask_same ⟨n.IP.len, (networkAddr n + blockSize n) % 2 ^ n.Mask.bits⟩ n.Mask hl hb]
    show (⟨n.IP.len, (networkAddr n + blockSize n) % 2 ^ n.Mask.bits / blockSize n *
      blockSize n⟩ : net.IP) = _
    rw [hx]
  have e7 : ((⟨n.IP.len, (networkAddr n + blockSize n) % 2 ^ n.Mask.bits⟩ : net.IP).Equal IPv4zero ||
      (⟨n.IP.len, (networkAddr n + blockSize n) % 2 ^ n.Mask.bits⟩ : net.IP).Equal IPv6zero) =
      decide (networkAddr n + blockSize n = 2 ^ n.Mask.bits) := by
    rw [Equal_zero _ _ hl]
    · rcases Nat.lt_or_ge (networkAddr n + blockSize n) (2 ^ n.Mask.bits) with hlt2 | hge
      · rw [Nat.mod_eq_of_lt hlt2]
        have h1 : networkAddr n + blockSize n ≠ 0 := by omega
        have h2 : networkAddr n + blockSize n ≠ 2 ^ n.Mask.bits := by omega
        simp [h1, h2]
      · have : networkAddr n + blockSize n = 2 ^ n.Mask.bits := le_antisymm hle hge
        simp [this]
    · intro h16
      rcases Nat.lt_or_ge (networkAddr n + blockSize n) (2 ^ n.Mask.bits) with hlt2 | hge
      · right
        rw [Nat.mod_eq_of_lt hlt2]
        have := hp h16
        omega
      · left
        have : networkAddr n + blockSize n = 2 ^ n.Mask.bits := le_antisymm hle hge
        rw [this, Nat.mod_self]
  unfold cidr.NextSubnet
  simp only [e1, e2, e3, e4, e5, e6, e7]
  by_cases hfull : networkAddr n + blockSize n = 2 ^ n.Mask.bits <;> simp [hfull]

/-! ## Address pools -/

/-- Method `Net.NextSubnet` asked for the length of the cursor, on a
well-formed plain cursor. -/
theorem Net_NextSubnet_eq (n : Net) (hwf : wfNet n.NextAvailable) (hp : plain n.NextAvailable.IP) :
    n.NextSubnet n.NextAvailable.Mask.ones =
      if n.AvailableSubnets < 1 then
        .error (.noMoreSubnets n.IPNet.String n.NextAvailable.Mask.ones)
      else if networkAddr n.NextAvailable + blockSize n.NextAvailable =
          2 ^ n.NextAvailable.Mask.bits then
        .error (.subnetFull n.NextAvailable.String)
      else
        .ok (n.NextAvailable,
          { n with
            NextAvailable :=
              ⟨⟨n.NextAvailable.IP.len, networkAddr n.NextAvailable + blockSize n.NextAvailable⟩,
                n.NextAvailable.Mask⟩
            AvailableSubnets := n.AvailableSubnets - 1 }) := by
  unfold Net.NextSubnet
  rw [NextSubnet_own n.NextAvailable hwf hp]
  have hle := networkAddr_add_le n.NextAvailable hwf
  by_cases hA : n.AvailableSubnets < 1
  · simp [hA]
  · by_cases hfull : networkAddr n.NextAvailable + blockSize n.NextAvailable =
        2 ^ n.NextAvailable.Mask.bits
    · simp [hA, hfull]
    · have hlt : networkAddr n.NextAvailable + blockSize n.NextAvailable <
          2 ^ n.NextAvailable.Mask.bits := lt_of_le_of_ne hle hfull
      simp [hA, hfull, Nat.mod_eq_of_lt hlt]

/-- C5: on a pool with a subnet left, `NextSubnet` called with the length of
the cursor succeeds exactly when the block after the cursor block starts
inside the address space; it then returns the cursor as it was, moves the
cursor to the network address of the old cursor plus the block size, with
the same mask, takes one off `AvailableSubnets` and leaves `IPNet` and
`AutoAddress` alone. -/
theorem NextSubnet_returns_cursor (n : Net) (hwf : wfNet n.NextAvailable)
    (hp : plain n.NextAvailable.IP) (hA : 1 ≤ n.AvailableSubnets) :
    (∀ r m, n.NextSubnet n.NextAvailable.Mask.ones = .ok (r, m) →
      r = n.NextAvailable ∧
      m.NextAvailable.IP.val =
        networkAddr n.NextAvailable +
          2 ^ (n.NextAvailable.Mask.bits - n.NextAvailable.Mask.ones) ∧
      m.NextAvailable.IP.len = n.NextAvailable.IP.len ∧
      m.NextAvailable.Mask = n.NextAvailable.Mask ∧
      m.AvailableSubnets = n.AvailableSubnets - 1 ∧
      m.IPNet = n.IPNet ∧ m.AutoAddress = n.AutoAddress) ∧
    ((∃ r m, n.NextSubnet n.NextAvailable.Mask.ones = .ok (r, m)) ↔
      networkAddr n.NextAvailable + 2 ^ (n.NextAvailable.Mask.bits - n.NextAvailable.Mask.ones) <
        2 ^ n.NextAvailable.Mask.bits) := by
  have hle := networkAddr_add_le n.NextAvailable hwf
  have hsz : blockSize n.NextAvailable =
      2 ^ (n.NextAvailable.Mask.bits - n.NextAvailable.Mask.ones) := rfl
  rw [Net_NextSubnet_eq n hwf hp, if_neg (by omega), ← hsz]
  by_cases hfull : networkAddr n.NextAvailable + blockSize n.NextAvailable =
      2 ^ n.NextAvailable.Mask.bits
  · rw [if_pos hfull]
    constructor
    · intro r m h; cases h
    · constructor
      · rintro ⟨r, m, h⟩; cases h
      · intro h; omega
  · rw [if_neg hfull]
    constructor
    · intro r m h
      cases h
      exact ⟨rfl, rfl, rfl, rfl, rfl, rfl, rfl⟩
    · constructor
      · intro _; omega
      · intro _; exact ⟨_, _, rfl⟩

/-- C5 on the pool of S1: the call returns `10.0.0.0/30` and leaves the
cursor at `10.0.0.4/30` with 63 subnets. -/
theorem NextSubnet_returns_cursor_witness :
    wfNet s1Pool.NextAvailable ∧ plain s1Pool.NextAvailable.IP ∧ 1 ≤ s1Pool.AvailableSubnets ∧
    s1Pool.NextSubnet 30 =
      .ok (cidr4 10 0 0 0 30, { s1Pool with NextAvailable := cidr4 10 0 0 4 30, AvailableSubnets := 63 }) ∧
    ((∃ r m, s1Pool.NextSubnet s1Pool.NextAvailable.Mask.ones = .ok (r, m)) ↔
      networkAddr s1Pool.NextAvailable +
          2 ^ (s1Pool.NextAvailable.Mask.bits - s1Pool.NextAvailable.Mask.ones) <
        2 ^ s1Pool.NextAvailable.Mask.bits) :=
  ⟨by decide, by decide, by decide, by decide,
    (NextSubnet_returns_cursor s1Pool (by decide) (by decide) (by decide)).2⟩

/-- What `net.ParseCIDR` returns is well formed and starts at its own
network address. -/
theorem ParseCIDR_wf (t : CIDRText) (p : net.IPNet) (h : ParseCIDR t = some p) :
    wfNet p ∧ networkAddr p = p.IP.val := by
  unfold ParseCIDR at h
  split at h
  · rename_i hc
    obtain ⟨hl, hv, h0, h1⟩ := hc
    cases h
    have hm : CIDRMask t.ones (8 * (t.addr.len : Int)) = ⟨t.ones.toNat, 8 * t.addr.len⟩ := by
      unfold CIDRMask
      have hb : (8 * (t.addr.len : Int) = 32 ∨ 8 * (t.addr.len : Int) = 128) := by
        rcases hl with hl | hl <;> simp [hl]
      rw [if_pos ⟨hb, h0, h1⟩]
      congr 1
    rw [hm, Mask_same t.addr _ hl rfl]
    have hle : t.ones.toNat ≤ 8 * t.addr.len := by omega
    refine ⟨⟨⟨hl, ?_⟩, rfl, hle⟩, ?_⟩
    · exact lt_of_le_of_lt (Nat.div_mul_le_self _ _) hv
    · unfold networkAddr blockSize
      simp only
      rw [Nat.mul_div_cancel _ (Nat.two_pow_pos _)]
  · cases h

/-- Function `cidr.Subnet` for subnet number zero: the same address under
the longer mask, an error when the mask would be longer than the address. -/
theorem Subnet_zero (base : net.IPNet) (newBits : Int) :
    cidr.Subnet base newBits 0 =
      if (base.Mask.ones : Int) + newBits > base.Mask.bits then none
      else some ⟨base.IP, CIDRMask ((base.Mask.ones : Int) + newBits) base.Mask.bits⟩ := by
  unfold cidr.Subnet
  simp only [IPMask.Size, Nat.zero_shiftLeft, Nat.or_zero, gt_iff_lt, Nat.not_lt_zero, if_false]

/-- Function `NewNetwork` on a CIDR string that parses: with the effective
sub-prefix length (the argument when positive, two less than the address
width otherwise) no longer than the address, the pool has the parsed network
as parent and, under the effective length, as cursor. -/
theorem NewNetwork_eq (ovf : Int) (t : CIDRText) (L : Int) (p : net.IPNet)
    (hp : ParseCIDR t = some p) :
    NewNetwork ovf t L =
      if (if L > 0 then L else (p.Mask.bits : Int) - 2) > p.Mask.bits then .error .newNetwork
      else .ok
        { IPNet := p
          NextAvailable := ⟨p.IP, CIDRMask (if L > 0 then L else (p.Mask.bits : Int) - 2) p.Mask.bits⟩
          AvailableSubnets :=
            pow2ToInt ovf ((if L > 0 then L else (p.Mask.bits : Int) - 2) - p.Mask.ones)
          AutoAddress := true } := by
  unfold NewNetwork
  rw [hp]
  simp only [Subnet_zero, IPMask.Size]
  by_cases hL : L > 0
  · simp only [hL, if_true]
    have : (p.Mask.ones : Int) + (L - p.Mask.ones) = L := by ring
    rw [this]
    by_cases hgt : L > (p.Mask.bits : Int) <;> simp only [hgt, if_true, if_false]
  · simp only [hL, if_false]
    have : (p.Mask.ones : Int) + ((p.Mask.bits : Int) - 2 - p.Mask.ones) = (p.Mask.bits : Int) - 2 := by
      ring
    rw [this]
    by_cases hgt : (p.Mask.bits : Int) - 2 > (p.Mask.bits : Int) <;>
      simp only [hgt, if_true, if_false]

/-- A pool built by `NewNetwork`. -/
theorem NewNetwork_ok (ovf : Int) (t : CIDRText) (L : Int) (n : Net)
    (h : NewNetwork ovf t L = .ok n) :
    ParseCIDR t = some n.IPNet ∧
    (if L > 0 then L else (n.IPNet.Mask.bits : Int) - 2) ≤ n.IPNet.Mask.bits ∧
    n.NextAvailable = ⟨n.IPNet.IP,
      CIDRMask (if L > 0 then L else (n.IPNet.Mask.bits : Int) - 2) n.IPNet.Mask.bits⟩ ∧
    n.AvailableSubnets =
      pow2ToInt ovf ((if L > 0 then L else (n.IPNet.Mask.bits : Int) - 2) - n.IPNet.Mask.ones) ∧
    n.AutoAddress = true := by
  cases hp : ParseCIDR t with
  | none =>
    unfold NewNetwork at h
    rw [hp] at h
    cases h
  | some p =>
    rw [NewNetwork_eq ovf t L p hp] at h
    by_cases hgt : (if L > 0 then L else (p.Mask.bits : Int) - 2) > p.Mask.bits
    · rw [if_pos hgt] at h
      cases h
    · rw [if_neg hgt] at h
      cases h
      exact ⟨rfl, not_lt.mp hgt, rfl, rfl, rfl⟩

/-- Both branches of `NextLinkIPs` take the cursor subnet as `NextSubnet`
does and increment its address once and twice. -/
theorem NextLinkIPs_eq (n : Net) :
    n.NextLinkIPs =
      match n.NextSubnet n.NextAvailable.Mask.ones with
      | .error e => .error e
      | .ok (s, m) => .ok ((⟨cidr.Inc s.IP, s.Mask⟩, ⟨cidr.Inc (cidr.Inc s.IP), s.Mask⟩), m) := by
  unfold Net.NextLinkIPs
  simp only [IPMask.Size]
  split <;> rfl

/-- The cursor of a ready pool moved `j` blocks up, inside the address space. -/
theorem advanced_cursor (n : Net) (hr : n.ready) (j : Nat)
    (hj : n.NextAvailable.IP.val + j * blockSize n.NextAvailable < 2 ^ n.NextAvailable.Mask.bits) :
    wfNet (n.advanced j).NextAvailable ∧ plain (n.advanced j).NextAvailable.IP ∧
    networkAddr (n.advanced j).NextAvailable =
      n.NextAvailable.IP.val + j * blockSize n.NextAvailable ∧
    blockSize (n.advanced j).NextAvailable = blockSize n.NextAvailable := by
  obtain ⟨⟨⟨hl, hv⟩, hb, ho⟩, hp, ha⟩ := hr
  have hpos := blockSize_pos n.NextAvailable
  refine ⟨⟨⟨hl, ?_⟩, hb, ho⟩, ?_, ?_, rfl⟩
  · show n.NextAvailable.IP.val + j * blockSize n.NextAvailable < 2 ^ (8 * n.NextAvailable.IP.len)
    rw [← hb]; exact hj
  · intro h16
    have := hp h16
    show 2 ^ 48 ≤ n.NextAvailable.IP.val + j * blockSize n.NextAvailable
    omega
  · show (n.NextAvailable.IP.val + j * blockSize n.NextAvailable) / blockSize n.NextAvailable *
      blockSize n.NextAvailable = _
    obtain ⟨k, hk⟩ := networkAddr_dvd n.NextAvailable
    rw [ha] at hk
    rw [hk]
    have : blockSize n.NextAvailable * k + j * blockSize n.NextAvailable =
        blockSize n.NextAvailable * (k + j) := by ring
    rw [this, Nat.mul_div_cancel_left _ hpos, Nat.mul_comm]

/-- Method `NextSubnet` with the length of the cursor, on a ready pool moved
`j` blocks up. -/
theorem advanced_NextSubnet (n : Net) (hr : n.ready) (j : Nat)
    (hj : n.NextAvailable.IP.val + j * blockSize n.NextAvailable < 2 ^ n.NextAvailable.Mask.bits) :
    (n.advanced j).NextSubnet n.NextAvailable.Mask.ones =
      if n.AvailableSubnets - j < 1 then
        .error (.noMoreSubnets n.IPNet.String n.NextAvailable.Mask.ones)
      else if n.NextAvailable.IP.val + (j + 1) * blockSize n.NextAvailable =
          2 ^ n.NextAvailable.Mask.bits then
        .error (.subnetFull (n.block j).String)
      else .ok (n.block j, n.advanced (j + 1)) := by
  obtain ⟨hwf, hp, hna, hbs⟩ := advanced_cursor n hr j hj
  have h := Net_NextSubnet_eq (n.advanced j) hwf hp
  rw [hna, hbs] at h
  have e1 : n.NextAvailable.IP.val + j * blockSize n.NextAvailable + blockSize n.NextAvailable =
      n.NextAvailable.IP.val + (j + 1) * blockSize n.NextAvailable := by ring
  rw [e1] at h
  have e2 : (n.advanced j).NextAvailable.Mask = n.NextAvailable.Mask := rfl
  rw [e2] at h
  rw [h]
  have e3 : (n.advanced j).AvailableSubnets = n.AvailableSubnets - j := rfl
  rw [e3]
  by_cases hA : n.AvailableSubnets - (j : Int) < 1
  · simp only [hA, if_true]; rfl
  · simp only [hA, if_false]
    by_cases hf : n.NextAvailable.IP.val + (j + 1) * blockSize n.NextAvailable =
        2 ^ n.NextAvailable.Mask.bits
    · simp only [hf, if_true]; rfl
    · simp only [hf, if_false]
      congr 2
      unfold Net.advanced
      simp only [Net.mk.injEq, true_and, and_true]
      push_cast
      ring

/-- A subnet-taking call at the length of the cursor, on a ready pool moved
`j` blocks up. -/
theorem advanced_call (n : Net) (hr : n.ready) (j : Nat)
    (hj : n.NextAvailable.IP.val + j * blockSize n.NextAvailable < 2 ^ n.NextAvailable.Mask.bits)
    (c : PoolCall) (hc : c.takes n.NextAvailable.Mask.ones) :
    (n.advanced j).call c =
      if n.AvailableSubnets - j < 1 then
        .error (.noMoreSubnets n.IPNet.String n.NextAvailable.Mask.ones)
      else if n.NextAvailable.IP.val + (j + 1) * blockSize n.NextAvailable =
          2 ^ n.NextAvailable.Mask.bits then
        .error (.subnetFull (n.block j).String)
      else .ok (c.resultOn (n.block j), n.advanced (j + 1)) := by
  have h := advanced_NextSubnet n hr j hj
  rcases hc with hc | hc
  · subst hc
    unfold Net.call
    simp only
    rw [h]
    by_cases hA : n.AvailableSubnets - (j : Int) < 1
    · simp only [hA, if_true]
    · simp only [hA, if_false]
      by_cases hf : n.NextAvailable.IP.val + (j + 1) * blockSize n.NextAvailable =
          2 ^ n.NextAvailable.Mask.bits
      · simp only [hf, if_true]
      · simp only [hf, if_false]; rfl
  · subst hc
    unfold Net.call
    simp only
    rw [NextLinkIPs_eq]
    have e : (n.advanced j).NextAvailable.Mask.ones = n.NextAvailable.Mask.ones := rfl
    rw [e, h]
    by_cases hA : n.AvailableSubnets - (j : Int) < 1
    · simp only [hA, if_true]
    · simp only [hA, if_false]
      by_cases hf : n.NextAvailable.IP.val + (j + 1) * blockSize n.NextAvailable =
          2 ^ n.NextAvailable.Mask.bits
      · simp only [hf, if_true]
      · simp only [hf, if_false]; rfl

/-- Subnet-taking calls at the length of the cursor succeed as long as
subnets are left and the next block starts inside the address space; call
number `i` is served block `j + i`. -/
theorem advanced_calls_ok (n : Net) (hr : n.ready) (cs : List PoolCall) :
    ∀ j : Nat, (∀ c ∈ cs, c.takes n.NextAvailable.Mask.ones) →
      ((j + cs.length : Nat) : Int) ≤ n.AvailableSubnets →
      n.NextAvailable.IP.val + (j + cs.length) * blockSize n.NextAvailable <
        2 ^ n.NextAvailable.Mask.bits →
      (n.advanced j).calls cs = .ok (n.resultsFrom j cs, n.advanced (j + cs.length)) := by
  induction cs with
  | nil => intro j _ _ _; rfl
  | cons c cs ih =>
    intro j hall hA hroom
    have hpos := blockSize_pos n.NextAvailable
    simp only [List.length_cons] at hA hroom
    have hmono : (j + 1) * blockSize n.NextAvailable ≤
        (j + (cs.length + 1)) * blockSize n.NextAvailable :=
      Nat.mul_le_mul_right _ (by omega)
    have hmono0 : j * blockSize n.NextAvailable ≤ (j + 1) * blockSize n.NextAvailable :=
      Nat.mul_le_mul_right _ (by omega)
    have hj : n.NextAvailable.IP.val + j * blockSize n.NextAvailable <
        2 ^ n.NextAvailable.Mask.bits := by omega
    unfold Net.calls
    rw [advanced_call n hr j hj c (hall c (List.mem_cons_self _ _))]
    rw [if_neg (by push_cast at hA; omega), if_neg (by omega)]
    simp only
    have e : j + 1 + cs.length = j + (cs.length + 1) := by omega
    rw [ih (j + 1) (fun d hd => hall d (List.mem_cons_of_mem _ hd)) (by rw [e]; exact hA)
      (by rw [e]; exact hroom)]
    simp only [Net.resultsFrom, List.length_cons, e]

/-- A successful run of subnet-taking calls at the length of the cursor:
call number `i` was served block `j + i`, and as many subnets were left. -/
theorem advanced_calls_inv (n : Net) (hr : n.ready) (cs : List PoolCall) :
    ∀ (j : Nat) (rs : List PoolResult) (m : Net),
      (∀ c ∈ cs, c.takes n.NextAvailable.Mask.ones) →
      n.NextAvailable.IP.val + j * blockSize n.NextAvailable < 2 ^ n.NextAvailable.Mask.bits →
      (n.advanced j).calls cs = .ok (rs, m) →
      rs = n.resultsFrom j cs ∧ m = n.advanced (j + cs.length) ∧
      (cs ≠ [] → ((j + cs.length : Nat) : Int) ≤ n.AvailableSubnets) ∧
      n.NextAvailable.IP.val + (j + cs.length) * blockSize n.NextAvailable <
        2 ^ n.NextAvailable.Mask.bits := by
  induction cs with
  | nil =>
    intro j rs m _ hj h
    cases h
    exact ⟨rfl, rfl, fun h => absurd rfl h, hj⟩
  | cons c cs ih =>
    intro j rs m hall hj h
    unfold Net.calls at h
    rw [advanced_call n hr j hj c (hall c (List.mem_cons_self _ _))] at h
    have hle := networkAddr_add_le _ (advanced_cursor n hr j hj).1
    rw [(advanced_cursor n hr j hj).2.2.1, (advanced_cursor n hr j hj).2.2.2] at hle
    have e1 : n.NextAvailable.IP.val + j * blockSize n.NextAvailable + blockSize n.NextAvailable =
        n.NextAvailable.IP.val + (j + 1) * blockSize n.NextAvailable := by ring
    rw [e1] at hle
    by_cases hA : n.AvailableSubnets - (j : Int) < 1
    · rw [if_pos hA] at h; cases h
    · rw [if_neg hA] at h
      by_cases hf : n.NextAvailable.IP.val + (j + 1) * blockSize n.NextAvailable =
          2 ^ n.NextAvailable.Mask.bits
      · rw [if_pos hf] at h; cases h
      · rw [if_neg hf] at h
        simp only at h
        have hj1 : n.NextAvailable.IP.val + (j + 1) * blockSize n.NextAvailable <
            2 ^ (n.advanced (j + 1)).NextAvailable.Mask.bits := lt_of_le_of_ne hle hf
        cases hrest : (n.advanced (j + 1)).calls cs with
        | error e => rw [hrest] at h; cases h
        | ok v =>
          rw [hrest] at h
          cases h
          obtain ⟨h1, h2, h3, h4⟩ :=
            ih (j + 1) v.1 v.2 (fun d hd => hall d (List.mem_cons_of_mem _ hd)) hj1 hrest
          have e : j + 1 + cs.length = j + (cs.length + 1) := by omega
          refine ⟨?_, ?_, ?_, ?_⟩
          · rw [h1]; rfl
          · rw [h2, List.length_cons, e]
          · intro _
            rw [List.length_cons]
            by_cases hnil : cs = []
            · subst hnil
              simp only [List.length_nil]
              push_cast
              omega
            · have := h3 hnil
              rw [e] at this
              exact this
          · rw [List.length_cons, ← e]; exact h4

/-- Entry `i` of `resultsFrom` is the result of call `i` on block `j + i`. -/
theorem resultsFrom_getElem (n : Net) (cs : List PoolCall) :
    ∀ j i : Nat, (n.resultsFrom j cs)[i]? = (cs[i]?).map (fun c => c.resultOn (n.block (j + i))) := by
  induction cs with
  | nil => intro j i; simp [Net.resultsFrom]
  | cons c cs ih =>
    intro j i
    cases i with
    | zero => simp [Net.resultsFrom]
    | succ i =>
      simp only [Net.resultsFrom, List.getElem?_cons_succ, ih]
      have : j + 1 + i = j + (i + 1) := by omega
      rw [this]

/-- A successful `NextSubnet`, whatever the pool and the length asked for:
there was a subnet left, the value returned is the old cursor, one subnet
less is left, parent and flag are the same. -/
theorem NextSubnet_ok_inv (n : Net) (L : Int) (r : net.IPNet) (m : Net)
    (h : n.NextSubnet L = .ok (r, m)) :
    1 ≤ n.AvailableSubnets ∧ r = n.NextAvailable ∧
    m.AvailableSubnets = n.AvailableSubnets - 1 ∧ m.IPNet = n.IPNet ∧
    m.AutoAddress = n.AutoAddress := by
  unfold Net.NextSubnet at h
  simp only at h
  by_cases hA : n.AvailableSubnets < 1
  · rw [if_pos hA] at h; cases h
  · rw [if_neg hA] at h
    by_cases hf : (cidr.NextSubnet n.NextAvailable L).2 = true
    · rw [if_pos hf] at h; cases h
    · rw [if_neg hf] at h
      cases h
      exact ⟨by omega, rfl, rfl, rfl, rfl⟩

/-- A successful call, whatever it is: the parent is the same, and the count
of subnets stays at or above zero when it was. -/
theorem call_ok_inv (n : Net) (c : PoolCall) (r : PoolResult) (m : Net)
    (h : n.call c = .ok (r, m)) :
    m.IPNet = n.IPNet ∧ (0 ≤ n.AvailableSubnets → 0 ≤ m.AvailableSubnets) := by
  cases c with
  | nextSubnet L =>
    unfold Net.call at h
    simp only at h
    cases hs : n.NextSubnet L with
    | error e => rw [hs] at h; cases h
    | ok v =>
      rw [hs] at h
      cases h
      obtain ⟨h1, _, h3, h4, _⟩ := NextSubnet_ok_inv n L v.1 v.2 hs
      exact ⟨h4, fun _ => by omega⟩
  | nextLinkIPs =>
    unfold Net.call at h
    simp only at h
    rw [NextLinkIPs_eq] at h
    cases hs : n.NextSubnet n.NextAvailable.Mask.ones with
    | error e => rw [hs] at h; cases h
    | ok v =>
      rw [hs] at h
      cases h
      obtain ⟨h1, _, h3, h4, _⟩ := NextSubnet_ok_inv n _ v.1 v.2 hs
      exact ⟨h4, fun _ => by omega⟩
  | nextIP =>
    unfold Net.call at h
    cases h
    exact ⟨rfl, fun h0 => h0⟩

/-- A successful run of calls, whatever they are: the parent is the same,
and the count of subnets stays at or above zero when it was. -/
theorem calls_ok_inv (cs : List PoolCall) :
    ∀ (n : Net) (rs : List PoolResult) (m : Net), n.calls cs = .ok (rs, m) →
      m.IPNet = n.IPNet ∧ (0 ≤ n.AvailableSubnets → 0 ≤ m.AvailableSubnets) := by
  induction cs with
  | nil =>
    intro n rs m h
    cases h
    exact ⟨rfl, fun h0 => h0⟩
  | cons c cs ih =>
    intro n rs m h
    unfold Net.calls at h
    cases hc : n.call c with
    | error e => rw [hc] at h; cases h
    | ok v =>
      rw [hc] at h
      simp only at h
      cases hr : v.2.calls cs with
      | error e => rw [hr] at h; cases h
      | ok w =>
        rw [hr] at h
        cases h
        obtain ⟨a1, a2⟩ := call_ok_inv n c v.1 v.2 hc
        obtain ⟨b1, b2⟩ := ih v.2 w.1 w.2 hr
        exact ⟨b1.trans a1, fun h0 => b2 (a2 h0)⟩

/-- A pool built by `NewNetwork` on a plain parent with an effective
sub-prefix length at least the parent mask is ready: the cursor is the first
block of that length of the parent, and the parent holds
`2 ^ (length - parent mask)` such blocks. -/
theorem NewNetwork_ready (ovf : Int) (t : CIDRText) (L : Int) (n : Net)
    (h : NewNetwork ovf t L = .ok n) (hp : plain n.IPNet.IP)
    (hL : (n.IPNet.Mask.ones : Int) ≤ effectiveLen L n.IPNet.Mask.bits) :
    n.ready ∧ wfNet n.IPNet ∧ networkAddr n.IPNet = n.IPNet.IP.val ∧
    n.NextAvailable.IP = n.IPNet.IP ∧
    n.NextAvailable.Mask = ⟨(effectiveLen L n.IPNet.Mask.bits).toNat, n.IPNet.Mask.bits⟩ ∧
    (effectiveLen L n.IPNet.Mask.bits).toNat ≤ n.IPNet.Mask.bits ∧
    n.AvailableSubnets =
      pow2ToInt ovf (effectiveLen L n.IPNet.Mask.bits - n.IPNet.Mask.ones) ∧
    blockSize n.IPNet =
      2 ^ ((effectiveLen L n.IPNet.Mask.bits).toNat - n.IPNet.Mask.ones) *
        blockSize n.NextAvailable := by
  obtain ⟨hparse, hle, hcur, hA, _⟩ := NewNetwork_ok ovf t L n h
  obtain ⟨hwf, hal⟩ := ParseCIDR_wf t n.IPNet hparse
  have hwf0 := hwf
  obtain ⟨⟨hl, hv⟩, hb, ho⟩ := hwf
  unfold effectiveLen at *
  generalize hE : (if L > 0 then L else (n.IPNet.Mask.bits : Int) - 2) = E at *
  have hE0 : 0 ≤ E := le_trans (Int.natCast_nonneg _) hL
  have hmask : CIDRMask E n.IPNet.Mask.bits = ⟨E.toNat, n.IPNet.Mask.bits⟩ := by
    unfold CIDRMask
    have hb2 : ((n.IPNet.Mask.bits : Int) = 32 ∨ (n.IPNet.Mask.bits : Int) = 128) := by
      rcases hl with hl | hl <;> simp [hb, hl]
    rw [if_pos ⟨hb2, hE0, hle⟩]
    simp
  rw [hmask] at hcur
  have hEn : E.toNat ≤ n.IPNet.Mask.bits := by omega
  have hcn : n.IPNet.Mask.ones ≤ E.toNat := by omega
  have hsplit : blockSize n.IPNet =
      2 ^ (E.toNat - n.IPNet.Mask.ones) * 2 ^ (n.IPNet.Mask.bits - E.toNat) := by
    unfold blockSize
    rw [← pow_add]
    congr 1
    omega
  have hbs : blockSize n.NextAvailable = 2 ^ (n.IPNet.Mask.bits - E.toNat) := by
    unfold blockSize
    rw [hcur]
  refine ⟨⟨?_, ?_, ?_⟩, hwf0, hal, ?_, ?_, hEn, hA, ?_⟩
  · rw [hcur]
    exact ⟨⟨hl, hv⟩, hb, hEn⟩
  · rw [hcur]; exact hp
  · obtain ⟨k, hk⟩ := networkAddr_dvd n.IPNet
    rw [hal, hsplit] at hk
    unfold networkAddr
    rw [hbs, hcur]
    simp only
    rw [hk]
    have : 2 ^ (E.toNat - n.IPNet.Mask.ones) * 2 ^ (n.IPNet.Mask.bits - E.toNat) * k =
        (2 ^ (E.toNat - n.IPNet.Mask.ones) * k) * 2 ^ (n.IPNet.Mask.bits - E.toNat) := by ring
    rw [this, Nat.mul_div_cancel _ (Nat.two_pow_pos _)]
  · rw [hcur]
  · rw [hcur]
  · rw [hsplit, hbs]

theorem advanced_zero (n : Net) : n.advanced 0 = n := by
  unfold Net.advanced
  simp

/-- When exactly `k` subnets are left and all of them end inside the address
space, `k + 1` calls of `NextSubnet` end in the exit that names the parent. -/
theorem advanced_calls_exhaust (n : Net) (hr : n.ready) :
    ∀ k j : Nat, ((j + k : Nat) : Int) = n.AvailableSubnets →
      n.NextAvailable.IP.val + (j + k) * blockSize n.NextAvailable <
        2 ^ n.NextAvailable.Mask.bits →
      (n.advanced j).calls ((PoolCall.nextSubnet n.NextAvailable.Mask.ones).times (k + 1)) =
        .error (.noMoreSubnets n.IPNet.String n.NextAvailable.Mask.ones) := by
  intro k
  induction k with
  | zero =>
    intro j hA hroom
    simp only [Nat.add_zero] at hA hroom
    unfold PoolCall.times
    simp only [List.replicate]
    unfold Net.calls
    rw [advanced_call n hr j hroom _ (Or.inl rfl), if_pos (by omega)]
  | succ k ih =>
    intro j hA hroom
    have hmono : (j + 1) * blockSize n.NextAvailable ≤ (j + (k + 1)) * blockSize n.NextAvailable :=
      Nat.mul_le_mul_right _ (by omega)
    have hmono0 : j * blockSize n.NextAvailable ≤ (j + 1) * blockSize n.NextAvailable :=
      Nat.mul_le_mul_right _ (by omega)
    have hj : n.NextAvailable.IP.val + j * blockSize n.NextAvailable <
        2 ^ n.NextAvailable.Mask.bits := by omega
    unfold PoolCall.times
    rw [List.replicate_succ]
    unfold Net.calls
    rw [advanced_call n hr j hj _ (Or.inl rfl), if_neg (by push_cast at hA; omega),
      if_neg (by omega)]
    simp only
    have e : j + 1 + k = j + (k + 1) := by omega
    have := ih (j + 1) (by rw [e]; exact hA) (by rw [e]; exact hroom)
    unfold PoolCall.times at this
    rw [this]

/-- C6, as stated, fails on pools that end at the top of the address space:
the pool `255.255.255.252/30` of length 30 has one subnet, and the first call
already ends in the exit `Subnet full`; on `255.255.255.0/24` of length 30,
which has 64 subnets, 63 calls succeed and call 64 ends in `Subnet full`,
which names the cursor, not the parent. -/
theorem NewNetwork_top_block_refuted :
    NewNetwork 0 ⟨ip4 255 255 255 252, 30⟩ 30 = .ok topPool ∧
    topPool.AvailableSubnets = 2 ^ (30 - 30) ∧
    topPool.calls ((PoolCall.nextSubnet 30).times 1) =
      .error (.subnetFull "255.255.255.252/30") ∧
    NewNetwork 0 ⟨ip4 255 255 255 0, 24⟩ 30 = .ok top24Pool ∧
    top24Pool.AvailableSubnets = 2 ^ (30 - 24) ∧
    top24Pool.calls ((PoolCall.nextSubnet 30).times 64) =
      .error (.subnetFull "255.255.255.252/30") := by
  decide

/-- C6, amended: a pool built by `NewNetwork(prefix, L)` on a parent that
ends below the top of the address space, with `L` between the parent mask and
the parent mask plus 62, serves `k` successive `NextSubnet(L)` calls for
every `k` up to `2 ^ (L - parent mask)`, call `i` returning block `i`, and
one call more ends in the exit `no more subnets` that names the parent. -/
theorem NewNetwork_exhaustion (ovf : Int) (t : CIDRText) (L : Int) (n : Net)
    (h : NewNetwork ovf t L = .ok n) (hp : plain n.IPNet.IP)
    (hL : (n.IPNet.Mask.ones : Int) ≤ L) (h62 : L - n.IPNet.Mask.ones ≤ 62)
    (htop : n.IPNet.IP.val + blockSize n.IPNet < 2 ^ n.IPNet.Mask.bits) :
    (∀ k ≤ 2 ^ (L - n.IPNet.Mask.ones).toNat, ∃ m,
      n.calls ((PoolCall.nextSubnet L).times k) =
        .ok (n.resultsFrom 0 ((PoolCall.nextSubnet L).times k), m)) ∧
    n.calls ((PoolCall.nextSubnet L).times (2 ^ (L - n.IPNet.Mask.ones).toNat + 1)) =
      .error (.noMoreSubnets n.IPNet.String L) := by
  have hones : 0 < n.IPNet.Mask.ones := by
    rcases Nat.eq_zero_or_pos n.IPNet.Mask.ones with h0 | h0
    · exfalso
      unfold blockSize at htop
      rw [h0, Nat.sub_zero] at htop
      omega
    · exact h0
  have hLpos : L > 0 := by omega
  have hE : effectiveLen L n.IPNet.Mask.bits = L := by unfold effectiveLen; rw [if_pos hLpos]
  obtain ⟨hr, hwf, hal, hip, hmask, hEn, hA, hbs⟩ :=
    NewNetwork_ready ovf t L n h hp (by rw [hE]; exact hL)
  rw [hE] at hmask hEn hA hbs
  have hLn : ((n.NextAvailable.Mask.ones : Nat) : Int) = L := by
    rw [hmask]; simp only; omega
  have hbits : n.NextAvailable.Mask.bits = n.IPNet.Mask.bits := by rw [hmask]
  have htot : (L - n.IPNet.Mask.ones).toNat = L.toNat - n.IPNet.Mask.ones := by omega
  have hAn : n.AvailableSubnets = ((2 ^ (L - n.IPNet.Mask.ones).toNat : Nat) : Int) := by
    rw [hA]
    unfold pow2ToInt
    rw [if_neg (by omega), if_pos h62]
    push_cast
    rfl
  have hroom : n.NextAvailable.IP.val +
      2 ^ (L - n.IPNet.Mask.ones).toNat * blockSize n.NextAvailable <
        2 ^ n.NextAvailable.Mask.bits := by
    rw [htot, ← hbs, hip, hbits]; exact htop
  constructor
  · intro k hk
    refine ⟨n.advanced (0 + k), ?_⟩
    have hlen : ((PoolCall.nextSubnet L).times k).length = k := by
      unfold PoolCall.times; simp
    have := advanced_calls_ok n hr ((PoolCall.nextSubnet L).times k) 0
      (by
        intro c hc
        unfold PoolCall.times at hc
        rw [List.eq_of_mem_replicate hc, hLn]
        exact Or.inl rfl)
      (by rw [hlen, hAn]; exact_mod_cast (by omega : 0 + k ≤ 2 ^ (L - n.IPNet.Mask.ones).toNat))
      (by
        rw [hlen]
        have : (0 + k) * blockSize n.NextAvailable ≤
            2 ^ (L - n.IPNet.Mask.ones).toNat * blockSize n.NextAvailable :=
          Nat.mul_le_mul_right _ (by omega)
        omega)
    rw [advanced_zero, hlen] at this
    exact this
  · have := advanced_calls_exhaust n hr (2 ^ (L - n.IPNet.Mask.ones).toNat) 0
      (by rw [hAn]; simp)
      (by rw [Nat.zero_add]; exact hroom)
    rw [advanced_zero, hLn] at this
    exact this

/-- C6, amended, on scenario S5: the pool `10.0.0.0/30` of length 30 serves
one call, and the second ends in the exit that names `10.0.0.0/30`. -/
theorem NewNetwork_exhaustion_witness :
    NewNetwork 0 ⟨ip4 10 0 0 0, 30⟩ 30 = .ok s5Pool ∧
    s5Pool.calls ((PoolCall.nextSubnet 30).times 1) =
      .ok ([.subnet (cidr4 10 0 0 0 30)],
        { s5Pool with NextAvailable := cidr4 10 0 0 4 30, AvailableSubnets := 0 }) ∧
    s5Pool.calls ((PoolCall.nextSubnet 30).times (2 ^ ((30 : Int) - s5Pool.IPNet.Mask.ones).toNat + 1)) =
      .error (.noMoreSubnets "10.0.0.0/30" 30) :=
  ⟨by decide, by decide,
    (NewNetwork_exhaustion 0 ⟨ip4 10 0 0 0, 30⟩ 30 s5Pool (by decide) (by decide) (by decide)
      (by decide) (by decide)).2⟩

/-- On a pool without subnets left a subnet-taking call ends in a fatal exit. -/
theorem call_takes_exhausted (n : Net) (L : Int) (c : PoolCall) (hc : c.takes L)
    (hA : n.AvailableSubnets < 1) : ∃ e, n.call c = .error e := by
  rcases hc with hc | hc
  · subst hc
    refine ⟨.noMoreSubnets n.IPNet.String L, ?_⟩
    unfold Net.call Net.NextSubnet
    simp only [hA, if_true]
  · subst hc
    refine ⟨.noMoreSubnets n.IPNet.String n.NextAvailable.Mask.ones, ?_⟩
    unfold Net.call
    simp only
    rw [NextLinkIPs_eq]
    unfold Net.NextSubnet
    simp only [hA, if_true]

/-- A successful, non-empty run of subnet-taking calls at the length of the
cursor on a pool built by `NewNetwork` over a plain parent: the length is at
least the parent mask, call `i` was served block `i`, and the calls were no
more than the subnets counted. -/
theorem NewNetwork_run (ovf : Int) (t : CIDRText) (L : Int) (n : Net)
    (h : NewNetwork ovf t L = .ok n) (hp : plain n.IPNet.IP)
    (cs : List PoolCall) (rs : List PoolResult) (m : Net)
    (hcs : ∀ c ∈ cs, c.takes n.NextAvailable.Mask.ones)
    (hrun : n.calls cs = .ok (rs, m)) (hne : cs ≠ []) :
    n.ready ∧ (n.IPNet.Mask.ones : Int) ≤ effectiveLen L n.IPNet.Mask.bits ∧
    rs = n.resultsFrom 0 cs ∧ m = n.advanced cs.length ∧
    ((cs.length : Nat) : Int) ≤ n.AvailableSubnets := by
  by_cases hL : (n.IPNet.Mask.ones : Int) ≤ effectiveLen L n.IPNet.Mask.bits
  · obtain ⟨hr, hwf, hal, hip, hmask, hEn, hA, hbs⟩ := NewNetwork_ready ovf t L n h hp hL
    have h0 : n.NextAvailable.IP.val + 0 * blockSize n.NextAvailable <
        2 ^ n.NextAvailable.Mask.bits := by
      rw [Nat.zero_mul, Nat.add_zero]
      have := hr.1.1.2
      rw [← hr.1.2.1] at this
      exact this
    have hrun0 : (n.advanced 0).calls cs = .ok (rs, m) := by rw [advanced_zero]; exact hrun
    obtain ⟨h1, h2, h3, _⟩ := advanced_calls_inv n hr cs 0 rs m hcs h0 hrun0
    rw [Nat.zero_add] at h2 h3
    exact ⟨hr, hL, h1, h2, h3 hne⟩
  · exfalso
    obtain ⟨_, _, _, hA, _⟩ := NewNetwork_ok ovf t L n h
    have hA0 : n.AvailableSubnets < 1 := by
      rw [hA]
      unfold pow2ToInt
      unfold effectiveLen at hL
      rw [if_pos (by omega)]
      decide
    cases cs with
    | nil => exact hne rfl
    | cons c cs =>
      obtain ⟨e, he⟩ := call_takes_exhausted n _ c (hcs c (List.mem_cons_self _ _)) hA0
      unfold Net.calls at hrun
      rw [he] at hrun
      cases hrun

/-- The count of subnets `NewNetwork` stores is at most the number of blocks
of the effective length in the parent, the value of an out-of-range
conversion being some 64-bit integer. -/
theorem NewNetwork_count_le (ovf : Int) (hovf : ovf < 2 ^ 63) (t : CIDRText) (L : Int) (n : Net)
    (h : NewNetwork ovf t L = .ok n)
    (hL : (n.IPNet.Mask.ones : Int) ≤ effectiveLen L n.IPNet.Mask.bits) :
    n.AvailableSubnets ≤
      ((2 ^ ((effectiveLen L n.IPNet.Mask.bits).toNat - n.IPNet.Mask.ones) : Nat) : Int) := by
  obtain ⟨_, _, _, hA, _⟩ := NewNetwork_ok ovf t L n h
  rw [hA]
  unfold pow2ToInt
  unfold effectiveLen at *
  generalize (if L > 0 then L else (n.IPNet.Mask.bits : Int) - 2) = E at *
  rw [if_neg (by omega)]
  have htot : (E - n.IPNet.Mask.ones).toNat = E.toNat - n.IPNet.Mask.ones := by omega
  by_cases h62 : E - n.IPNet.Mask.ones ≤ 62
  · rw [if_pos h62, htot]
    push_cast
    exact le_refl _
  · rw [if_neg h62]
    have h63 : 63 ≤ E.toNat - n.IPNet.Mask.ones := by omega
    have : (2 : Int) ^ 63 ≤ ((2 ^ (E.toNat - n.IPNet.Mask.ones) : Nat) : Int) := by
      have := Nat.pow_le_pow_right (by norm_num : 0 < 2) h63
      exact_mod_cast this
    omega

/-- The conversion of a power of two that fits in 64 bits is exact. -/
theorem pow2ToInt_small (ovf k : Int) (h0 : 0 ≤ k) (h62 : k ≤ 62) :
    pow2ToInt ovf k = ((2 ^ k.toNat : Nat) : Int) := by
  unfold pow2ToInt
  rw [if_neg (by omega), if_pos h62]
  push_cast
  rfl

/-- C7, as stated, fails: after the one subnet of the pool `10.0.0.0/30` was
taken, the cursor is `10.0.0.4/30`, outside the parent; and four `NextIP`
calls on the fresh pool leave the cursor at `10.0.0.4` while a subnet is
still counted. -/
theorem pool_cursor_leaves_parent :
    NewNetwork 0 ⟨ip4 10 0 0 0, 30⟩ 30 = .ok s5Pool ∧
    s5Pool.calls [.nextSubnet 30] =
      .ok ([.subnet (cidr4 10 0 0 0 30)],
        { s5Pool with NextAvailable := cidr4 10 0 0 4 30, AvailableSubnets := 0 }) ∧
    ¬ inNet s5Pool.IPNet (cidr4 10 0 0 4 30).IP ∧
    (s5Pool.calls (PoolCall.nextIP.times 4)).map (fun r => r.2) =
      .ok { s5Pool with NextAvailable := cidr4 10 0 0 4 30 } := by
  decide

/-- C7, amended: on a pool built by `NewNetwork` over a plain parent with an
effective length at most the parent mask plus 62, every successful run of
calls leaves `AvailableSubnets` at or above zero and the parent unchanged;
and after every successful run of subnet-taking calls at the length of the
cursor, the cursor lies in the parent as long as a subnet is left. -/
theorem pool_invariant (ovf : Int) (t : CIDRText) (L : Int) (n : Net)
    (h : NewNetwork ovf t L = .ok n) (hp : plain n.IPNet.IP)
    (h62 : effectiveLen L n.IPNet.Mask.bits - n.IPNet.Mask.ones ≤ 62) :
    (∀ cs rs m, n.calls cs = .ok (rs, m) → 0 ≤ m.AvailableSubnets ∧ m.IPNet = n.IPNet) ∧
    (∀ cs rs m, (∀ c ∈ cs, c.takes n.NextAvailable.Mask.ones) → n.calls cs = .ok (rs, m) →
      1 ≤ m.AvailableSubnets → inNet n.IPNet m.NextAvailable.IP) := by
  obtain ⟨hparse, _, hcur, hA, _⟩ := NewNetwork_ok ovf t L n h
  have hA : n.AvailableSubnets =
      pow2ToInt ovf (effectiveLen L n.IPNet.Mask.bits - n.IPNet.Mask.ones) := hA
  have hA0 : 0 ≤ n.AvailableSubnets := by
    rw [hA]
    by_cases hneg : effectiveLen L n.IPNet.Mask.bits - n.IPNet.Mask.ones < 0
    · unfold pow2ToInt
      rw [if_pos hneg]
    · rw [pow2ToInt_small ovf _ (by omega) h62]
      exact Int.natCast_nonneg _
  constructor
  · intro cs rs m hrun
    obtain ⟨h1, h2⟩ := calls_ok_inv cs n rs m hrun
    exact ⟨h2 hA0, h1⟩
  · intro cs rs m hcs hrun hleft
    have hcurIP : n.NextAvailable.IP = n.IPNet.IP := by rw [hcur]
    obtain ⟨hwfp, halp⟩ := ParseCIDR_wf t n.IPNet hparse
    by_cases hne : cs = []
    · subst hne
      cases hrun
      refine ⟨by rw [hcurIP], by rw [hcurIP, halp], ?_⟩
      rw [hcurIP]
      exact lt_networkAddr_add n.IPNet
    · obtain ⟨hr, hL, _, hm, hlen⟩ := NewNetwork_run ovf t L n h hp cs rs m hcs hrun hne
      obtain ⟨_, _, hal, hip, hmask, hEn, hA', hbs⟩ := NewNetwork_ready ovf t L n h hp hL
      rw [pow2ToInt_small ovf _ (by omega) h62] at hA'
      have htot : (effectiveLen L n.IPNet.Mask.bits - n.IPNet.Mask.ones).toNat =
          (effectiveLen L n.IPNet.Mask.bits).toNat - n.IPNet.Mask.ones := by omega
      rw [htot] at hA'
      subst hm
      have hmA : (n.advanced cs.length).AvailableSubnets = n.AvailableSubnets - cs.length := rfl
      rw [hmA, hA'] at hleft
      have hlt : cs.length + 1 ≤
          2 ^ ((effectiveLen L n.IPNet.Mask.bits).toNat - n.IPNet.Mask.ones) := by
        have : ((cs.length + 1 : Nat) : Int) ≤
            ((2 ^ ((effectiveLen L n.IPNet.Mask.bits).toNat - n.IPNet.Mask.ones) : Nat) : Int) := by
          omega
        exact_mod_cast this
      have hmul := Nat.mul_le_mul_right (blockSize n.NextAvailable) hlt
      rw [← hbs] at hmul
      have hval : (n.advanced cs.length).NextAvailable.IP.val =
          n.NextAvailable.IP.val + cs.length * blockSize n.NextAvailable := rfl
      have hlen' : (n.advanced cs.length).NextAvailable.IP.len = n.NextAvailable.IP.len := rfl
      have hpos := blockSize_pos n.NextAvailable
      refine ⟨by rw [hlen', hcurIP], ?_, ?_⟩
      · rw [hval, hal, hcurIP]; omega
      · rw [hval, hal, hcurIP]
        have : (cs.length + 1) * blockSize n.NextAvailable =
            cs.length * blockSize n.NextAvailable + blockSize n.NextAvailable := by ring
        omega

/-- C7, amended, on the pool of scenario S1. -/
theorem pool_invariant_witness :
    NewNetwork 0 ⟨ip4 10 0 0 0, 24⟩ 0 = .ok s1Pool ∧ plain s1Pool.IPNet.IP ∧
    effectiveLen 0 s1Pool.IPNet.Mask.bits - s1Pool.IPNet.Mask.ones ≤ 62 ∧
    (∀ cs rs m, s1Pool.calls cs = .ok (rs, m) → 0 ≤ m.AvailableSubnets ∧ m.IPNet = s1Pool.IPNet) ∧
    (∀ cs rs m, (∀ c ∈ cs, c.takes s1Pool.NextAvailable.Mask.ones) →
      s1Pool.calls cs = .ok (rs, m) →
      1 ≤ m.AvailableSubnets → inNet s1Pool.IPNet m.NextAvailable.IP) :=
  ⟨by decide, by decide, by decide,
    pool_invariant 0 ⟨ip4 10 0 0 0, 24⟩ 0 s1Pool (by decide) (by decide) (by decide)⟩

/-- C8: on a pool built by `NewNetwork` over a plain parent, a successful run
of `NextSubnet` calls at the length of the cursor and of `NextLinkIPs` calls
serves call `i` from block `i`: the block at the parent address plus `i`
times the block size, under the mask of the cursor.  Each such block lies in
the parent and ends before the next one starts.  (`ovf`, the value of an
out-of-range conversion to `int`, is some 64-bit integer.) -/
theorem NewNetwork_blocks_in_order (ovf : Int) (hovf : ovf < 2 ^ 63) (t : CIDRText) (L : Int)
    (n : Net) (h : NewNetwork ovf t L = .ok n) (hp : plain n.IPNet.IP)
    (cs : List PoolCall) (rs : List PoolResult) (m : Net)
    (hcs : ∀ c ∈ cs, c.takes n.NextAvailable.Mask.ones)
    (hrun : n.calls cs = .ok (rs, m)) :
    rs.length = cs.length ∧
    ∀ i c, cs[i]? = some c →
      rs[i]? = some (c.resultOn (n.block i)) ∧
      (n.block i).Mask = n.NextAvailable.Mask ∧
      (n.block i).IP.len = n.IPNet.IP.len ∧
      (n.block i).IP.val =
        n.IPNet.IP.val + i * 2 ^ (n.NextAvailable.Mask.bits - n.NextAvailable.Mask.ones) ∧
      networkAddr (n.block i) = (n.block i).IP.val ∧
      networkAddr n.IPNet ≤ (n.block i).IP.val ∧
      (n.block i).IP.val + blockSize (n.block i) ≤ networkAddr n.IPNet + blockSize n.IPNet ∧
      ∀ k, i < k → (n.block i).IP.val + blockSize (n.block i) ≤ (n.block k).IP.val := by
  by_cases hne : cs = []
  · subst hne
    cases hrun
    exact ⟨rfl, fun i c hc => by simp at hc⟩
  · obtain ⟨hr, hL, hrs, hm, hlen⟩ := NewNetwork_run ovf t L n h hp cs rs m hcs hrun hne
    obtain ⟨_, _, hal, hip, hmask, hEn, hA', hbs⟩ := NewNetwork_ready ovf t L n h hp hL
    have hle := NewNetwork_count_le ovf hovf t L n h hL
    have hpos := blockSize_pos n.NextAvailable
    have hlenrs : ∀ (j : Nat) (ds : List PoolCall), (n.resultsFrom j ds).length = ds.length := by
      intro j ds
      induction ds generalizing j with
      | nil => rfl
      | cons d ds ih => simp [Net.resultsFrom, ih]
    refine ⟨by rw [hrs, hlenrs], fun i c hc => ?_⟩
    have hi : i < cs.length := by
      rcases Nat.lt_or_ge i cs.length with hlt | hge
      · exact hlt
      · rw [List.getElem?_eq_none hge] at hc; cases hc
    have hval : ∀ j, (n.block j).IP.val =
        n.NextAvailable.IP.val + j * blockSize n.NextAvailable := fun _ => rfl
    have hbsz : ∀ j, blockSize (n.block j) = blockSize n.NextAvailable := fun _ => rfl
    have hitot : i + 1 ≤ 2 ^ ((effectiveLen L n.IPNet.Mask.bits).toNat - n.IPNet.Mask.ones) := by
      have : ((i + 1 : Nat) : Int) ≤
          ((2 ^ ((effectiveLen L n.IPNet.Mask.bits).toNat - n.IPNet.Mask.ones) : Nat) : Int) := by
        omega
      exact_mod_cast this
    have hmul := Nat.mul_le_mul_right (blockSize n.NextAvailable) hitot
    rw [← hbs] at hmul
    have hexp : (i + 1) * blockSize n.NextAvailable =
        i * blockSize n.NextAvailable + blockSize n.NextAvailable := by ring
    have hroom : n.NextAvailable.IP.val + i * blockSize n.NextAvailable <
        2 ^ n.NextAvailable.Mask.bits := by
      have h1 := networkAddr_add_le n.IPNet (ParseCIDR_wf t n.IPNet (NewNetwork_ok ovf t L n h).1).1
      have h2 : n.NextAvailable.Mask.bits = n.IPNet.Mask.bits := by rw [hmask]
      rw [h2, hip]
      omega
    refine ⟨?_, rfl, by rw [← hip]; rfl, ?_, ?_, ?_, ?_, ?_⟩
    · rw [hrs, resultsFrom_getElem, hc, Nat.zero_add]; rfl
    · rw [hval, hip]; rfl
    · exact (advanced_cursor n hr i hroom).2.2.1
    · rw [hval, hal, hip]; omega
    · rw [hval, hbsz, hal, hip]; omega
    · intro k hk
      rw [hval, hval, hbsz]
      have := Nat.mul_le_mul_right (blockSize n.NextAvailable) (by omega : i + 1 ≤ k)
      omega

/-- C8 on scenario S1: three links on the pool `10.0.0.0/24` are served
`10.0.0.0/30`, `10.0.0.4/30` and `10.0.0.8/30`. -/
theorem NewNetwork_blocks_in_order_witness :
    NewNetwork 0 ⟨ip4 10 0 0 0, 24⟩ 0 = .ok s1Pool ∧
    (s1Pool.calls (PoolCall.nextLinkIPs.times 3)).map (fun r => r.1) =
      .ok [.linkIPs ⟨ip4 10 0 0 1, ⟨30, 32⟩⟩ ⟨ip4 10 0 0 2, ⟨30, 32⟩⟩,
        .linkIPs ⟨ip4 10 0 0 5, ⟨30, 32⟩⟩ ⟨ip4 10 0 0 6, ⟨30, 32⟩⟩,
        .linkIPs ⟨ip4 10 0 0 9, ⟨30, 32⟩⟩ ⟨ip4 10 0 0 10, ⟨30, 32⟩⟩] ∧
    s1Pool.block 0 = cidr4 10 0 0 0 30 ∧ s1Pool.block 1 = cidr4 10 0 0 4 30 ∧
    s1Pool.block 2 = cidr4 10 0 0 8 30 ∧
    ∀ i c, (PoolCall.nextLinkIPs.times 3)[i]? = some c →
      (s1Pool.resultsFrom 0 (PoolCall.nextLinkIPs.times 3))[i]? =
        some (c.resultOn (s1Pool.block i)) ∧
      (s1Pool.block i).Mask = s1Pool.NextAvailable.Mask ∧
      (s1Pool.block i).IP.len = s1Pool.IPNet.IP.len ∧
      (s1Pool.block i).IP.val =
        s1Pool.IPNet.IP.val +
          i * 2 ^ (s1Pool.NextAvailable.Mask.bits - s1Pool.NextAvailable.Mask.ones) ∧
      networkAddr (s1Pool.block i) = (s1Pool.block i).IP.val ∧
      networkAddr s1Pool.IPNet ≤ (s1Pool.block i).IP.val ∧
      (s1Pool.block i).IP.val + blockSize (s1Pool.block i) ≤
        networkAddr s1Pool.IPNet + blockSize s1Pool.IPNet ∧
      ∀ k, i < k → (s1Pool.block i).IP.val + blockSize (s1Pool.block i) ≤
        (s1Pool.block k).IP.val :=
  ⟨by decide, by decide, by decide, by decide, by decide,
    (NewNetwork_blocks_in_order 0 (by decide) ⟨ip4 10 0 0 0, 24⟩ 0 s1Pool (by decide) (by decide)
      (PoolCall.nextLinkIPs.times 3) (s1Pool.resultsFrom 0 (PoolCall.nextLinkIPs.times 3))
      (s1Pool.advanced 3) (by decide) (by decide)).2⟩

/-- C9: `NextLinkIPs` departs from its own comment, "returns the 2 first host
IPs of the NextAvailable IPNet", and from the claim.  On the pool of S1 after
one `NextIP`, whose cursor `10.0.0.1/30` is not at its network address
`10.0.0.0`, the addresses are `10.0.0.2` and `10.0.0.3`, the second being the
last address of the cursor subnet, not the network address plus one and plus
two.  On the pool `255.255.255.254/32` the second address wraps to `0.0.0.0`,
which is not the network address plus two.  On the pool `10.0.0.0/24` cut
into subnets of length 31 the addresses are `10.0.0.1` and `10.0.0.2`, the
second lying past the end of the cursor subnet `10.0.0.0/31`. -/
theorem NextLinkIPs_offsets_refuted :
    s1Pool.NextIP.2.NextAvailable = ⟨ip4 10 0 0 1, ⟨30, 32⟩⟩ ∧
    networkAddr s1Pool.NextIP.2.NextAvailable = (ip4 10 0 0 0).val ∧
    s1Pool.NextIP.2.NextLinkIPs.map (fun r => r.1) =
      .ok (⟨ip4 10 0 0 2, ⟨30, 32⟩⟩, ⟨ip4 10 0 0 3, ⟨30, 32⟩⟩) ∧
    NewNetwork 0 ⟨ip4 255 255 255 254, 32⟩ 32 = .ok top32Pool ∧
    top32Pool.NextLinkIPs.map (fun r => r.1) =
      .ok (⟨ip4 255 255 255 255, ⟨32, 32⟩⟩, ⟨ip4 0 0 0 0, ⟨32, 32⟩⟩) ∧
    (ip4 0 0 0 0).val ≠ networkAddr top32Pool.NextAvailable + 2 ∧
    (NewNetwork 0 ⟨ip4 10 0 0 0, 24⟩ 31).map (fun p => p.NextAvailable) =
      .ok (cidr4 10 0 0 0 31) ∧
    (NewNetwork 0 ⟨ip4 10 0 0 0, 24⟩ 31).bind
        (fun p => p.NextLinkIPs.map (fun r => r.1)) =
      .ok (⟨ip4 10 0 0 1, ⟨31, 32⟩⟩, ⟨ip4 10 0 0 2, ⟨31, 32⟩⟩) ∧
    networkAddr (cidr4 10 0 0 0 31) + blockSize (cidr4 10 0 0 0 31) ≤ (ip4 10 0 0 2).val := by
  decide

/-- What `NextLinkIPs` computes on a pool with a subnet left: it succeeds
exactly when `NextSubnet` with the length of the cursor does, and takes the
cursor subnet as that call does.  The two networks returned carry the mask of
the cursor; the first address is the cursor address plus one, the second the
cursor address plus two modulo the size of the address space; neither is the
cursor address.  When the cursor is at its network address and the mask
leaves a host bit, they are the network address plus one and plus two. -/
theorem NextLinkIPs_addresses (n : Net) (hwf : wfNet n.NextAvailable)
    (hp : plain n.NextAvailable.IP) (hA : 1 ≤ n.AvailableSubnets) :
    (∀ a b m, n.NextLinkIPs = .ok ((a, b), m) →
      n.NextSubnet n.NextAvailable.Mask.ones = .ok (n.NextAvailable, m) ∧
      a.Mask = n.NextAvailable.Mask ∧ b.Mask = n.NextAvailable.Mask ∧
      a.IP = ⟨n.NextAvailable.IP.len, n.NextAvailable.IP.val + 1⟩ ∧
      b.IP = ⟨n.NextAvailable.IP.len,
        (n.NextAvailable.IP.val + 2) % 2 ^ n.NextAvailable.Mask.bits⟩ ∧
      a.IP ≠ n.NextAvailable.IP ∧ b.IP ≠ n.NextAvailable.IP ∧
      (networkAddr n.NextAvailable = n.NextAvailable.IP.val →
        n.NextAvailable.Mask.ones < n.NextAvailable.Mask.bits →
        a.IP.val = networkAddr n.NextAvailable + 1 ∧
        b.IP.val = networkAddr n.NextAvailable + 2)) ∧
    ((∃ a b m, n.NextLinkIPs = .ok ((a, b), m)) ↔
      networkAddr n.NextAvailable + blockSize n.NextAvailable < 2 ^ n.NextAvailable.Mask.bits) ∧
    ((∃ a b m, n.NextLinkIPs = .ok ((a, b), m)) ↔
      ∃ r m, n.NextSubnet n.NextAvailable.Mask.ones = .ok (r, m)) := by
  have hwf0 := hwf
  obtain ⟨⟨hl, hv⟩, hb, ho⟩ := hwf
  have hle := networkAddr_add_le n.NextAvailable hwf0
  have hlt := lt_networkAddr_add n.NextAvailable
  have hb8 : 2 ^ (8 * n.NextAvailable.IP.len) = 2 ^ n.NextAvailable.Mask.bits := by rw [hb]
  have hbig : 2 ^ 32 ≤ 2 ^ n.NextAvailable.Mask.bits := by
    rw [hb]
    exact Nat.pow_le_pow_right (by norm_num) (by omega)
  rw [NextLinkIPs_eq, Net_NextSubnet_eq n hwf0 hp, if_neg (by omega)]
  by_cases hfull : networkAddr n.NextAvailable + blockSize n.NextAvailable =
      2 ^ n.NextAvailable.Mask.bits
  · rw [if_pos hfull]
    refine ⟨?_, ⟨?_, ?_⟩, ⟨?_, ?_⟩⟩
    · intro a b m h; cases h
    · rintro ⟨a, b, m, h⟩; cases h
    · intro h; omega
    · rintro ⟨a, b, m, h⟩; cases h
    · rintro ⟨r, m, h⟩; cases h
  · rw [if_neg hfull]
    have hroom : networkAddr n.NextAvailable + blockSize n.NextAvailable <
        2 ^ n.NextAvailable.Mask.bits := lt_of_le_of_ne hle hfull
    have e1 : cidr.Inc n.NextAvailable.IP =
        ⟨n.NextAvailable.IP.len, n.NextAvailable.IP.val + 1⟩ := by
      rw [Inc_plain _ hl hp, hb8, Nat.mod_eq_of_lt (by omega)]
    have hp1 : plain ⟨n.NextAvailable.IP.len, n.NextAvailable.IP.val + 1⟩ := by
      intro h16
      have := hp h16
      show 2 ^ 48 ≤ n.NextAvailable.IP.val + 1
      omega
    have e2 : cidr.Inc ⟨n.NextAvailable.IP.len, n.NextAvailable.IP.val + 1⟩ =
        ⟨n.NextAvailable.IP.len, (n.NextAvailable.IP.val + 2) % 2 ^ n.NextAvailable.Mask.bits⟩ := by
      rw [Inc_plain ⟨n.NextAvailable.IP.len, n.NextAvailable.IP.val + 1⟩ hl hp1]
      show (⟨n.NextAvailable.IP.len,
        (n.NextAvailable.IP.val + 1 + 1) % 2 ^ (8 * n.NextAvailable.IP.len)⟩ : net.IP) = _
      rw [hb8]
    refine ⟨?_, ⟨?_, ?_⟩, ⟨?_, ?_⟩⟩
    · intro a b m h
      simp only [Except.ok.injEq, Prod.mk.injEq] at h
      obtain ⟨⟨ha, hbb⟩, hm⟩ := h
      subst ha hbb hm
      rw [e1, e2]
      refine ⟨rfl, rfl, rfl, rfl, rfl, ?_, ?_, ?_⟩
      · intro hc
        have := congrArg IP.val hc
        simp only at this
        omega
      · intro hc
        have := congrArg IP.val hc
        simp only at this
        rcases Nat.lt_or_ge (n.NextAvailable.IP.val + 2) (2 ^ n.NextAvailable.Mask.bits) with h2 | h2
        · rw [Nat.mod_eq_of_lt h2] at this; omega
        · have h3 : n.NextAvailable.IP.val + 2 = 2 ^ n.NextAvailable.Mask.bits := by omega
          rw [h3, Nat.mod_self] at this
          omega
      · intro hal hhost
        have h2 : 2 ≤ blockSize n.NextAvailable := by
          unfold blockSize
          calc 2 = 2 ^ 1 := by norm_num
            _ ≤ 2 ^ (n.NextAvailable.Mask.bits - n.NextAvailable.Mask.ones) :=
              Nat.pow_le_pow_right (by norm_num) (by omega)
        constructor
        · rw [hal]
        · show (n.NextAvailable.IP.val + 2) % 2 ^ n.NextAvailable.Mask.bits = _
          rw [Nat.mod_eq_of_lt (by omega), hal]
    · intro _; exact hroom
    · intro _; exact ⟨_, _, _, rfl⟩
    · intro _; exact ⟨_, _, rfl⟩
    · intro _; exact ⟨_, _, _, rfl⟩

/-- On the pool of S1 the first link gets `10.0.0.1` and `10.0.0.2` under
/30. -/
theorem NextLinkIPs_addresses_witness :
    wfNet s1Pool.NextAvailable ∧ plain s1Pool.NextAvailable.IP ∧ 1 ≤ s1Pool.AvailableSubnets ∧
    s1Pool.NextLinkIPs =
      .ok ((⟨ip4 10 0 0 1, ⟨30, 32⟩⟩, ⟨ip4 10 0 0 2, ⟨30, 32⟩⟩),
        { s1Pool with NextAvailable := cidr4 10 0 0 4 30, AvailableSubnets := 63 }) ∧
    ((∃ a b m, s1Pool.NextLinkIPs = .ok ((a, b), m)) ↔
      ∃ r m, s1Pool.NextSubnet s1Pool.NextAvailable.Mask.ones = .ok (r, m)) :=
  ⟨by decide, by decide, by decide, by decide,
    (NextLinkIPs_addresses s1Pool (by decide) (by decide) (by decide)).2.2⟩

/-- C10, as stated, fails at the top of the address space: on the pool
`255.255.255.255/32` the cursor address after `NextIP` is `0.0.0.0`, not the
old address plus one, and two successive calls return `255.255.255.255` and
`0.0.0.0`. -/
theorem NextIP_wraps :
    NewNetwork 0 ⟨ip4 255 255 255 255, 32⟩ 32 = .ok lastPool ∧
    lastPool.NextIP.1 = cidr4 255 255 255 255 32 ∧
    lastPool.NextIP.2.NextAvailable = cidr4 0 0 0 0 32 ∧
    lastPool.NextIP.2.NextAvailable.IP.val ≠ lastPool.NextAvailable.IP.val + 1 ∧
    (lastPool.calls (PoolCall.nextIP.times 2)).map (fun r => r.1) =
      .ok [.ip (cidr4 255 255 255 255 32), .ip (cidr4 0 0 0 0 32)] := by
  decide

/-- Successive `NextIP` calls below the top of the address space return the
cursor address, that address plus one, and so on, under the cursor mask. -/
theorem NextIP_calls (k : Nat) :
    ∀ n : Net, wfNet n.NextAvailable → plain n.NextAvailable.IP →
      n.NextAvailable.IP.val + k ≤ 2 ^ n.NextAvailable.Mask.bits →
      ∃ rs m, n.calls (PoolCall.nextIP.times k) = .ok (rs, m) ∧ rs.length = k ∧
        ∀ i, i < k → rs[i]? = some (.ip ⟨⟨n.NextAvailable.IP.len, n.NextAvailable.IP.val + i⟩,
          n.NextAvailable.Mask⟩) := by
  induction k with
  | zero =>
    intro n _ _ _
    exact ⟨[], n, rfl, rfl, fun i hi => absurd hi (Nat.not_lt_zero _)⟩
  | succ k ih =>
    intro n hwf hp hk
    obtain ⟨⟨hl, hv⟩, hb, ho⟩ := hwf
    have hcall : n.calls (PoolCall.nextIP.times (k + 1)) =
        match n.NextIP.2.calls (PoolCall.nextIP.times k) with
        | .error e => .error e
        | .ok (rs, m) => .ok (.ip n.NextAvailable :: rs, m) := by
      unfold PoolCall.times
      rw [List.replicate_succ]
      rfl
    rw [hcall]
    cases k with
    | zero =>
      refine ⟨[.ip n.NextAvailable], n.NextIP.2, rfl, rfl, fun i hi => ?_⟩
      have : i = 0 := by omega
      subst this
      rfl
    | succ k =>
      have hb8 : 2 ^ (8 * n.NextAvailable.IP.len) = 2 ^ n.NextAvailable.Mask.bits := by rw [hb]
      have hcur : n.NextIP.2.NextAvailable =
          ⟨⟨n.NextAvailable.IP.len, n.NextAvailable.IP.val + 1⟩, n.NextAvailable.Mask⟩ := by
        unfold Net.NextIP
        simp only
        rw [Inc_plain _ hl hp, hb8, Nat.mod_eq_of_lt (by omega)]
      have hwf1 : wfNet n.NextIP.2.NextAvailable := by
        rw [hcur]
        refine ⟨⟨hl, ?_⟩, hb, ho⟩
        show n.NextAvailable.IP.val + 1 < 2 ^ (8 * n.NextAvailable.IP.len)
        rw [hb8]; omega
      have hp1 : plain n.NextIP.2.NextAvailable.IP := by
        rw [hcur]
        intro h16
        have := hp h16
        show 2 ^ 48 ≤ n.NextAvailable.IP.val + 1
        omega
      obtain ⟨rs, m, hrun, hlen, hget⟩ := ih n.NextIP.2 hwf1 hp1 (by rw [hcur]; simp only; omega)
      rw [hrun]
      refine ⟨_, m, rfl, by simp [hlen], fun i hi => ?_⟩
      cases i with
      | zero => simp
      | succ i =>
        rw [List.getElem?_cons_succ, hget i (by omega), hcur]
        simp only
        have : n.NextAvailable.IP.val + 1 + i = n.NextAvailable.IP.val + (i + 1) := by omega
        rw [this]

/-- C10, amended: `NextIP` returns the cursor as it was and leaves the mask of
the cursor, `AvailableSubnets`, the parent and `AutoAddress` alone; the
cursor address afterwards is the old one plus one modulo the size of the
address space.  As long as the top of the address space is not passed, `k`
successive calls return the cursor address, that address plus one, up to
that address plus `k - 1`. -/
theorem NextIP_increments (n : Net) (hwf : wfNet n.NextAvailable)
    (hp : plain n.NextAvailable.IP) :
    n.NextIP.1 = n.NextAvailable ∧
    n.NextIP.2.NextAvailable.IP =
      ⟨n.NextAvailable.IP.len, (n.NextAvailable.IP.val + 1) % 2 ^ n.NextAvailable.Mask.bits⟩ ∧
    n.NextIP.2.NextAvailable.Mask = n.NextAvailable.Mask ∧
    n.NextIP.2.AvailableSubnets = n.AvailableSubnets ∧
    n.NextIP.2.IPNet = n.IPNet ∧ n.NextIP.2.AutoAddress = n.AutoAddress ∧
    ∀ k, n.NextAvailable.IP.val + k ≤ 2 ^ n.NextAvailable.Mask.bits →
      ∃ rs m, n.calls (PoolCall.nextIP.times k) = .ok (rs, m) ∧ rs.length = k ∧
        ∀ i, i < k → rs[i]? = some (.ip ⟨⟨n.NextAvailable.IP.len, n.NextAvailable.IP.val + i⟩,
          n.NextAvailable.Mask⟩) := by
  refine ⟨rfl, ?_, rfl, rfl, rfl, rfl, fun k hk => NextIP_calls k n hwf hp hk⟩
  unfold Net.NextIP
  simp only
  rw [Inc_plain _ hwf.1.1 hp, hwf.2.1]

/-- C10, amended, on a loopback pool `10.100.0.0/32`: three calls return
`10.100.0.0`, `10.100.0.1` and `10.100.0.2` under /32. -/
theorem NextIP_increments_witness :
    wfNet (cidr4 10 100 0 0 32) ∧ plain (ip4 10 100 0 0) ∧
    (∃ rs m, (Net.mk (cidr4 10 100 0 0 32) (cidr4 10 100 0 0 32) 1 true).calls
        (PoolCall.nextIP.times 3) = .ok (rs, m) ∧ rs.length = 3 ∧
      ∀ i, i < 3 → rs[i]? = some (.ip ⟨⟨4, (ip4 10 100 0 0).val + i⟩, ⟨32, 32⟩⟩)) :=
  ⟨by decide, by decide,
    (NextIP_increments (Net.mk (cidr4 10 100 0 0 32) (cidr4 10 100 0 0 32) 1 true)
      (by decide) (by decide)).2.2.2.2.2.2 3 (by decide)⟩

/-! ## External links -/

/-- The identifier `linkExternal` computes for a side is the one of
`neighborID`. -/
theorem neighborID_eq (p : Project) (side : ExternalLinkItem) :
    neighborID p side =
      (match (p.routers side.Router).Loopback with
        | lo :: _ => lo
        | [] => side.Interface.IP) := by
  unfold neighborID
  cases (p.routers side.Router).Loopback <;> simp

theorem appendLink_neighbors (p : Project) (r : RouterPtr) (i : NetInterface) (q : RouterPtr) :
    ((p.appendLink r i).routers q).Neighbors = (p.routers q).Neighbors := by
  unfold Project.appendLink Project.setRouter
  by_cases h : q = r <;> simp [h]

theorem appendLink_other (p : Project) (r : RouterPtr) (i : NetInterface) (q : RouterPtr) :
    ((p.appendLink r i).routers q).Loopback = (p.routers q).Loopback ∧
    ((p.appendLink r i).routers q).Hostname = (p.routers q).Hostname := by
  unfold Project.appendLink Project.setRouter
  by_cases h : q = r <;> simp [h]

theorem storeNeighbor_neighbors (p : Project) (r : RouterPtr) (k : String) (v : BGPNbr)
    (q : RouterPtr) :
    ((p.storeNeighbor r k v).routers q).Neighbors =
      if q = r then mapSet (p.routers q).Neighbors k v else (p.routers q).Neighbors := by
  unfold Project.storeNeighbor Project.setRouter
  by_cases h : q = r <;> simp [h]

theorem storeNeighbor_other (p : Project) (r : RouterPtr) (k : String) (v : BGPNbr)
    (q : RouterPtr) :
    ((p.storeNeighbor r k v).routers q).Loopback = (p.routers q).Loopback ∧
    ((p.storeNeighbor r k v).routers q).Hostname = (p.routers q).Hostname := by
  unfold Project.storeNeighbor Project.setRouter
  by_cases h : q = r <;> simp [h]

/-- One pass of the loop of `linkExternal` as four assignments through the
router pointers. -/
theorem linkExternalStep_eq (c : Relations) (p : Project) (lnk : ExternalLink)
    (bT bF : Bool) (hT : p.networkIs4 lnk.To.ASN = some bT)
    (hF : p.networkIs4 lnk.From.ASN = some bF) :
    linkExternalStep c p lnk = some
      ((((p.appendLink lnk.From.Router
            (describe lnk.From.Interface lnk.To.ASN (p.routers lnk.To.Router).Hostname)).storeNeighbor
          lnk.From.Router (neighborID p lnk.To).IP.String
          (sessionRecord c lnk.From lnk.To (neighborID p lnk.To)
            (sessionAF lnk.From.Interface.IP.IP.To4.isSome bT bF))).appendLink lnk.To.Router
          (describe lnk.To.Interface lnk.From.ASN
            (((p.appendLink lnk.From.Router
              (describe lnk.From.Interface lnk.To.ASN (p.routers lnk.To.Router).Hostname)).storeNeighbor
              lnk.From.Router (neighborID p lnk.To).IP.String
              (sessionRecord c lnk.From lnk.To (neighborID p lnk.To)
                (sessionAF lnk.From.Interface.IP.IP.To4.isSome bT bF))).routers
                  lnk.From.Router).Hostname)).storeNeighbor
        lnk.To.Router (neighborID p lnk.From).IP.String
        (sessionRecord c lnk.To lnk.From (neighborID p lnk.From)
          (sessionAF lnk.From.Interface.IP.IP.To4.isSome bT bF))) := by
  rw [neighborID_eq, neighborID_eq]
  unfold linkExternalStep
  rw [hT, hF]
  cases bT <;> cases bF <;> cases h4 : lnk.From.Interface.IP.IP.To4.isSome <;> rfl

/-- One pass of the loop of `linkExternal`, when both autonomous systems
have a network: it ends normally, and every neighbour map is the old one with
the two session records stored, first in the from-router, then in the
to-router. -/
theorem linkExternalStep_neighbors (c : Relations) (p : Project) (lnk : ExternalLink)
    (bT bF : Bool) (hT : p.networkIs4 lnk.To.ASN = some bT)
    (hF : p.networkIs4 lnk.From.ASN = some bF) :
    ∃ q, linkExternalStep c p lnk = some q ∧
      ∀ r, (q.routers r).Neighbors =
        insertedBoth p lnk
          (neighborID p lnk.To).IP.String
          (sessionRecord c lnk.From lnk.To (neighborID p lnk.To)
            (sessionAF lnk.From.Interface.IP.IP.To4.isSome bT bF))
          (neighborID p lnk.From).IP.String
          (sessionRecord c lnk.To lnk.From (neighborID p lnk.From)
            (sessionAF lnk.From.Interface.IP.IP.To4.isSome bT bF)) r := by
  refine ⟨_, linkExternalStep_eq c p lnk bT bF hT hF, fun r => ?_⟩
  rw [storeNeighbor_neighbors, appendLink_neighbors, storeNeighbor_neighbors,
    appendLink_neighbors]
  unfold insertedBoth
  by_cases h1 : r = lnk.To.Router <;> by_cases h2 : r = lnk.From.Router <;> simp [h1, h2]

/-- C1, as stated, fails on scenario S2: after `linkExternal`, `R1` of
AS 100 (the provider side) holds for `172.16.0.2` the maps of the customer
relation of the other side, not the maps of its own relation; `R1` of AS 200
holds for `172.16.0.1` the provider maps. -/
theorem linkExternal_own_relation_refuted :
    neighborAfter sampleRelations s2Project 0 "172.16.0.2" =
      some (200, ["CUSTOMER_IN"], ["CUSTOMER_OUT"]) ∧
    neighborAfter sampleRelations s2Project 0 "172.16.0.2" ≠
      some (200, (getRouteMaps sampleRelations s2Link.From.Relation [] []).1,
        (getRouteMaps sampleRelations s2Link.From.Relation [] []).2) ∧
    neighborAfter sampleRelations s2Project 0 "172.16.0.2" ≠
      some (200, ["PROVIDER_IN"], ["PROVIDER_OUT"]) ∧
    neighborAfter sampleRelations s2Project 1 "172.16.0.1" =
      some (100, ["PROVIDER_IN"], ["PROVIDER_OUT"]) ∧
    neighborAfter sampleRelations s2Project 1 "172.16.0.1" ≠
      some (100, ["CUSTOMER_IN"], ["CUSTOMER_OUT"]) := by
  decide

/-- C1, amended: for a link whose two autonomous systems have a network, one
pass of `linkExternal` ends normally and stores two records: in the
from-router, under the identifier of the to-side, a record with the remote AS
of the to-side and the route maps of the to-side relation; in the to-router,
under the identifier of the from-side, a record with the remote AS of the
from-side and the route maps of the from-side relation. -/
theorem linkExternalStep_peer_relation (c : Relations) (p : Project) (lnk : ExternalLink)
    (bT bF : Bool) (hT : p.networkIs4 lnk.To.ASN = some bT)
    (hF : p.networkIs4 lnk.From.ASN = some bF) :
    ∃ q nf nt, linkExternalStep c p lnk = some q ∧
      (∀ r, (q.routers r).Neighbors =
        insertedBoth p lnk (neighborID p lnk.To).IP.String nf
          (neighborID p lnk.From).IP.String nt r) ∧
      (lnk.From.Router ≠ lnk.To.Router →
        (q.routers lnk.From.Router).Neighbors (neighborID p lnk.To).IP.String = some nf) ∧
      (q.routers lnk.To.Router).Neighbors (neighborID p lnk.From).IP.String = some nt ∧
      nf.RemoteAS = lnk.To.ASN ∧
      (nf.RouteMapsIn, nf.RouteMapsOut) = getRouteMaps c lnk.To.Relation [] [] ∧
      nt.RemoteAS = lnk.From.ASN ∧
      (nt.RouteMapsIn, nt.RouteMapsOut) = getRouteMaps c lnk.From.Relation [] [] := by
  obtain ⟨q, hq, hn⟩ := linkExternalStep_neighbors c p lnk bT bF hT hF
  refine ⟨q, _, _, hq, hn, ?_, ?_, rfl, rfl, rfl, rfl⟩
  · intro hne
    rw [hn]
    simp [insertedBoth, mapSet, hne]
  · rw [hn]
    simp [insertedBoth, mapSet]

/-- C1, amended, on scenario S2. -/
theorem linkExternalStep_peer_relation_witness :
    s2Project.networkIs4 s2Link.To.ASN = some true ∧
    s2Project.networkIs4 s2Link.From.ASN = some true ∧
    ∃ q nf nt, linkExternalStep sampleRelations s2Project s2Link = some q ∧
      (∀ r, (q.routers r).Neighbors =
        insertedBoth s2Project s2Link (neighborID s2Project s2Link.To).IP.String nf
          (neighborID s2Project s2Link.From).IP.String nt r) ∧
      (s2Link.From.Router ≠ s2Link.To.Router →
        (q.routers s2Link.From.Router).Neighbors (neighborID s2Project s2Link.To).IP.String =
          some nf) ∧
      (q.routers s2Link.To.Router).Neighbors (neighborID s2Project s2Link.From).IP.String =
        some nt ∧
      nf.RemoteAS = s2Link.To.ASN ∧
      (nf.RouteMapsIn, nf.RouteMapsOut) = getRouteMaps sampleRelations s2Link.To.Relation [] [] ∧
      nt.RemoteAS = s2Link.From.ASN ∧
      (nt.RouteMapsIn, nt.RouteMapsOut) =
        getRouteMaps sampleRelations s2Link.From.Relation [] [] :=
  ⟨by decide, by decide,
    linkExternalStep_peer_relation sampleRelations s2Project s2Link true true
      (by decide) (by decide)⟩

/-- C3: one pass of `linkExternal` stores the record for the to-side in the
from-router under the text of the to-side identifier and the record for the
from-side in the to-router under the text of the from-side identifier, the
identifier of a side being the first loopback of its router when there is
one and its link interface address otherwise; the `Mask` of each record is
the number of leading ones of that identifier. -/
theorem linkExternalStep_neighbor_key (c : Relations) (p : Project) (lnk : ExternalLink)
    (bT bF : Bool) (hT : p.networkIs4 lnk.To.ASN = some bT)
    (hF : p.networkIs4 lnk.From.ASN = some bF) :
    ∃ q nf nt, linkExternalStep c p lnk = some q ∧
      (∀ r, (q.routers r).Neighbors =
        insertedBoth p lnk (neighborID p lnk.To).IP.String nf
          (neighborID p lnk.From).IP.String nt r) ∧
      (lnk.From.Router ≠ lnk.To.Router →
        (q.routers lnk.From.Router).Neighbors =
          mapSet (p.routers lnk.From.Router).Neighbors (neighborID p lnk.To).IP.String nf ∧
        (q.routers lnk.To.Router).Neighbors =
          mapSet (p.routers lnk.To.Router).Neighbors (neighborID p lnk.From).IP.String nt) ∧
      nf.Mask = (neighborID p lnk.To).Mask.Size.1 ∧
      nt.Mask = (neighborID p lnk.From).Mask.Size.1 ∧
      (∀ side : ExternalLinkItem, ∀ lo rest,
        (p.routers side.Router).Loopback = lo :: rest → neighborID p side = lo) ∧
      (∀ side : ExternalLinkItem,
        (p.routers side.Router).Loopback = [] → neighborID p side = side.Interface.IP) ∧
      (∀ r, (q.routers r).Loopback = (p.routers r).Loopback) := by
  obtain ⟨q, hq, hn⟩ := linkExternalStep_neighbors c p lnk bT bF hT hF
  refine ⟨q, _, _, hq, hn, ?_, rfl, rfl, ?_, ?_, ?_⟩
  · intro hne
    constructor
    · rw [hn]; simp [insertedBoth, hne]
    · rw [hn]; simp [insertedBoth, Ne.symm hne]
  · intro side lo rest h
    rw [neighborID_eq, h]
  · intro side h
    rw [neighborID_eq, h]
  · intro r
    rw [linkExternalStep_eq c p lnk bT bF hT hF] at hq
    cases hq
    rw [(storeNeighbor_other _ _ _ _ _).1, (appendLink_other _ _ _ _).1,
      (storeNeighbor_other _ _ _ _ _).1, (appendLink_other _ _ _ _).1]

/-- C3 on scenario S2 with a loopback on the to-side router: the from-router
stores its neighbour under the loopback `192.168.0.1` with mask 32, the
to-router under the link address `172.16.0.1` with mask 30. -/
theorem linkExternalStep_neighbor_key_witness :
    s2ProjectLo.networkIs4 s2Link.To.ASN = some true ∧
    s2ProjectLo.networkIs4 s2Link.From.ASN = some true ∧
    (neighborID s2ProjectLo s2Link.To).IP.String = "192.168.0.1" ∧
    (neighborID s2ProjectLo s2Link.From).IP.String = "172.16.0.1" ∧
    ∃ q nf nt, linkExternalStep sampleRelations s2ProjectLo s2Link = some q ∧
      (∀ r, (q.routers r).Neighbors =
        insertedBoth s2ProjectLo s2Link (neighborID s2ProjectLo s2Link.To).IP.String nf
          (neighborID s2ProjectLo s2Link.From).IP.String nt r) ∧
      (s2Link.From.Router ≠ s2Link.To.Router →
        (q.routers s2Link.From.Router).Neighbors =
          mapSet (s2ProjectLo.routers s2Link.From.Router).Neighbors
            (neighborID s2ProjectLo s2Link.To).IP.String nf ∧
        (q.routers s2Link.To.Router).Neighbors =
          mapSet (s2ProjectLo.routers s2Link.To.Router).Neighbors
            (neighborID s2ProjectLo s2Link.From).IP.String nt) ∧
      nf.Mask = (neighborID s2ProjectLo s2Link.To).Mask.Size.1 ∧
      nt.Mask = (neighborID s2ProjectLo s2Link.From).Mask.Size.1 ∧
      (∀ side : ExternalLinkItem, ∀ lo rest,
        (s2ProjectLo.routers side.Router).Loopback = lo :: rest →
          neighborID s2ProjectLo side = lo) ∧
      (∀ side : ExternalLinkItem,
        (s2ProjectLo.routers side.Router).Loopback = [] →
          neighborID s2ProjectLo side = side.Interface.IP) ∧
      (∀ r, (q.routers r).Loopback = (s2ProjectLo.routers r).Loopback) :=
  ⟨by decide, by decide, by decide, by decide,
    linkExternalStep_neighbor_key sampleRelations s2ProjectLo s2Link true true
      (by decide) (by decide)⟩

/-- C4: one pass of `linkExternal` over a link whose two autonomous systems
have a network stores the same address families in both records.  They are
IPv4 alone exactly when the from-side link address and both networks are
IPv4; IPv6 is set as soon as one network is not IPv4; IPv4 and IPv6 are both
set when the link address is IPv4 and a network is not, and when the link
address is not IPv4 and both networks are.  The VPN families are never set. -/
theorem linkExternalStep_address_family (c : Relations) (p : Project) (lnk : ExternalLink)
    (bT bF : Bool) (hT : p.networkIs4 lnk.To.ASN = some bT)
    (hF : p.networkIs4 lnk.From.ASN = some bF) :
    ∃ q nf nt, linkExternalStep c p lnk = some q ∧
      (∀ r, (q.routers r).Neighbors =
        insertedBoth p lnk (neighborID p lnk.To).IP.String nf
          (neighborID p lnk.From).IP.String nt r) ∧
      nf.AF = nt.AF ∧
      (nf.AF = ⟨true, false, false, false⟩ ↔
        (lnk.From.Interface.IP.IP.To4.isSome = true ∧ bT = true ∧ bF = true)) ∧
      ((bT = false ∨ bF = false) → nf.AF.IPv6 = true) ∧
      (lnk.From.Interface.IP.IP.To4.isSome = true → (bT = false ∨ bF = false) →
        nf.AF = ⟨true, true, false, false⟩) ∧
      (lnk.From.Interface.IP.IP.To4.isSome = false → bT = true → bF = true →
        nf.AF = ⟨true, true, false, false⟩) ∧
      nf.AF.VPNv4 = false ∧ nf.AF.VPNv6 = false := by
  obtain ⟨q, hq, hn⟩ := linkExternalStep_neighbors c p lnk bT bF hT hF
  refine ⟨q, _, _, hq, hn, rfl, ?_, ?_, ?_, ?_, rfl, rfl⟩ <;>
    cases bT <;> cases bF <;> cases lnk.From.Interface.IP.IP.To4.isSome <;>
    simp [sessionRecord, sessionAF]

/-- C4 on scenario S2: an IPv4 link between two IPv4 networks gives IPv4
alone on both sides. -/
theorem linkExternalStep_address_family_witness :
    s2Project.networkIs4 s2Link.To.ASN = some true ∧
    s2Project.networkIs4 s2Link.From.ASN = some true ∧
    s2Link.From.Interface.IP.IP.To4.isSome = true ∧
    ∃ q nf nt, linkExternalStep sampleRelations s2Project s2Link = some q ∧
      (∀ r, (q.routers r).Neighbors =
        insertedBoth s2Project s2Link (neighborID s2Project s2Link.To).IP.String nf
          (neighborID s2Project s2Link.From).IP.String nt r) ∧
      nf.AF = nt.AF ∧
      (nf.AF = ⟨true, false, false, false⟩ ↔
        (s2Link.From.Interface.IP.IP.To4.isSome = true ∧ true = true ∧ true = true)) ∧
      ((true = false ∨ true = false) → nf.AF.IPv6 = true) ∧
      (s2Link.From.Interface.IP.IP.To4.isSome = true → (true = false ∨ true = false) →
        nf.AF = ⟨true, true, false, false⟩) ∧
      (s2Link.From.Interface.IP.IP.To4.isSome = false → true = true → true = true →
        nf.AF = ⟨true, true, false, false⟩) ∧
      nf.AF.VPNv4 = false ∧ nf.AF.VPNv6 = false :=
  ⟨by decide, by decide, by decide,
    linkExternalStep_address_family sampleRelations s2Project s2Link true true
      (by decide) (by decide)⟩

/-! ## Construction of a pool -/

/-- C11, as stated, fails.  On the parent `10.0.0.0/31` the default length 30
is shorter than the parent mask: the cursor `10.0.0.0/30` is larger than the
parent and the count is zero.  On the parent `2001:db8::/32` the default
length gives `2 ^ 94` sub-prefixes, outside the range of `int`: the count is
the value of the out-of-range conversion, shown here for the two values
`-2 ^ 63` and `2 ^ 63 - 1`. -/
theorem NewNetwork_count_refuted :
    NewNetwork 0 ⟨ip4 10 0 0 0, 31⟩ 0 = .ok slash31Pool ∧
    blockSize slash31Pool.IPNet < blockSize slash31Pool.NextAvailable ∧
    slash31Pool.AvailableSubnets = 0 ∧
    (NewNetwork (-2 ^ 63) docPrefix6 0).map (fun n => n.AvailableSubnets) = .ok (-2 ^ 63) ∧
    (NewNetwork (2 ^ 63 - 1) docPrefix6 0).map (fun n => n.AvailableSubnets) = .ok (2 ^ 63 - 1) ∧
    (NewNetwork (2 ^ 63 - 1) docPrefix6 0).map (fun n => n.AvailableSubnets) ≠
      .ok (2 ^ ((128 : Nat) - 2 - 32)) := by
  decide

/-- C11, amended: on a CIDR string that parses, with an effective sub-prefix
length (the argument when positive, the address width less two otherwise)
between the parent mask and the address width and at most 62 above the
parent mask, `NewNetwork` builds a pool whose parent is the parsed network,
whose cursor is the block of the effective length that starts at the parent
address, and whose count is the number of such blocks in the parent,
`2 ^ (length - parent mask)`. -/
theorem NewNetwork_builds (ovf : Int) (t : CIDRText) (L : Int) (p : net.IPNet)
    (hp : ParseCIDR t = some p)
    (hL : (p.Mask.ones : Int) ≤ effectiveLen L p.Mask.bits)
    (hmax : effectiveLen L p.Mask.bits ≤ p.Mask.bits)
    (h62 : effectiveLen L p.Mask.bits - p.Mask.ones ≤ 62) :
    ∃ n, NewNetwork ovf t L = .ok n ∧ n.IPNet = p ∧ n.AutoAddress = true ∧
      (L ≤ 0 → effectiveLen L p.Mask.bits = (p.Mask.bits : Int) - 2) ∧
      (0 < L → effectiveLen L p.Mask.bits = L) ∧
      n.NextAvailable = ⟨p.IP, ⟨(effectiveLen L p.Mask.bits).toNat, p.Mask.bits⟩⟩ ∧
      networkAddr n.NextAvailable = networkAddr p ∧
      n.AvailableSubnets = ((2 ^ ((effectiveLen L p.Mask.bits).toNat - p.Mask.ones) : Nat) : Int) ∧
      blockSize p =
        2 ^ ((effectiveLen L p.Mask.bits).toNat - p.Mask.ones) * blockSize n.NextAvailable := by
  obtain ⟨hwf, hal⟩ := ParseCIDR_wf t p hp
  obtain ⟨⟨hl, hv⟩, hb, ho⟩ := hwf
  have heq := NewNetwork_eq ovf t L p hp
  have hE : effectiveLen L p.Mask.bits = (if L > 0 then L else (p.Mask.bits : Int) - 2) := rfl
  rw [← hE, if_neg (not_lt.mpr hmax)] at heq
  generalize effectiveLen L p.Mask.bits = E at *
  have hE0 : 0 ≤ E := le_trans (Int.natCast_nonneg _) hL
  have hmask : CIDRMask E p.Mask.bits = ⟨E.toNat, p.Mask.bits⟩ := by
    unfold CIDRMask
    have hb2 : ((p.Mask.bits : Int) = 32 ∨ (p.Mask.bits : Int) = 128) := by
      rcases hl with hl | hl <;> simp [hb, hl]
    rw [if_pos ⟨hb2, hE0, hmax⟩]
    simp
  rw [hmask, pow2ToInt_small ovf _ (by omega) h62] at heq
  have htot : (E - p.Mask.ones).toNat = E.toNat - p.Mask.ones := by omega
  rw [htot] at heq
  have hEn : E.toNat ≤ p.Mask.bits := by omega
  have hcn : p.Mask.ones ≤ E.toNat := by omega
  have hsplit : blockSize p = 2 ^ (E.toNat - p.Mask.ones) * 2 ^ (p.Mask.bits - E.toNat) := by
    unfold blockSize
    rw [← pow_add]
    congr 1
    omega
  refine ⟨_, heq, rfl, rfl, ?_, ?_, rfl, ?_, rfl, hsplit⟩
  · intro h0; rw [hE, if_neg (by omega)]
  · intro h0; rw [hE, if_pos (by omega)]
  · obtain ⟨k, hk⟩ := networkAddr_dvd p
    rw [hal]
    rw [hal, hsplit] at hk
    show p.IP.val / 2 ^ (p.Mask.bits - E.toNat) * 2 ^ (p.Mask.bits - E.toNat) = p.IP.val
    rw [hk]
    have : 2 ^ (E.toNat - p.Mask.ones) * 2 ^ (p.Mask.bits - E.toNat) * k =
        (2 ^ (E.toNat - p.Mask.ones) * k) * 2 ^ (p.Mask.bits - E.toNat) := by ring
    rw [this, Nat.mul_div_cancel _ (Nat.two_pow_pos _)]

/-- C11, amended, on scenario S1: `10.0.0.0/24` without a length gives the
cursor `10.0.0.0/30` and 64 subnets. -/
theorem NewNetwork_builds_witness :
    ParseCIDR ⟨ip4 10 0 0 0, 24⟩ = some (cidr4 10 0 0 0 24) ∧
    NewNetwork 0 ⟨ip4 10 0 0 0, 24⟩ 0 = .ok s1Pool ∧
    ∃ n, NewNetwork 0 ⟨ip4 10 0 0 0, 24⟩ 0 = .ok n ∧ n.IPNet = cidr4 10 0 0 0 24 ∧
      n.AutoAddress = true ∧
      ((0 : Int) ≤ 0 → effectiveLen 0 (cidr4 10 0 0 0 24).Mask.bits =
        ((cidr4 10 0 0 0 24).Mask.bits : Int) - 2) ∧
      ((0 : Int) < 0 → effectiveLen 0 (cidr4 10 0 0 0 24).Mask.bits = 0) ∧
      n.NextAvailable = ⟨(cidr4 10 0 0 0 24).IP,
        ⟨(effectiveLen 0 (cidr4 10 0 0 0 24).Mask.bits).toNat, (cidr4 10 0 0 0 24).Mask.bits⟩⟩ ∧
      networkAddr n.NextAvailable = networkAddr (cidr4 10 0 0 0 24) ∧
      n.AvailableSubnets =
        ((2 ^ ((effectiveLen 0 (cidr4 10 0 0 0 24).Mask.bits).toNat -
          (cidr4 10 0 0 0 24).Mask.ones) : Nat) : Int) ∧
      blockSize (cidr4 10 0 0 0 24) =
        2 ^ ((effectiveLen 0 (cidr4 10 0 0 0 24).Mask.bits).toNat -
          (cidr4 10 0 0 0 24).Mask.ones) * blockSize n.NextAvailable :=
  ⟨by decide, by decide,
    NewNetwork_builds 0 ⟨ip4 10 0 0 0, 24⟩ 0 (cidr4 10 0 0 0 24) (by decide) (by decide)
      (by decide) (by decide)⟩

/-! ## Routers of an autonomous system -/

/-- The loop that generates routers makes `count` of them; the one at
position `j` has the identifier `i + j + 1`, the names built from it, the
interface counter zero and, when there is a loopback network, that network
with its address incremented `j` times. -/
theorem routerLoop_spec (k : ASConfig) (isis : Option ISISChecks) (count : Nat) :
    ∀ (i : Nat) (lo : Option net.IPNet),
      (routerLoop k isis count i lo).length = count ∧
      ∀ j, j < count → ∃ r, (routerLoop k isis count i lo)[j]? = some r ∧
        r.ID = ((i + j + 1 : Nat) : Int) ∧
        r.Hostname = "R" ++ toString (i + j + 1) ∧
        r.ContainerName = "AS" ++ toString k.ASN ++ "-" ++ ("R" ++ toString (i + j + 1)) ∧
        r.NextInterface = 0 ∧ r.Links = [] ∧
        r.Loopback =
          (match lo with
            | some l => [⟨incTimes j l.IP, l.Mask⟩]
            | none => []) := by
  induction count with
  | zero =>
    intro i lo
    exact ⟨rfl, fun j hj => absurd hj (Nat.not_lt_zero _)⟩
  | succ count ih =>
    intro i lo
    obtain ⟨hlen, hget⟩ := ih (i + 1)
      (match lo with
        | some l => some { l with IP := cidr.Inc l.IP }
        | none => none)
    constructor
    · simp only [routerLoop, List.length_cons, hlen]
    · intro j hj
      cases j with
      | zero =>
        simp only [routerLoop, List.getElem?_cons_zero, Option.some.injEq, exists_eq_left']
        cases isis <;> cases lo <;> simp [newRouter, incTimes] <;> split <;> simp
      | succ j =>
        obtain ⟨r, h1, h2, h3, h4, h5, h6, h7⟩ := hget j (by omega)
        have e : i + 1 + j + 1 = i + (j + 1) + 1 := by omega
        refine ⟨r, ?_, ?_, ?_, ?_, h5, h6, ?_⟩
        · simp only [routerLoop, List.getElem?_cons_succ]
          exact h1
        · rw [h2, e]
        · rw [h3, e]
        · rw [h4, e]
        · rw [h7]
          cases lo <;> rfl

/-- On an accepted entry, `ReadConfig` gets past the generation of the routers,
which are those of the loop started at position zero with the parsed loopback
range. -/
theorem readAS_ok (ovf : Int) (k : ASConfig) (isis : Option ISISChecks)
    (h : k.accepted ovf) :
    ∃ a, readAS ovf k isis = .ok a ∧ a.ASN = k.ASN ∧
      a.LoStart = k.LoRange.bind ParseCIDR ∧
      a.Routers = routerLoop k isis k.NumRouters.toNat 0 (k.LoRange.bind ParseCIDR) := by
  obtain ⟨hN, hpfx, hlo⟩ := h
  unfold readAS
  rw [if_neg (by omega)]
  cases hP : k.Prefix with
  | none =>
    cases hR : k.LoRange with
    | none => exact ⟨_, rfl, rfl, rfl, rfl⟩
    | some t =>
      obtain ⟨n, hn⟩ := hlo t hR
      simp only [hn, Option.bind]
      exact ⟨_, rfl, rfl, rfl, rfl⟩
  | some pfx =>
    obtain ⟨m, hm⟩ := hpfx pfx hP
    simp only [hm]
    cases hR : k.LoRange with
    | none => exact ⟨_, rfl, rfl, rfl, rfl⟩
    | some t =>
      obtain ⟨n, hn⟩ := hlo t hR
      simp only [hn, Option.bind]
      exact ⟨_, rfl, rfl, rfl, rfl⟩

/-- C12: on an accepted entry with `N` routers and AS number `A`, `ReadConfig`
creates exactly `N` routers; the one at position `i` has the identifier
`i + 1`, the host name `R<i+1>`, the container name `AS<A>-R<i+1>` and the
interface counter zero, so the identifiers in slice order are `1, …, N`. -/
theorem readAS_routers (ovf : Int) (k : ASConfig) (isis : Option ISISChecks)
    (h : k.accepted ovf) :
    ∃ a, readAS ovf k isis = .ok a ∧
      ((a.Routers.length : Nat) : Int) = k.NumRouters ∧
      (∀ i, i < a.Routers.length → ∃ r, a.Routers[i]? = some r ∧
        r.ID = ((i + 1 : Nat) : Int) ∧
        r.Hostname = "R" ++ toString (i + 1) ∧
        r.ContainerName = "AS" ++ toString k.ASN ++ "-R" ++ toString (i + 1) ∧
        r.NextInterface = 0) ∧
      a.Routers.map (fun r => r.ID) =
        (List.range a.Routers.length).map (fun i => ((i + 1 : Nat) : Int)) := by
  obtain ⟨a, ha, _, _, hr⟩ := readAS_ok ovf k isis h
  obtain ⟨hlen, hget⟩ := routerLoop_spec k isis k.NumRouters.toNat 0 (k.LoRange.bind ParseCIDR)
  rw [← hr] at hlen hget
  have hN := h.1
  refine ⟨a, ha, by rw [hlen]; omega, ?_, ?_⟩
  · intro i hi
    obtain ⟨r, h1, h2, h3, h4, h5, _, _⟩ := hget i (by rw [← hlen]; exact hi)
    rw [Nat.zero_add] at h2 h3 h4
    refine ⟨r, h1, h2, h3, ?_, h5⟩
    have e : ∀ x : String, "-" ++ ("R" ++ x) = "-R" ++ x := fun x => by
      rw [← String.append_assoc]; rfl
    rw [h4]
    simp only [String.append_assoc, e]
  · apply List.ext_getElem?
    intro i
    rcases Nat.lt_or_ge i a.Routers.length with hi | hi
    · obtain ⟨r, h1, h2, _⟩ := hget i (by rw [← hlen]; exact hi)
      rw [Nat.zero_add] at h2
      simp [List.getElem?_map, h1, h2, List.getElem?_range hi]
    · rw [List.getElem?_eq_none (by simpa using hi), List.getElem?_eq_none (by simpa using hi)]

/-- C12 on scenario S1: three routers `R1`, `R2`, `R3` of AS 100. -/
theorem readAS_routers_witness :
    s1Config.accepted 0 ∧
    ∃ a, readAS 0 s1Config none = .ok a ∧
      ((a.Routers.length : Nat) : Int) = s1Config.NumRouters ∧
      (∀ i, i < a.Routers.length → ∃ r, a.Routers[i]? = some r ∧
        r.ID = ((i + 1 : Nat) : Int) ∧
        r.Hostname = "R" ++ toString (i + 1) ∧
        r.ContainerName = "AS" ++ toString s1Config.ASN ++ "-R" ++ toString (i + 1) ∧
        r.NextInterface = 0) ∧
      a.Routers.map (fun r => r.ID) =
        (List.range a.Routers.length).map (fun i => ((i + 1 : Nat) : Int)) :=
  have hacc : s1Config.accepted 0 :=
    ⟨by decide, fun pfx hp => ⟨s1Pool, by cases hp; decide⟩,
      fun t ht => ⟨cidr4 10 100 0 0 24, by cases ht; decide⟩⟩
  ⟨hacc, readAS_routers 0 s1Config none hacc⟩

/-- C13, as stated, fails on scenario S1: the routers do not get
`10.100.0.1/32`, `10.100.0.2/32` and `10.100.0.3/32`; the first router gets
the address of the range itself, and every loopback carries the mask /24 of
the range. -/
theorem readAS_loopbacks_refuted :
    loopbacksOf (readAS 0 s1Config none) ≠
      [[⟨ip4 10 100 0 1, ⟨32, 32⟩⟩], [⟨ip4 10 100 0 2, ⟨32, 32⟩⟩],
        [⟨ip4 10 100 0 3, ⟨32, 32⟩⟩]] ∧
    (loopbacksOf (readAS 0 s1Config none)).head? = some [⟨ip4 10 100 0 0, ⟨24, 32⟩⟩] := by
  decide

/-- C13, amended: on scenario S1 (`lo_range = 10.100.0.0/24`, three routers)
the routers `R1`, `R2`, `R3` get the loopbacks `10.100.0.0/24`,
`10.100.0.1/24` and `10.100.0.2/24`: one loopback each, the address of the
range incremented once per router already served, under the mask of the
range. -/
theorem readAS_loopbacks_S1 :
    loopbacksOf (readAS 0 s1Config none) =
      [[⟨ip4 10 100 0 0, ⟨24, 32⟩⟩], [⟨ip4 10 100 0 1, ⟨24, 32⟩⟩],
        [⟨ip4 10 100 0 2, ⟨24, 32⟩⟩]] ∧
    (loopbacksOf (readAS 0 s1Config none)).map (fun l => l.map (fun n => n.String)) =
      [["10.100.0.0/24"], ["10.100.0.1/24"], ["10.100.0.2/24"]] := by
  decide

/-- Incrementing a plain address `j` times below the top of the address space
adds `j`. -/
theorem incTimes_plain (j : Nat) :
    ∀ ip : net.IP, (ip.len = 4 ∨ ip.len = 16) → plain ip → ip.val + j < 2 ^ (8 * ip.len) →
      incTimes j ip = ⟨ip.len, ip.val + j⟩ := by
  induction j with
  | zero => intro ip _ _ _; rfl
  | succ j ih =>
    intro ip hl hp hj
    have e : cidr.Inc ip = ⟨ip.len, ip.val + 1⟩ := by
      rw [Inc_plain ip hl hp, Nat.mod_eq_of_lt (by omega)]
    have hp1 : plain ⟨ip.len, ip.val + 1⟩ := by
      intro h16
      have := hp h16
      show 2 ^ 48 ≤ ip.val + 1
      omega
    show incTimes j (cidr.Inc ip) = _
    rw [e, ih ⟨ip.len, ip.val + 1⟩ hl hp1 (by show ip.val + 1 + j < 2 ^ (8 * ip.len); omega)]
    show (⟨ip.len, ip.val + 1 + j⟩ : net.IP) = _
    congr 1
    omega

/-- C14: on an accepted entry whose loopback range parses to a plain network
`n` with at least `N` addresses from its own address to the top of the
address space, the router at position `i` gets the single loopback
`n`-address plus `i` under the mask of `n`, and the loopbacks of two routers
at different positions differ. -/
theorem readAS_loopbacks_distinct (ovf : Int) (k : ASConfig) (isis : Option ISISChecks)
    (h : k.accepted ovf) (t : CIDRText) (n : net.IPNet)
    (ht : k.LoRange = some t) (hn : ParseCIDR t = some n) (hp : plain n.IP)
    (hroom : n.IP.val + k.NumRouters.toNat ≤ 2 ^ (8 * n.IP.len)) :
    ∃ a, readAS ovf k isis = .ok a ∧ ((a.Routers.length : Nat) : Int) = k.NumRouters ∧
      (∀ i, i < a.Routers.length → ∃ r, a.Routers[i]? = some r ∧
        r.Loopback = [⟨⟨n.IP.len, n.IP.val + i⟩, n.Mask⟩]) ∧
      (∀ (i j : Nat) (ri rj : Router), i ≠ j → a.Routers[i]? = some ri →
        a.Routers[j]? = some rj →
        ri.Loopback ≠ rj.Loopback) := by
  obtain ⟨a, ha, _, _, hr⟩ := readAS_ok ovf k isis h
  obtain ⟨hlen, hget⟩ := routerLoop_spec k isis k.NumRouters.toNat 0 (k.LoRange.bind ParseCIDR)
  rw [← hr] at hlen hget
  have hN := h.1
  have hbind : k.LoRange.bind ParseCIDR = some n := by rw [ht]; exact hn
  rw [hbind] at hget
  obtain ⟨⟨hl, _⟩, _, _⟩ := (ParseCIDR_wf t n hn).1
  have hlo : ∀ i, i < a.Routers.length → ∃ r, a.Routers[i]? = some r ∧
      r.Loopback = [⟨⟨n.IP.len, n.IP.val + i⟩, n.Mask⟩] := by
    intro i hi
    obtain ⟨r, h1, _, _, _, _, _, h7⟩ := hget i (by rw [← hlen]; exact hi)
    refine ⟨r, h1, ?_⟩
    rw [h7]
    simp only
    rw [incTimes_plain i n.IP hl hp (by omega)]
  refine ⟨a, ha, by rw [hlen]; omega, hlo, ?_⟩
  intro i j ri rj hij hi hj heq
  have hi' : i < a.Routers.length := by
    rcases Nat.lt_or_ge i a.Routers.length with h1 | h1
    · exact h1
    · rw [List.getElem?_eq_none (by simpa using h1)] at hi; cases hi
  have hj' : j < a.Routers.length := by
    rcases Nat.lt_or_ge j a.Routers.length with h1 | h1
    · exact h1
    · rw [List.getElem?_eq_none (by simpa using h1)] at hj; cases hj
  obtain ⟨r1, h1, l1⟩ := hlo i hi'
  obtain ⟨r2, h2, l2⟩ := hlo j hj'
  rw [hi] at h1; cases h1
  rw [hj] at h2; cases h2
  rw [l1, l2] at heq
  simp only [List.cons.injEq, IPNet.mk.injEq, IP.mk.injEq, true_and, and_true] at heq
  omega

/-- C14 on scenario S1. -/
theorem readAS_loopbacks_distinct_witness :
    s1Config.accepted 0 ∧ s1Config.LoRange = some ⟨ip4 10 100 0 0, 24⟩ ∧
    ParseCIDR ⟨ip4 10 100 0 0, 24⟩ = some (cidr4 10 100 0 0 24) ∧
    plain (cidr4 10 100 0 0 24).IP ∧
    ∃ a, readAS 0 s1Config none = .ok a ∧
      ((a.Routers.length : Nat) : Int) = s1Config.NumRouters ∧
      (∀ i, i < a.Routers.length → ∃ r, a.Routers[i]? = some r ∧
        r.Loopback = [⟨⟨(cidr4 10 100 0 0 24).IP.len, (cidr4 10 100 0 0 24).IP.val + i⟩,
          (cidr4 10 100 0 0 24).Mask⟩]) ∧
      (∀ (i j : Nat) (ri rj : Router), i ≠ j → a.Routers[i]? = some ri →
        a.Routers[j]? = some rj →
        ri.Loopback ≠ rj.Loopback) :=
  have hacc : s1Config.accepted 0 :=
    ⟨by decide, fun pfx hp => ⟨s1Pool, by cases hp; decide⟩,
      fun t ht => ⟨cidr4 10 100 0 0 24, by cases ht; decide⟩⟩
  ⟨hacc, by decide, by decide, by decide,
    readAS_loopbacks_distinct 0 s1Config none hacc ⟨ip4 10 100 0 0, 24⟩ (cidr4 10 100 0 0 24)
      (by decide) (by decide) (by decide) (by decide)⟩

/-! ## Customers of a VPN -/

/-- The parent router of a customer: the entry of `a.Routers` at the position
`Parent - 1`, absent when the position is outside the slice. -/
theorem parent_lookup_none (a : ASState) (P : Int)
    (hout : P < 1 ∨ (a.Routers.length : Int) < P) :
    (if 0 ≤ P - 1 then a.Routers[(P - 1).toNat]? else none) = none := by
  by_cases h0 : 0 ≤ P - 1
  · rw [if_pos h0]
    apply List.getElem?_eq_none
    omega
  · rw [if_neg h0]

/-- C17, as stated, fails: on the autonomous system of two routers, a customer
whose subnet parses and whose parent is 0, or 3, does not end in an exit with
a message but in the run-time panic of an index out of range. -/
theorem customerStep_parent_refuted :
    stopOf (customerStep blankInterface 100 s4VPN 0 0
      ⟨"CE1", some ⟨ip4 10 1 1 0, 30⟩, none, 0, true, none, some ⟨ip4 10 1 3 0, 30⟩⟩ s4State) =
        some (.indexOutOfRange (-1) 2) ∧
    stopOf (customerStep blankInterface 100 s4VPN 0 0
      ⟨"CE1", some ⟨ip4 10 1 1 0, 30⟩, none, 3, true, none, some ⟨ip4 10 1 3 0, 30⟩⟩ s4State) =
        some (.indexOutOfRange 2 2) := by
  decide

/-- C17, amended: when the parent of a customer lies outside `1 .. len(a.Routers)`,
`ReadConfig` goes no further than this customer: it stops with the exit of
the parse error when the subnet of the customer does not parse, and
otherwise with the run-time panic of the index `Parent - 1` out of range. -/
theorem customerStep_parent_out_of_range (blank : NetInterface) (asn : Int) (vpn : VPNConfig)
    (idx i : Nat) (v : VPNCustomerConfig) (a : ASState)
    (hout : v.Parent < 1 ∨ (a.Routers.length : Int) < v.Parent) :
    (parseText v.Subnet = none →
      customerStep blank asn vpn idx i v a = .error .parseError) ∧
    (parseText v.Subnet ≠ none →
      customerStep blank asn vpn idx i v a =
        .error (.indexOutOfRange (v.Parent - 1) a.Routers.length)) ∧
    (∀ b, customerStep blank asn vpn idx i v a ≠ .ok b) := by
  have hnone := parent_lookup_none a v.Parent hout
  have key : ∀ S, parseText v.Subnet = some S →
      customerStep blank asn vpn idx i v a =
        .error (.indexOutOfRange (v.Parent - 1) a.Routers.length) := by
    intro S hS
    unfold customerStep
    simp only [hS, ASState.alloc]
    rw [hnone]
  refine ⟨?_, ?_, ?_⟩
  · intro hS
    unfold customerStep
    simp only [hS]
  · intro hS
    cases hS' : parseText v.Subnet with
    | none => exact absurd hS' hS
    | some S => exact key S hS'
  · intro b hb
    cases hS' : parseText v.Subnet with
    | none =>
      unfold customerStep at hb
      simp only [hS'] at hb
      cases hb
    | some S =>
      rw [key S hS'] at hb
      cases hb

/-- C17, amended, on the autonomous system of two routers with the parent 3. -/
theorem customerStep_parent_out_of_range_witness :
    ((3 : Int) < 1 ∨ (s4State.Routers.length : Int) < 3) ∧
    customerStep blankInterface 100 s4VPN 0 0
      ⟨"CE1", some ⟨ip4 10 1 1 0, 30⟩, none, 3, true, none, some ⟨ip4 10 1 3 0, 30⟩⟩ s4State =
        .error (.indexOutOfRange (3 - 1) s4State.Routers.length) :=
  ⟨by decide,
    (customerStep_parent_out_of_range blankInterface 100 s4VPN 0 0
      ⟨"CE1", some ⟨ip4 10 1 1 0, 30⟩, none, 3, true, none, some ⟨ip4 10 1 3 0, 30⟩⟩ s4State
      (by decide)).2.1 (by decide)⟩


/-- Two increments of a plain address: one and two are added, the carry out
of the top byte being dropped. -/
theorem Inc_twice (ip : net.IP) (hw : ip.wf) (hp : plain ip) :
    cidr.Inc ip = ⟨ip.len, (ip.val + 1) % 2 ^ (8 * ip.len)⟩ ∧
      cidr.Inc (cidr.Inc ip) = ⟨ip.len, (ip.val + 2) % 2 ^ (8 * ip.len)⟩ := by
  obtain ⟨hl, hv⟩ := hw
  have e1 := Inc_plain ip hl hp
  refine ⟨e1, ?_⟩
  rw [e1]
  by_cases hlt : ip.val + 1 < 2 ^ (8 * ip.len)
  · rw [Nat.mod_eq_of_lt hlt,
      Inc_plain ⟨ip.len, ip.val + 1⟩ hl (fun h => by have := hp h; simp only; omega)]
  · have hz : ip.val + 1 = 2 ^ (8 * ip.len) := by omega
    have h2 : ip.val + 2 = 2 ^ (8 * ip.len) + 1 := by omega
    have hone : 1 < 2 ^ (8 * ip.len) := by
      rcases hl with hl | hl <;> rw [hl] <;> norm_num
    rw [hz, Nat.mod_self, h2, Nat.add_mod_left, Nat.mod_eq_of_lt hone]
    obtain ⟨len, val⟩ := ip
    simp only at hl
    rcases hl with hl | hl
    · subst hl
      show cidr.Inc ⟨4, 0⟩ = ⟨4, 1⟩
      decide
    · subst hl
      show cidr.Inc ⟨16, 0⟩ = ⟨16, 1⟩
      decide

/-- The link between the parent router and the customer router, as
`linkCustomer` records it. -/
theorem linkCustomer_spec (blank : NetInterface) (vrf host : String) (n : net.IPNet)
    (pr rp : RouterPtr) (a : ASState) (hne : pr ≠ rp) :
    ∃ l : Link, (linkCustomer blank vrf host n pr rp a).Links = a.Links ++ [l] ∧
      l.First.Router = pr ∧ l.Second.Router = rp ∧
      l.First.Interface.IP = n ∧ l.First.Interface.VRF = vrf ∧
      l.First.Interface.External = true ∧
      l.Second.Interface.IP = ⟨cidr.Inc n.IP, n.Mask⟩ ∧
      ((linkCustomer blank vrf host n pr rp a).routers pr).Links =
        (a.routers pr).Links ++ [l.First.Interface] ∧
      ((linkCustomer blank vrf host n pr rp a).routers rp).Links =
        (a.routers rp).Links.set 0 l.Second.Interface ∧
      ((linkCustomer blank vrf host n pr rp a).routers rp).Hostname = (a.routers rp).Hostname ∧
      ((linkCustomer blank vrf host n pr rp a).routers rp).ContainerName =
        (a.routers rp).ContainerName := by
  have hne' : rp ≠ pr := fun h => hne h.symm
  refine ⟨_, rfl, rfl, rfl, rfl, rfl, rfl, rfl, ?_, ?_, ?_, ?_⟩ <;>
    simp [linkCustomer, NewLinkItem, ASState.setRouter, hne, hne']

/-- The downstream link keeps the links and interfaces recorded before it. -/
theorem linkDownstream_spec (blank : NetInterface) (vrf host : String) (dn : net.IPNet)
    (pr rp : RouterPtr) (a : ASState) (hne : pr ≠ rp) :
    ∃ l : Link,
      (linkDownstream blank vrf host dn pr rp a).Links = a.Links ++ [l] ∧
      ((linkDownstream blank vrf host dn pr rp a).routers pr).Links =
        (a.routers pr).Links ++ [l.First.Interface] ∧
      ((linkDownstream blank vrf host dn pr rp a).routers rp).Links =
        (a.routers rp).Links ++ [l.Second.Interface] ∧
      ((linkDownstream blank vrf host dn pr rp a).routers rp).Hostname =
        (a.routers rp).Hostname ∧
      ((linkDownstream blank vrf host dn pr rp a).routers rp).ContainerName =
        (a.routers rp).ContainerName := by
  have hne' : rp ≠ pr := fun h => hne h.symm
  refine ⟨_, rfl, ?_, ?_, ?_, ?_⟩ <;>
    simp [linkDownstream, NewLinkItem, ASState.setRouter, hne, hne']

/-- One pass of the customer loop that goes through: the state it returns is
the customer link, then the downstream link for a hub, on a state whose
routers are those before with the customer router at the new pointer. -/
theorem customerStep_eq (blank : NetInterface) (asn : Int) (vpn : VPNConfig) (idx i : Nat)
    (v : VPNCustomerConfig) (a : ASState) (S : net.IPNet) (pr : RouterPtr)
    (hS : parseText v.Subnet = some S)
    (hpar : (if 0 ≤ v.Parent - 1 then a.Routers[(v.Parent - 1).toNat]? else none) = some pr)
    (hspoke : vpn.HubMode = true → v.Hub = false → (parseText v.RemoteSubnet).isSome = true)
    (hdown : v.Hub = true → (parseText v.SubnetDown).isSome = true) :
    ∃ a1 : ASState,
      a1.routers = (fun q => if q = a.next then customerRouter asn i v else a.routers q) ∧
      a1.Links = a.Links ∧
      customerStep blank asn vpn idx i v a = .ok
        (match v.Hub, parseText v.SubnetDown with
          | true, some dn => linkDownstream blank vpn.VRF v.Hostname dn pr a.next
              (linkCustomer blank vpn.VRF v.Hostname ⟨cidr.Inc S.IP, S.Mask⟩ pr a.next a1)
          | _, _ => linkCustomer blank vpn.VRF v.Hostname ⟨cidr.Inc S.IP, S.Mask⟩ pr a.next a1) := by
  unfold customerStep
  simp only [hS, ASState.alloc, hpar]
  cases hH : v.Hub
  · cases hM : vpn.HubMode
    · simp only [Bool.false_and, Bool.false_eq_true, if_false]
      refine ⟨_, ?_, ?_, rfl⟩ <;> rfl
    · have := hspoke hM hH
      cases hR : parseText v.RemoteSubnet
      · rw [hR] at this; cases this
      · simp only [Bool.true_and, Bool.not_false, if_true, Bool.false_eq_true, if_false]
        refine ⟨_, ?_, ?_, rfl⟩ <;> rfl
  · have := hdown hH
    cases hD : parseText v.SubnetDown
    · rw [hD] at this; cases this
    · simp only [Bool.not_true, Bool.and_false, Bool.false_eq_true, if_false, if_true]
      refine ⟨_, ?_, ?_, rfl⟩ <;> rfl

/-- C15, the claim as stated is refuted: for the customer subnet
`255.255.255.254/31` the interface of the parent router gets
`255.255.255.255/31` and the interface of the customer router gets
`0.0.0.0/31`, which is not the network address plus two; and a spoke of a VPN
in hub mode that declares no remote subnet stops `ReadConfig`, so that no
router and no link is recorded for it. -/
theorem customerStep_addresses_refuted :
    linksOf (customerStep blankInterface 100 { s4VPN with HubMode := false } 0 0
        ⟨"CE1", some ⟨ip4 255 255 255 254, 31⟩, none, 1, false, none, none⟩ s4State) =
      [((0, "eth0", "255.255.255.255/31", "VPN_A", true), (2, "eth0", "0.0.0.0/31"))] ∧
    stopOf (customerStep blankInterface 100 s4VPN 0 1
        ⟨"CE2", some ⟨ip4 10 1 2 0, 30⟩, none, 2, false, none, none⟩ s4State) =
      some .parseError := by
  constructor <;> decide

/-- C15 (amended): for a customer entry whose subnet `S` parses to a plain
network, whose parent index is in range and names a router made before, and
whose remote subnet (spoke of a VPN in hub mode) and downstream subnet (hub)
parse, one pass of the customer loop of `ReadConfig` goes through and stores at
the new pointer a router with the host name `H` of the entry and the
container name `AS<ASN>-Cust-<H>`; it records after the links present a link
whose first side is the parent router with the address `network(S) + 1`
modulo the size of the address space under the mask of `S`, VRF the one of the
VPN and `External` set, and whose second side is the customer router with the
address `network(S) + 2` modulo that size under the same mask; the first
interface is appended to the interfaces of the parent router and the second
is the first interface of the customer router. -/
theorem customerStep_link (blank : NetInterface) (asn : Int) (vpn : VPNConfig) (idx i : Nat)
    (v : VPNCustomerConfig) (a : ASState) (S : net.IPNet) (pr : RouterPtr)
    (hS : parseText v.Subnet = some S) (hp : plain S.IP)
    (h1 : 1 ≤ v.Parent) (hpar : a.Routers[(v.Parent - 1).toNat]? = some pr)
    (hfresh : pr < a.next)
    (hspoke : vpn.HubMode = true → v.Hub = false → (parseText v.RemoteSubnet).isSome = true)
    (hdown : v.Hub = true → (parseText v.SubnetDown).isSome = true) :
    ∃ (b : ASState) (l : Link) (rest : List Link) (more : List NetInterface),
      customerStep blank asn vpn idx i v a = .ok b ∧
      (b.routers a.next).Hostname = v.Hostname ∧
      (b.routers a.next).ContainerName = "AS" ++ toString asn ++ "-Cust-" ++ v.Hostname ∧
      b.Links = a.Links ++ l :: rest ∧
      l.First.Router = pr ∧ l.Second.Router = a.next ∧
      l.First.Interface.IP =
        ⟨⟨S.IP.len, (networkAddr S + 1) % 2 ^ (8 * S.IP.len)⟩, S.Mask⟩ ∧
      l.First.Interface.VRF = vpn.VRF ∧ l.First.Interface.External = true ∧
      l.Second.Interface.IP =
        ⟨⟨S.IP.len, (networkAddr S + 2) % 2 ^ (8 * S.IP.len)⟩, S.Mask⟩ ∧
      (b.routers pr).Links = (a.routers pr).Links ++ l.First.Interface :: more ∧
      (b.routers a.next).Links.head? = some l.Second.Interface := by
  have hne : pr ≠ a.next := Nat.ne_of_lt hfresh
  have hne' : ¬ (pr = a.next) := hne
  have hlook : (if 0 ≤ v.Parent - 1 then a.Routers[(v.Parent - 1).toNat]? else none) = some pr := by
    rw [if_pos (by omega)]; exact hpar
  obtain ⟨t, ht⟩ : ∃ t, ParseCIDR t = some S := by
    unfold parseText at hS
    cases hv : v.Subnet
    · rw [hv] at hS; cases hS
    · rw [hv] at hS; exact ⟨_, hS⟩
  obtain ⟨⟨hw, _, _⟩, hnet⟩ := ParseCIDR_wf t S ht
  obtain ⟨i1, i2⟩ := Inc_twice S.IP hw hp
  obtain ⟨a1, hr, hL, heq⟩ := customerStep_eq blank asn vpn idx i v a S pr hS hlook hspoke hdown
  obtain ⟨l, c1, c2, c3, c4, c5, c6, c7, c8, c9, c10, c11⟩ :=
    linkCustomer_spec blank vpn.VRF v.Hostname ⟨cidr.Inc S.IP, S.Mask⟩ pr a.next a1 hne
  have r1 : (a1.routers pr).Links = (a.routers pr).Links := by rw [hr]; simp only [if_neg hne']
  have r2 : a1.routers a.next = customerRouter asn i v := by rw [hr]; simp only [if_true]
  have k1 : (customerRouter asn i v).Hostname = v.Hostname := by
    unfold customerRouter; split <;> [rfl; (split <;> rfl)]
  have k2 : (customerRouter asn i v).ContainerName =
      "AS" ++ toString asn ++ "-Cust-" ++ v.Hostname := by
    unfold customerRouter; split <;> [rfl; (split <;> rfl)]
  have k3 : (customerRouter asn i v).Links = [nilInterface] := by
    unfold customerRouter; split <;> [rfl; (split <;> rfl)]
  rw [r1] at c8
  rw [r2, k3] at c9
  rw [r2, k1] at c10
  rw [r2, k2] at c11
  rw [hL] at c1
  simp only at c4 c7
  rw [i1, ← hnet] at c4
  rw [i2, ← hnet] at c7
  have c9' : ((linkCustomer blank vpn.VRF v.Hostname ⟨cidr.Inc S.IP, S.Mask⟩ pr a.next a1).routers
      a.next).Links = [l.Second.Interface] := by rw [c9]; rfl
  cases hH : v.Hub
  · rw [hH] at heq
    refine ⟨_, l, [], [], heq, c10, c11, c1, c2, c3, c4, c5, c6, c7, c8, ?_⟩
    rw [c9']; rfl
  · have hd := hdown hH
    cases hD : parseText v.SubnetDown
    · rw [hD] at hd; cases hd
    · rename_i dn
      rw [hH, hD] at heq
      obtain ⟨l2, d1, d2, d3, d4, d5⟩ := linkDownstream_spec blank vpn.VRF v.Hostname dn pr a.next
        (linkCustomer blank vpn.VRF v.Hostname ⟨cidr.Inc S.IP, S.Mask⟩ pr a.next a1) hne
      refine ⟨_, l, [l2], [l2.First.Interface], heq, ?_, ?_, ?_, c2, c3, c4, c5, c6, c7, ?_, ?_⟩
      · rw [d4, c10]
      · rw [d5, c11]
      · rw [d1, c1, List.append_assoc]; rfl
      · rw [d2, c8, List.append_assoc]; rfl
      · rw [d3, c9']; rfl

/-- C15, witness: the hub `CE1` of scenario S4, behind `R1` on `10.1.1.0/30`. -/
theorem customerStep_link_witness :
    parseText (some ⟨ip4 10 1 1 0, 30⟩) = some ⟨ip4 10 1 1 0, ⟨30, 32⟩⟩ ∧
    linksOf (customerStep blankInterface 100 s4VPN 0 0
        ⟨"CE1", some ⟨ip4 10 1 1 0, 30⟩, none, 1, true, none, some ⟨ip4 10 1 3 0, 30⟩⟩ s4State) =
      [((0, "eth0", "10.1.1.1/30", "VPN_A", true), (2, "eth0", "10.1.1.2/30")),
        ((0, "eth1", "10.1.3.1/30", "VPN_A_down", true), (2, "eth1", "10.1.3.2/30"))] ∧
    ∃ (b : ASState) (l : Link) (rest : List Link) (more : List NetInterface),
      customerStep blankInterface 100 s4VPN 0 0
        ⟨"CE1", some ⟨ip4 10 1 1 0, 30⟩, none, 1, true, none, some ⟨ip4 10 1 3 0, 30⟩⟩ s4State
          = .ok b ∧
      (b.routers s4State.next).Hostname = "CE1" ∧
      (b.routers s4State.next).ContainerName = "AS" ++ toString (100 : Int) ++ "-Cust-" ++ "CE1" ∧
      b.Links = s4State.Links ++ l :: rest ∧
      l.First.Router = 0 ∧ l.Second.Router = s4State.next ∧
      l.First.Interface.IP =
        ⟨⟨4, (networkAddr ⟨ip4 10 1 1 0, ⟨30, 32⟩⟩ + 1) % 2 ^ (8 * 4)⟩, ⟨30, 32⟩⟩ ∧
      l.First.Interface.VRF = "VPN_A" ∧ l.First.Interface.External = true ∧
      l.Second.Interface.IP =
        ⟨⟨4, (networkAddr ⟨ip4 10 1 1 0, ⟨30, 32⟩⟩ + 2) % 2 ^ (8 * 4)⟩, ⟨30, 32⟩⟩ ∧
      (b.routers 0).Links = (s4State.routers 0).Links ++ l.First.Interface :: more ∧
      (b.routers s4State.next).Links.head? = some l.Second.Interface :=
  ⟨by decide, by decide,
    customerStep_link blankInterface 100 s4VPN 0 0
      ⟨"CE1", some ⟨ip4 10 1 1 0, 30⟩, none, 1, true, none, some ⟨ip4 10 1 3 0, 30⟩⟩ s4State
      ⟨ip4 10 1 1 0, ⟨30, 32⟩⟩ 0 (by decide) (by decide) (by decide) (by decide) (by decide)
      (by decide) (by decide)⟩

/-- The downstream link, as `linkDownstream` records it. -/
theorem linkDownstream_link (blank : NetInterface) (vrf host : String) (dn : net.IPNet)
    (pr rp : RouterPtr) (a : ASState) :
    ∃ l : Link, (linkDownstream blank vrf host dn pr rp a).Links = a.Links ++ [l] ∧
      l.First.Router = pr ∧ l.Second.Router = rp ∧
      l.First.Interface.IP = ⟨cidr.Inc dn.IP, dn.Mask⟩ ∧
      l.First.Interface.VRF = vrf ++ "_down" ∧
      l.First.Interface.External = true ∧
      l.Second.Interface.IP = ⟨cidr.Inc (cidr.Inc dn.IP), dn.Mask⟩ :=
  ⟨_, rfl, rfl, rfl, rfl, rfl, rfl, rfl⟩

/-- The customer link is the one link `linkCustomer` adds; it has the VRF of
the VPN on its first side. -/
theorem linkCustomer_link (blank : NetInterface) (vrf host : String) (n : net.IPNet)
    (pr rp : RouterPtr) (a : ASState) :
    ∃ l : Link, (linkCustomer blank vrf host n pr rp a).Links = a.Links ++ [l] ∧
      l.First.Interface.VRF = vrf :=
  ⟨_, rfl, rfl⟩

/-- C16, the claim as stated is refuted: in a VPN that is not in hub mode, a
customer entry with the hub flag set and the downstream subnet `10.1.3.0/30`
gets two links, the second with the VRF `VPN_A_down` on the side of the parent
router. -/
theorem customerStep_downstream_refuted :
    ({ s4VPN with HubMode := false } : VPNConfig).HubMode = false ∧
    linksOf (customerStep blankInterface 100 { s4VPN with HubMode := false } 0 0
        ⟨"CE1", some ⟨ip4 10 1 1 0, 30⟩, none, 1, true, none, some ⟨ip4 10 1 3 0, 30⟩⟩ s4State) =
      [((0, "eth0", "10.1.1.1/30", "VPN_A", true), (2, "eth0", "10.1.1.2/30")),
        ((0, "eth1", "10.1.3.1/30", "VPN_A_down", true), (2, "eth1", "10.1.3.2/30"))] := by
  constructor <;> decide

/-- C16 (amended): one pass of the customer loop of `ReadConfig` that goes
through records the downstream link if and only if the hub flag of the
customer entry is set, whatever the hub mode of the VPN.  With the flag unset
exactly one link is added, with the VRF of the VPN on the side of the parent
router; with the flag set exactly two links are added, the second between the
parent router and the customer router with the VRF `<V>_down`, `External` set
and the address `network(D) + 1` modulo the size of the address space on the
side of the parent router, `network(D) + 2` modulo that size on the side of the
customer, both under the mask of the downstream subnet `D`. -/
theorem customerStep_downstream (blank : NetInterface) (asn : Int) (vpn : VPNConfig)
    (idx i : Nat) (v : VPNCustomerConfig) (a : ASState) (S : net.IPNet) (pr : RouterPtr)
    (hS : parseText v.Subnet = some S)
    (h1 : 1 ≤ v.Parent) (hpar : a.Routers[(v.Parent - 1).toNat]? = some pr)
    (hspoke : vpn.HubMode = true → v.Hub = false → (parseText v.RemoteSubnet).isSome = true)
    (hdown : v.Hub = true → ∃ D, parseText v.SubnetDown = some D ∧ plain D.IP) :
    ∃ (b : ASState) (l : Link),
      customerStep blank asn vpn idx i v a = .ok b ∧
      l.First.Interface.VRF = vpn.VRF ∧
      (v.Hub = false → b.Links = a.Links ++ [l]) ∧
      (v.Hub = true → ∃ (D : net.IPNet) (l2 : Link),
        parseText v.SubnetDown = some D ∧ b.Links = a.Links ++ [l, l2] ∧
        l2.First.Router = pr ∧ l2.Second.Router = a.next ∧
        l2.First.Interface.VRF = vpn.VRF ++ "_down" ∧
        l2.First.Interface.External = true ∧
        l2.First.Interface.IP =
          ⟨⟨D.IP.len, (networkAddr D + 1) % 2 ^ (8 * D.IP.len)⟩, D.Mask⟩ ∧
        l2.Second.Interface.IP =
          ⟨⟨D.IP.len, (networkAddr D + 2) % 2 ^ (8 * D.IP.len)⟩, D.Mask⟩) := by
  have hlook : (if 0 ≤ v.Parent - 1 then a.Routers[(v.Parent - 1).toNat]? else none) = some pr := by
    rw [if_pos (by omega)]; exact hpar
  have hdown' : v.Hub = true → (parseText v.SubnetDown).isSome = true := by
    intro h
    obtain ⟨D, hD, _⟩ := hdown h
    rw [hD]; rfl
  obtain ⟨a1, _, hL, heq⟩ := customerStep_eq blank asn vpn idx i v a S pr hS hlook hspoke hdown'
  obtain ⟨l, c1, c2⟩ :=
    linkCustomer_link blank vpn.VRF v.Hostname ⟨cidr.Inc S.IP, S.Mask⟩ pr a.next a1
  rw [hL] at c1
  cases hH : v.Hub
  · rw [hH] at heq
    refine ⟨_, l, heq, c2, fun _ => c1, ?_⟩
    intro h
    cases h
  · obtain ⟨D, hD, hp⟩ := hdown hH
    rw [hH, hD] at heq
    obtain ⟨t, ht⟩ : ∃ t, ParseCIDR t = some D := by
      unfold parseText at hD
      cases hv : v.SubnetDown
      · rw [hv] at hD; cases hD
      · rw [hv] at hD; exact ⟨_, hD⟩
    obtain ⟨⟨hw, _, _⟩, hnet⟩ := ParseCIDR_wf t D ht
    obtain ⟨i1, i2⟩ := Inc_twice D.IP hw hp
    obtain ⟨l2, d1, d2, d3, d4, d5, d6, d7⟩ := linkDownstream_link blank vpn.VRF v.Hostname D pr
      a.next (linkCustomer blank vpn.VRF v.Hostname ⟨cidr.Inc S.IP, S.Mask⟩ pr a.next a1)
    rw [i1, ← hnet] at d4
    rw [i2, ← hnet] at d7
    refine ⟨_, l, heq, c2, ?_, ?_⟩
    · intro h
      cases h
    · intro _
      refine ⟨D, l2, hD, ?_, d2, d3, d5, d6, d4, d7⟩
      rw [d1, c1, List.append_assoc]; rfl

/-- C16, witness: the hub `CE1` of scenario S4 with the downstream subnet
`10.1.3.0/30`, in a VPN that is in hub mode. -/
theorem customerStep_downstream_witness :
    parseText (some ⟨ip4 10 1 3 0, 30⟩) = some ⟨ip4 10 1 3 0, ⟨30, 32⟩⟩ ∧
    ∃ (b : ASState) (l : Link),
      customerStep blankInterface 100 s4VPN 0 0
        ⟨"CE1", some ⟨ip4 10 1 1 0, 30⟩, none, 1, true, none, some ⟨ip4 10 1 3 0, 30⟩⟩ s4State
          = .ok b ∧
      l.First.Interface.VRF = "VPN_A" ∧
      ((true : Bool) = false → b.Links = s4State.Links ++ [l]) ∧
      ((true : Bool) = true → ∃ (D : net.IPNet) (l2 : Link),
        parseText (some ⟨ip4 10 1 3 0, 30⟩) = some D ∧ b.Links = s4State.Links ++ [l, l2] ∧
        l2.First.Router = 0 ∧ l2.Second.Router = s4State.next ∧
        l2.First.Interface.VRF = "VPN_A" ++ "_down" ∧
        l2.First.Interface.External = true ∧
        l2.First.Interface.IP =
          ⟨⟨D.IP.len, (networkAddr D + 1) % 2 ^ (8 * D.IP.len)⟩, D.Mask⟩ ∧
        l2.Second.Interface.IP =
          ⟨⟨D.IP.len, (networkAddr D + 2) % 2 ^ (8 * D.IP.len)⟩, D.Mask⟩) :=
  ⟨by decide,
    customerStep_downstream blankInterface 100 s4VPN 0 0
      ⟨"CE1", some ⟨ip4 10 1 1 0, 30⟩, none, 1, true, none, some ⟨ip4 10 1 3 0, 30⟩⟩ s4State
      ⟨ip4 10 1 1 0, ⟨30, 32⟩⟩ 0 (by decide) (by decide) (by decide) (by decide)
      (fun _ => ⟨⟨ip4 10 1 3 0, ⟨30, 32⟩⟩, by decide, by decide⟩)⟩

/-! ## Bridges -/

/-- C18: the steps `StartAll` applies on the bridges depend on the links flag
only through its lower-case form: `internal` gives the internal links then the
host links, `external` gives the external links then the IXP links, `none`
gives no step, and every other value gives internal, host, external and IXP
links in that order; in every case a step inside an autonomous system comes
before every step between autonomous systems. -/
theorem StartAll_linkSteps_cases (toLower : String → String) (flag : String) :
    (toLower flag = "internal" →
      StartAll.linkSteps toLower flag = [.ApplyInternalLinks, .ApplyHostLinks]) ∧
    (toLower flag = "external" →
      StartAll.linkSteps toLower flag = [.ApplyExternalLinks, .ApplyIXPLinks]) ∧
    (toLower flag = "none" → StartAll.linkSteps toLower flag = []) ∧
    (toLower flag ≠ "internal" → toLower flag ≠ "external" → toLower flag ≠ "none" →
      StartAll.linkSteps toLower flag =
        [.ApplyInternalLinks, .ApplyHostLinks, .ApplyExternalLinks, .ApplyIXPLinks]) ∧
    (∀ other : String, toLower other = toLower flag →
      StartAll.linkSteps toLower other = StartAll.linkSteps toLower flag) ∧
    (∀ (i j : Nat) (x y : ApplyStep),
      (StartAll.linkSteps toLower flag)[i]? = some x →
      (StartAll.linkSteps toLower flag)[j]? = some y →
      x.interAS = false → y.interAS = true → i < j) := by
  refine ⟨?_, ?_, ?_, ?_, ?_, ?_⟩
  · intro h
    unfold StartAll.linkSteps
    simp only [h, if_true]
  · intro h
    unfold StartAll.linkSteps
    simp only [h]
    rfl
  · intro h
    unfold StartAll.linkSteps
    simp only [h]
    rfl
  · intro h1 h2 h3
    unfold StartAll.linkSteps
    simp only [h1, h2, h3, if_false]
  · intro other h
    unfold StartAll.linkSteps
    simp only [h]
  · intro i j x y hx hy hxi hyi
    unfold StartAll.linkSteps at hx hy
    simp only at hx hy
    by_cases h1 : toLower flag = "internal"
    · rw [if_pos h1] at hx hy
      rcases j with _ | _ | j
      · cases hy; cases hyi
      · cases hy; cases hyi
      · cases hy
    · rw [if_neg h1] at hx hy
      by_cases h2 : toLower flag = "external"
      · rw [if_pos h2] at hx hy
        rcases i with _ | _ | i
        · cases hx; cases hxi
        · cases hx; cases hxi
        · cases hx
      · rw [if_neg h2] at hx hy
        by_cases h3 : toLower flag = "none"
        · rw [if_pos h3] at hx
          cases hx
        · rw [if_neg h3] at hx hy
          rcases i with _ | _ | _ | _ | i
          · rcases j with _ | _ | j
            · cases hy; cases hyi
            · cases hy; cases hyi
            · omega
          · rcases j with _ | _ | j
            · cases hy; cases hyi
            · cases hy; cases hyi
            · omega
          · cases hx; cases hxi
          · cases hx; cases hxi
          · cases hx

/-- C18, witness: the flag `Internal`, with the lower case of ASCII letters. -/
theorem StartAll_linkSteps_cases_witness :
    asciiLower "Internal" = "internal" ∧
    StartAll.linkSteps asciiLower "Internal" = [.ApplyInternalLinks, .ApplyHostLinks] ∧
    StartAll.linkSteps asciiLower "INTERNAL" = StartAll.linkSteps asciiLower "Internal" :=
  ⟨by decide, (StartAll_linkSteps_cases asciiLower "Internal").1 (by decide),
    (StartAll_linkSteps_cases asciiLower "Internal").2.2.2.2.1 "INTERNAL" (by decide)⟩

/-- One side of a link adds one call, with the port counter as it stands, and
moves the counter up by one. -/
theorem setupSide_ops {I : Type} (routers : RouterPtr → Router) (addPort : PortCall → I → I)
    (brName : String) (side : LinkItem) (st : SetupState I) :
    (setupSide routers addPort brName side st).ops =
        st.ops ++ [.AddPortToContainer (sideCall routers brName side st.settings.OFPort)] ∧
      (setupSide routers addPort brName side st).settings.OFPort = st.settings.OFPort + 1 :=
  ⟨rfl, rfl⟩

/-- The operations of the loop of `setupContainerLinks` from any state. -/
theorem setupLoop_ops {I : Type} (routers : RouterPtr → Router) (addPort : PortCall → I → I)
    (brName : String) (links : List Link) :
    ∀ st : SetupState I,
      (links.foldl (fun st v =>
          setupSide routers addPort brName v.Second (setupSide routers addPort brName v.First st))
        st).ops =
      st.ops ++ (portCalls routers brName st.settings.OFPort links).map .AddPortToContainer := by
  induction links with
  | nil => intro st; simp [portCalls]
  | cons v vs ih =>
    intro st
    rw [List.foldl_cons, ih]
    obtain ⟨o1, p1⟩ := setupSide_ops routers addPort brName v.First st
    obtain ⟨o2, p2⟩ := setupSide_ops routers addPort brName v.Second
      (setupSide routers addPort brName v.First st)
    rw [o2, p2, o1, p1]
    simp [portCalls, List.append_assoc]

/-- The calls among operations that are all calls. -/
theorem attachments_map (l : List PortCall) :
    attachments (l.map .AddPortToContainer) = l := by
  unfold attachments
  induction l with
  | nil => rfl
  | cons x xs ih => simp [List.filterMap_cons, ih]

/-- The port numbers of the calls are consecutive. -/
theorem portCalls_ports (routers : RouterPtr → Router) (brName : String) (links : List Link) :
    ∀ p : Nat, (portCalls routers brName p links).map (fun call => call.Settings.OFPort) =
      List.range' p (2 * links.length) := by
  induction links with
  | nil => intro p; rfl
  | cons v vs ih =>
    intro p
    have e : 2 * (v :: vs).length = 2 * vs.length + 1 + 1 := by simp [List.length_cons]; omega
    rw [e, List.range'_succ, List.range'_succ]
    simp [portCalls, sideCall, ih]

/-- The two calls of link number `k`. -/
theorem portCalls_get (routers : RouterPtr → Router) (brName : String) (links : List Link) :
    ∀ (p k : Nat) (v : Link), links[k]? = some v →
      (portCalls routers brName p links)[2 * k]? = some (sideCall routers brName v.First (p + 2 * k)) ∧
      (portCalls routers brName p links)[2 * k + 1]? =
        some (sideCall routers brName v.Second (p + 2 * k + 1)) := by
  induction links with
  | nil => intro p k v h; simp at h
  | cons w ws ih =>
    intro p k v h
    cases k with
    | zero =>
      simp only [List.getElem?_cons_zero, Option.some.injEq] at h
      subst h
      simp [portCalls]
    | succ k =>
      simp only [List.getElem?_cons_succ] at h
      obtain ⟨a, b⟩ := ih (p + 2) k v h
      have e1 : 2 * (k + 1) = 2 * k + 1 + 1 := by omega
      have e2 : p + 2 + 2 * k = p + 2 * (k + 1) := by omega
      have e3 : p + 2 + 2 * k + 1 = p + 2 * (k + 1) + 1 := by omega
      rw [e2] at a
      rw [e3] at b
      refine ⟨?_, ?_⟩
      · rw [e1]; simpa [portCalls] using a
      · rw [e1]; simpa [portCalls] using b

/-- C19: `setupContainerLinks` creates the bridge and then attaches the sides
of the links in the order of the list, the first side of link number `k` with
the OpenFlow port `2k + 1` and the second with the port `2k + 2`, each with the
name, container, speed and VRF of its own interface; the ports of the
attachments are the numbers from 1 to twice the number of links, in order. -/
theorem setupContainerLinks_ports {I : Type} (routers : RouterPtr → Router)
    (addPort : PortCall → I → I) (zeroIf : I) (DefaultParams : PortSettings) (brName : String)
    (links : List Link) (m : String → Option (List I)) :
    (setupContainerLinks routers addPort zeroIf DefaultParams brName links m).1.head? =
        some (.CreateBridge brName) ∧
    (attachments (setupContainerLinks routers addPort zeroIf DefaultParams brName links m).1).map
        (fun call => call.Settings.OFPort) = List.range' 1 (2 * links.length) ∧
    ∀ (k : Nat) (v : Link), links[k]? = some v →
      (attachments (setupContainerLinks routers addPort zeroIf DefaultParams brName links m).1)[2 * k]?
        = some (sideCall routers brName v.First (2 * k + 1)) ∧
      (attachments
          (setupContainerLinks routers addPort zeroIf DefaultParams brName links m).1)[2 * k + 1]?
        = some (sideCall routers brName v.Second (2 * k + 2)) := by
  have hops : (setupContainerLinks routers addPort zeroIf DefaultParams brName links m).1 =
      .CreateBridge brName :: (portCalls routers brName 1 links).map .AddPortToContainer := by
    unfold setupContainerLinks
    simp only
    rw [setupLoop_ops]
    rfl
  have hatt : attachments (setupContainerLinks routers addPort zeroIf DefaultParams brName links m).1
      = portCalls routers brName 1 links := by
    rw [hops]
    have := attachments_map (portCalls routers brName 1 links)
    unfold attachments at this ⊢
    rw [List.filterMap_cons]
    exact this
  refine ⟨by rw [hops]; rfl, ?_, ?_⟩
  · rw [hatt, portCalls_ports]
  · intro k v hv
    rw [hatt]
    obtain ⟨a, b⟩ := portCalls_get routers brName links 1 k v hv
    have e1 : 1 + 2 * k = 2 * k + 1 := by omega
    have e2 : 1 + 2 * k + 1 = 2 * k + 2 := by omega
    rw [e1] at a
    rw [e2] at b
    exact ⟨a, b⟩

/-- C19, witness: the second of two links, `R2 - R3`, is attached with the
ports 3 and 4. -/
theorem setupContainerLinks_ports_witness :
    bridgeLinks[1]? = some bridgeLink2 ∧
    sideCall bridgeRouters "br" bridgeLink2.First (2 * 1 + 1) =
      ⟨"br", "eth1", "AS100-R2", ⟨3, 100, "VPN_A"⟩⟩ ∧
    sideCall bridgeRouters "br" bridgeLink2.Second (2 * 1 + 2) =
      ⟨"br", "eth0", "AS100-R3", ⟨4, 100, ""⟩⟩ ∧
    (attachments (setupContainerLinks bridgeRouters portEntry ("", 0) ⟨0, 0, ""⟩ "br" bridgeLinks
        (fun _ => none)).1)[2 * 1]? =
      some (sideCall bridgeRouters "br" bridgeLink2.First (2 * 1 + 1)) ∧
    (attachments (setupContainerLinks bridgeRouters portEntry ("", 0) ⟨0, 0, ""⟩ "br" bridgeLinks
        (fun _ => none)).1)[2 * 1 + 1]? =
      some (sideCall bridgeRouters "br" bridgeLink2.Second (2 * 1 + 2)) :=
  ⟨by decide, by decide, by decide,
    (setupContainerLinks_ports bridgeRouters portEntry ("", 0) ⟨0, 0, ""⟩ "br" bridgeLinks
      (fun _ => none)).2.2 1 bridgeLink2 (by decide)⟩

/-- One side of a link appends one entry to the plan of its container and
leaves the other containers as they are. -/
theorem setupSide_plan {I : Type} (routers : RouterPtr → Router) (addPort : PortCall → I → I)
    (brName : String) (side : LinkItem) (st : SetupState I) (c : String) :
    ∃ added : List I,
      entries (setupSide routers addPort brName side st).m c = entries st.m c ++ added ∧
      added.length = (if (routers side.Router).ContainerName = c then 1 else 0) ∧
      ((routers side.Router).ContainerName ≠ c →
        (setupSide routers addPort brName side st).m c = st.m c) := by
  by_cases hc : (routers side.Router).ContainerName = c
  · refine ⟨[addPort (sideCall routers brName side st.settings.OFPort) st.hostIf], ?_, ?_, ?_⟩
    · subst hc
      unfold setupSide entries planSet
      cases hm : st.m (routers side.Router).ContainerName <;> simp [hm, sideCall]
    · simp [hc]
    · intro h; exact absurd hc h
  · have hc' : ¬ (c = (routers side.Router).ContainerName) := fun h => hc h.symm
    have e : (setupSide routers addPort brName side st).m c = st.m c := by
      unfold setupSide planSet
      cases hm : st.m (routers side.Router).ContainerName <;> simp [hm, hc']
    refine ⟨[], ?_, ?_, fun _ => e⟩
    · unfold entries; rw [e, List.append_nil]
    · simp [hc]

/-- The plan after the loop of `setupContainerLinks` from any state. -/
theorem setupLoop_plan {I : Type} (routers : RouterPtr → Router) (addPort : PortCall → I → I)
    (brName : String) (c : String) (links : List Link) :
    ∀ st : SetupState I, ∃ added : List I,
      entries (links.foldl (fun st v =>
          setupSide routers addPort brName v.Second (setupSide routers addPort brName v.First st))
        st).m c = entries st.m c ++ added ∧
      added.length = endpoints routers c links ∧
      (endpoints routers c links = 0 →
        (links.foldl (fun st v =>
          setupSide routers addPort brName v.Second (setupSide routers addPort brName v.First st))
        st).m c = st.m c) := by
  induction links with
  | nil => intro st; exact ⟨[], by simp, rfl, fun _ => rfl⟩
  | cons v vs ih =>
    intro st
    obtain ⟨x1, a1, b1, c1⟩ := setupSide_plan routers addPort brName v.First st c
    obtain ⟨x2, a2, b2, c2⟩ := setupSide_plan routers addPort brName v.Second
      (setupSide routers addPort brName v.First st) c
    obtain ⟨x3, a3, b3, c3⟩ := ih
      (setupSide routers addPort brName v.Second (setupSide routers addPort brName v.First st))
    rw [List.foldl_cons]
    refine ⟨x1 ++ x2 ++ x3, ?_, ?_, ?_⟩
    · rw [a3, a2, a1]; simp only [List.append_assoc]
    · simp only [List.length_append, b1, b2, b3, endpoints]
    · intro h0
      simp only [endpoints] at h0
      have hA : (routers v.First.Router).ContainerName ≠ c := by
        intro h; rw [if_pos h] at h0; omega
      have hB : (routers v.Second.Router).ContainerName ≠ c := by
        intro h; rw [if_pos h] at h0; omega
      have hC : endpoints routers c vs = 0 := by omega
      rw [c3 hC, c2 hB, c1 hA]

/-- C20: after `setupContainerLinks` the plan entry of every container `c`
is its entry before, an absent one counting as empty, followed by as many new
entries as the links have sides whose router has the container name `c`; a
container that is on no side of a link keeps its entry, absent or present,
unchanged. -/
theorem setupContainerLinks_plan {I : Type} (routers : RouterPtr → Router)
    (addPort : PortCall → I → I) (zeroIf : I) (DefaultParams : PortSettings) (brName : String)
    (links : List Link) (m : String → Option (List I)) (c : String) :
    ∃ added : List I,
      entries (setupContainerLinks routers addPort zeroIf DefaultParams brName links m).2 c =
        entries m c ++ added ∧
      added.length = endpoints routers c links ∧
      (entries (setupContainerLinks routers addPort zeroIf DefaultParams brName links m).2 c).length =
        (entries m c).length + endpoints routers c links ∧
      (endpoints routers c links = 0 →
        (setupContainerLinks routers addPort zeroIf DefaultParams brName links m).2 c = m c) := by
  obtain ⟨added, h1, h2, h3⟩ := setupLoop_plan routers addPort brName c links
    { ops := [.CreateBridge brName], hostIf := zeroIf,
      settings := { DefaultParams with OFPort := 1 }, m := m }
  refine ⟨added, h1, h2, ?_, h3⟩
  unfold setupContainerLinks
  simp only
  rw [h1, List.length_append, h2]

/-- C20, witness: with two links `R1 - R2` and `R2 - R3` and a plan that
holds one entry for `AS100-R2`, that container gets two more entries, and a
container on no link keeps its entry. -/
theorem setupContainerLinks_plan_witness :
    endpoints bridgeRouters "AS100-R2" bridgeLinks = 2 ∧
    endpoints bridgeRouters "AS200-R1" bridgeLinks = 0 ∧
    (setupContainerLinks bridgeRouters portEntry ("", 0) ⟨0, 0, ""⟩ "br" bridgeLinks
        (fun k => if k = "AS100-R2" ∨ k = "AS200-R1" then some [("eth9", 7)] else none)).2
        "AS100-R2" = some [("eth9", 7), ("eth0", 2), ("eth1", 3)] ∧
    (∃ added : List (String × Nat),
      entries (setupContainerLinks bridgeRouters portEntry ("", 0) ⟨0, 0, ""⟩ "br" bridgeLinks
          (fun k => if k = "AS100-R2" ∨ k = "AS200-R1" then some [("eth9", 7)] else none)).2
          "AS100-R2" =
        entries (fun k => if k = "AS100-R2" ∨ k = "AS200-R1" then some [("eth9", 7)] else none)
          "AS100-R2" ++ added ∧
      added.length = endpoints bridgeRouters "AS100-R2" bridgeLinks ∧
      (entries (setupContainerLinks bridgeRouters portEntry ("", 0) ⟨0, 0, ""⟩ "br" bridgeLinks
          (fun k => if k = "AS100-R2" ∨ k = "AS200-R1" then some [("eth9", 7)] else none)).2
          "AS100-R2").length =
        (entries (fun k => if k = "AS100-R2" ∨ k = "AS200-R1" then some [("eth9", 7)] else none)
          "AS100-R2").length + endpoints bridgeRouters "AS100-R2" bridgeLinks ∧
      (endpoints bridgeRouters "AS100-R2" bridgeLinks = 0 →
        (setupContainerLinks bridgeRouters portEntry ("", 0) ⟨0, 0, ""⟩ "br" bridgeLinks
          (fun k => if k = "AS100-R2" ∨ k = "AS200-R1" then some [("eth9", 7)] else none)).2
          "AS100-R2" =
        (fun k => if k = "AS100-R2" ∨ k = "AS200-R1" then some [("eth9", 7)] else none)
          "AS100-R2")) :=
  ⟨by decide, by decide, by decide,
    setupContainerLinks_plan bridgeRouters portEntry ("", 0) ⟨0, 0, ""⟩ "br" bridgeLinks
      (fun k => if k = "AS100-R2" ∨ k = "AS200-R1" then some [("eth9", 7)] else none) "AS100-R2"⟩

end Topomate
